import Mathlib

/-!
# The camera node and the master node: serial protocol, image transfer, button

Shallow embedding of `firmware/esp32_cam/main.cpp` and
`firmware/esp32_master/main.cpp`: the framed commands and responses, the chunked
image transfer, the image store of the camera, and the button, the main loop and the
playback of the master.

Conventions of the embedding:

* a byte (`uint8_t`) is a `Nat` below 256; every assignment to a `uint8_t`
  variable that can leave that range is followed by an explicit `% 256`;
* a fixed-size C array is a `List Nat` whose length is the capacity of the
  array; a write outside the array is undefined behaviour in C and is the
  result `none` here (see `bufWrite`, `bufMemcpy`);
* a pointer argument that may be `NULL` is an `Option`;
* the camera prints its log lines on the serial port that is also its link to the
  master, so its output is one trace of `write`, `println` and `printf` calls
  (`Cam.SerialOut`);
* the master polls its serial port under a timeout: its input is the list of polls
  made before the deadline, each with the byte read or with nothing available; in
  `receiveImageChunks`, which has several timed loops, a poll can also be the end of
  the time of the current loop (`Master.Poll`);
* `captureAndSaveImage` and `sendImageViaUART`, which drive the sensor and the SD
  card, are parameters of the camera's receiver (`Cam.Handlers`); they are also
  modelled on their own, over the files of the card as a list of path and content
  and with what the hardware delivers as an argument (`Cam.CaptureEnv`, the polls of
  `Cam.waitForACK`);
* a function that waits for input returns a value that says so when the input given
  is used up (`none` in `Cam.sendImageViaUART`, `Master.Iter.waiting`);
* the log lines of the master go to `Serial`, which is not its link to the camera
  (`Serial2`), and are left out;
* `buttonISR` is an interrupt handler: it is modelled as a function of the globals that
  can run between any two statements of `loop`; `Master.loop` is one pass of `loop`
  with no interrupt during the pass, with what the network and the camera deliver as
  an argument (`Master.LoopEnv`);
* the HTTP response that `playAudioResponse` plays is the list of the byte blocks its
  `client.read` calls return.
-/

namespace Blind

/-! ## Constants of the two `config.h` files -/

/-- The value of `START_BYTE` (both `config.h`). -/
def START_BYTE : Nat := 0xAA

/-- The value of `ACK_BYTE` (master `config.h`). -/
def ACK_BYTE : Nat := 0x06

/-- The value of `NACK_BYTE` (master `config.h`). -/
def NACK_BYTE : Nat := 0x15

/-- The value of `CMD_CAPTURE`. -/
def CMD_CAPTURE : Nat := 0x01

/-- The value of `CMD_SEND_IMAGE`. -/
def CMD_SEND_IMAGE : Nat := 0x02

/-- The value of `CMD_GET_STATUS`. -/
def CMD_GET_STATUS : Nat := 0x03

/-- The value of `CMD_DELETE_IMAGE`. -/
def CMD_DELETE_IMAGE : Nat := 0x04

/-- The value of `STATUS_SUCCESS`. -/
def STATUS_SUCCESS : Nat := 0x00

/-- The value of `STATUS_CAM_ERROR`. -/
def STATUS_CAM_ERROR : Nat := 0x01

/-- The value of `STATUS_SD_ERROR`. -/
def STATUS_SD_ERROR : Nat := 0x02

/-- The value of `STATUS_IMG_TOO_LARGE`. -/
def STATUS_IMG_TOO_LARGE : Nat := 0x03

/-- The value of `STATUS_NO_IMAGE`. -/
def STATUS_NO_IMAGE : Nat := 0x04

/-- The value of `UART_RX_BUFFER_SIZE` (camera `config.h`); the master declares its
receive buffer as `uint8_t rxBuffer[256]` with the same capacity. -/
def UART_RX_BUFFER_SIZE : Nat := 256

/-! ## Checked array accesses -/

/-- The assignment `buf[i] = v` on a C array: defined only inside the array. -/
def bufWrite (buf : List Nat) (i v : Nat) : Option (List Nat) :=
  if i < buf.length then some (buf.set i v) else none

/-- The call `memcpy(&buf[off], src, n)`: defined only when the `n` bytes fit into
`buf` from offset `off` on and `src` holds at least `n` bytes. -/
def bufMemcpy (buf : List Nat) (off : Nat) (src : List Nat) (n : Nat) : Option (List Nat) :=
  if off + n ≤ buf.length ∧ n ≤ src.length then
    some (buf.take off ++ src.take n ++ buf.drop (off + n))
  else none

/-- The statement `if (src != NULL && n > 0) { memcpy(&buf[off], src, n); }` of the two
senders. -/
def memcpyIfPresent (buf : List Nat) (off : Nat) (src : Option (List Nat)) (n : Nat) :
    Option (List Nat) :=
  match src with
  | some bytes => if n > 0 then bufMemcpy buf off bytes n else some buf
  | none => some buf

/-! ## CRC-8 (camera `main.cpp` 524-537, master `main.cpp` 813-826) -/

namespace Cam

/-- One pass of the inner loop of `calculateCRC8` on the `uint8_t` accumulator:
`if (crc & 0x80) crc = (crc << 1) ^ 0x07; else crc <<= 1;`. -/
def crcBitStep (crc : Nat) : Nat :=
  if crc &&& 0x80 ≠ 0 then ((crc <<< 1) ^^^ 0x07) % 256 else (crc <<< 1) % 256

/-- The body of the outer loop of `calculateCRC8`: `crc ^= data[i]` and then the
inner loop, which runs 8 times. -/
def crcByteStep (crc b : Nat) : Nat :=
  crcBitStep^[8] ((crc ^^^ b) % 256)

/-- The camera's `calculateCRC8(data, length)`: the loop over `data[0 .. length)`
starting from `crc = 0x00`. -/
def calculateCRC8 (data : List Nat) (length : Nat) : Nat :=
  (data.take length).foldl crcByteStep 0x00

end Cam

namespace Master

/-- One pass of the inner loop of the master's `calculateCRC8`. -/
def crcBitStep (crc : Nat) : Nat :=
  if crc &&& 0x80 ≠ 0 then ((crc <<< 1) ^^^ 0x07) % 256 else (crc <<< 1) % 256

/-- The body of the outer loop of the master's `calculateCRC8`. -/
def crcByteStep (crc b : Nat) : Nat :=
  crcBitStep^[8] ((crc ^^^ b) % 256)

/-- The master's `calculateCRC8(data, length)`. -/
def calculateCRC8 (data : List Nat) (length : Nat) : Nat :=
  (data.take length).foldl crcByteStep 0x00

end Master

/-! ## Sending a frame (master `main.cpp` 478-495, camera `main.cpp` 410-425) -/

namespace Master

/-- The master's `sendUARTCommand(cmdId, payload, payloadLen)`. `packet` is the
initial (indeterminate) content of the local array `uint8_t packet[256]`. The result
is the byte sequence handed to `Serial2.write(packet, 4 + payloadLen)`; the C
function then returns `true` on every path. `none`: an access outside an array. -/
def sendUARTCommand (packet : List Nat) (cmdId : Nat) (payload : Option (List Nat))
    (payloadLen : Nat) : Option (List Nat) := do
  let packet ← bufWrite packet 0 START_BYTE
  let packet ← bufWrite packet 1 cmdId
  let packet ← bufWrite packet 2 (payloadLen &&& 0xFF)
  let packet ← memcpyIfPresent packet 3 payload payloadLen
  let checksum := calculateCRC8 packet (3 + payloadLen)
  let packet ← bufWrite packet (3 + payloadLen) checksum
  some (packet.take (4 + payloadLen))

end Master

namespace Cam

/-- The camera's `sendUARTResponse(statusCode, data, dataLength)`. `response` is the
initial (indeterminate) content of the local array `uint8_t response[256]`. The
result is the byte sequence handed to `Serial.write(response, 4 + dataLength)`.
`none`: an access outside an array. -/
def sendUARTResponse (response : List Nat) (statusCode : Nat) (data : Option (List Nat))
    (dataLength : Nat) : Option (List Nat) := do
  let response ← bufWrite response 0 START_BYTE
  let response ← bufWrite response 1 statusCode
  let response ← bufWrite response 2 (dataLength &&& 0xFF)
  let response ← memcpyIfPresent response 3 data dataLength
  let checksum := calculateCRC8 response (3 + dataLength)
  let response ← bufWrite response (3 + dataLength) checksum
  some (response.take (4 + dataLength))

end Cam

/-! ## Receiving a response on the master (`main.cpp` 501-544) -/

namespace Master

/-- The output parameters of `receiveUARTResponse`: the byte `*statusCode`, the
caller's buffer behind `data` and the value `*dataLen` (`none` for a `NULL`
pointer), before or after the call. -/
structure RxOut where
  statusCode : Nat
  data : Option (List Nat)
  dataLen : Option Nat
  deriving DecidableEq, Repr

/-- What a call of `receiveUARTResponse` leaves behind: the returned `bool`, the output
parameters and the polls of the serial port it did not consume. -/
structure RxReturn where
  ret : Bool
  out : RxOut
  unread : List (Option Nat)
  deriving DecidableEq, Repr

/-- The statements executed on a checksum match:
`*statusCode = status; if (data != NULL && dataLen != NULL && length > 0)
{ memcpy(data, &rxBuffer[3], length); *dataLen = length; }`. -/
def storeResponse (out : RxOut) (status : Nat) (rxBuffer : List Nat) (length : Nat) :
    Option RxOut :=
  match out.data, out.dataLen with
  | some dest, some _ =>
    if length > 0 then
      (bufMemcpy dest 0 (rxBuffer.drop 3) length).map
        fun dest => { statusCode := status, data := some dest, dataLen := some length }
    else some { out with statusCode := status }
  | _, _ => some { out with statusCode := status }

/-- The `while (millis() - startTime < UART_TIMEOUT_MS)` loop of
`receiveUARTResponse`. Each element of the list is one iteration that starts before
the deadline: `some b` when `Serial2.available() > 0` and `Serial2.read()` returns
`b`, `none` when nothing is available; the end of the list is the timeout.
`none` as a result: a write outside `rxBuffer`. -/
def receiveLoop (out : RxOut) : List Nat → Nat → List (Option Nat) → Option RxReturn
  | _, _, [] => some { ret := false, out := out, unread := [] }
  | rxBuffer, rxIndex, none :: polls => receiveLoop out rxBuffer rxIndex polls
  | rxBuffer, rxIndex, some inByte :: polls =>
    if rxIndex = 0 ∧ inByte ≠ START_BYTE then receiveLoop out rxBuffer rxIndex polls
    else
      match bufWrite rxBuffer rxIndex inByte with
      | none => none
      | some rxBuffer =>
        let rxIndex := rxIndex + 1
        if rxIndex ≥ 4 then
          let status := rxBuffer.getD 1 0
          let length := rxBuffer.getD 2 0
          if rxIndex ≥ 4 + length then
            let receivedChecksum := rxBuffer.getD (3 + length) 0
            let calculatedChecksum := calculateCRC8 rxBuffer (3 + length)
            if receivedChecksum = calculatedChecksum then
              (storeResponse out status rxBuffer length).map
                fun out => { ret := true, out := out, unread := polls }
            else some { ret := false, out := out, unread := polls }
          else receiveLoop out rxBuffer rxIndex polls
        else receiveLoop out rxBuffer rxIndex polls

/-- The master's `receiveUARTResponse(statusCode, data, dataLen)`: `rxBuffer` is the
initial (indeterminate) content of the local array `uint8_t rxBuffer[256]`, `out` the
output parameters as the caller passes them, `polls` what the serial port delivers
until the timeout. -/
def receiveUARTResponse (rxBuffer : List Nat) (out : RxOut) (polls : List (Option Nat)) :
    Option RxReturn :=
  receiveLoop out rxBuffer 0 polls

end Master

/-! ## The command receiver of the camera (`main.cpp` 319-404) -/

namespace Cam

/-- One call on the camera's `Serial` port, which is both its log channel and its link
to the master (`Serial.begin(UART_BAUD_RATE)` in `setup`). -/
inductive SerialOut where
  | write (bytes : List Nat)
  | println (text : String)
  | print (text : String)
  deriving DecidableEq, Repr

/-- The bytes a call puts on the wire; `println` sends the text followed by CR LF,
`print` (the formatted text of a `printf`) the text alone. -/
def SerialOut.wire : SerialOut → List Nat
  | .write bytes => bytes
  | .println text => text.toList.map Char.toNat ++ [13, 10]
  | .print text => text.toList.map Char.toNat

/-- The globals of the camera other than the receive buffer (`latestImagePath`,
`imageCounter`, `sdCardInitialized`), the files on the SD card (path and content, in
directory order) and everything written to `Serial` so far. -/
structure Device where
  latestImagePath : String
  imageCounter : Nat
  sdCardInitialized : Bool
  files : List (String × List Nat)
  tx : List SerialOut
  deriving DecidableEq, Repr

/-- The camera: the device and the receiver globals `rxBuffer`, `rxIndex`. -/
structure CamState where
  dev : Device
  rxBuffer : List Nat
  rxIndex : Nat
  deriving DecidableEq, Repr

/-- The two command handlers that drive hardware, `captureAndSaveImage()` and
`sendImageViaUART(imagePath)`: each maps the device to its result and the device
afterwards. Neither touches `rxBuffer` or `rxIndex`. They are parameters of the
receiver; the theorems about the receiver hold for every behaviour of them. -/
structure Handlers where
  captureAndSaveImage : Device → String × Device
  sendImageViaUART : String → Device → Bool × Device

/-- The call `SD_MMC.remove(path)`: the file of that path is gone afterwards. -/
def sdRemove (path : String) (files : List (String × List Nat)) : List (String × List Nat) :=
  files.filter fun f => f.1 ≠ path

/-- A call `sendUARTResponse(statusCode, data, dataLength)` in the device: the frame is
appended to the serial output. The local array `response` is taken as zero-filled; the
frame does not depend on its initial content (theorem `sendUARTResponse_frame`). -/
def respond (dev : Device) (statusCode : Nat) (data : Option (List Nat)) (dataLength : Nat) :
    Option Device :=
  (sendUARTResponse (List.replicate 256 0) statusCode data dataLength).map
    fun frame => { dev with tx := dev.tx ++ [SerialOut.write frame] }

/-- The `switch (cmdId)` of `processUARTCommand` (lines 343-389). -/
def dispatch (h : Handlers) (cmdId : Nat) (dev : Device) : Option Device :=
  if cmdId = CMD_CAPTURE then
    let r := h.captureAndSaveImage dev
    if r.1.length > 0 then respond r.2 STATUS_SUCCESS none 0
    else respond r.2 STATUS_CAM_ERROR none 0
  else if cmdId = CMD_SEND_IMAGE then
    if dev.latestImagePath.length > 0 then
      let r := h.sendImageViaUART dev.latestImagePath dev
      if r.1 then respond r.2 STATUS_SUCCESS none 0
      else respond r.2 STATUS_SD_ERROR none 0
    else respond dev STATUS_NO_IMAGE none 0
  else if cmdId = CMD_GET_STATUS then
    let statusData := [if dev.sdCardInitialized then 1 else 0, dev.imageCounter &&& 0xFF]
    respond dev STATUS_SUCCESS (some statusData) 2
  else if cmdId = CMD_DELETE_IMAGE then
    if dev.latestImagePath.length > 0 then
      respond { dev with files := sdRemove dev.latestImagePath dev.files, latestImagePath := "" }
        STATUS_SUCCESS none 0
    else respond dev STATUS_NO_IMAGE none 0
  else some { dev with tx := dev.tx ++ [SerialOut.println "Unknown command"] }

/-- The part of the loop body after the write (lines 331-397): once 4 bytes are there
and `4 + payloadLength` bytes have been accumulated, the checksum is compared, the
command dispatched or the error logged, and `rxIndex` reset. The result is the device
and the new `rxIndex`. -/
def checkFrame (h : Handlers) (dev : Device) (rxBuffer : List Nat) (rxIndex : Nat) :
    Option (Device × Nat) :=
  if rxIndex ≥ 4 then
    let cmdId := rxBuffer.getD 1 0
    let payloadLength := rxBuffer.getD 2 0
    if rxIndex ≥ 4 + payloadLength then
      let receivedChecksum := rxBuffer.getD (3 + payloadLength) 0
      let calculatedChecksum := calculateCRC8 rxBuffer (3 + payloadLength)
      if receivedChecksum = calculatedChecksum then
        (dispatch h cmdId dev).map fun dev => (dev, 0)
      else some ({ dev with tx := dev.tx ++ [SerialOut.println "Checksum error"] }, 0)
    else some (dev, rxIndex)
  else some (dev, rxIndex)

/-- One iteration of the `while (Serial.available() > 0)` loop of `processUARTCommand`
with `inByte = Serial.read()`. `none`: a write outside `rxBuffer`. -/
def processByte (h : Handlers) (cam : CamState) (inByte : Nat) : Option CamState :=
  if cam.rxIndex = 0 ∧ inByte ≠ START_BYTE then some cam
  else
    match bufWrite cam.rxBuffer cam.rxIndex inByte with
    | none => none
    | some rxBuffer =>
      (checkFrame h cam.dev rxBuffer (cam.rxIndex + 1)).map fun r =>
        { dev := r.1, rxBuffer := rxBuffer,
          rxIndex := if r.2 ≥ UART_RX_BUFFER_SIZE then 0 else r.2 }

/-- The camera's `processUARTCommand()`, run over the bytes its `Serial.read()` calls
return one after the other (the receiver state is global, so it carries over from one
call of the function to the next; bytes that `waitForACK` reads inside
`sendImageViaUART` are not part of the list). -/
def processUARTCommand (h : Handlers) (cam : CamState) : List Nat → Option CamState
  | [] => some cam
  | inByte :: rest => (processByte h cam inByte).bind fun cam => processUARTCommand h cam rest

/-- The camera after `setup` with nothing received: zeroed receive buffer, `rxIndex = 0`. -/
def CamState.boot (dev : Device) : CamState :=
  { dev := dev, rxBuffer := List.replicate UART_RX_BUFFER_SIZE 0, rxIndex := 0 }

/-- A camera with one stored image and 261 captures since boot, nothing written yet. -/
def Device.sample : Cam.Device :=
  { latestImagePath := "/images/IMG_1.jpg", imageCounter := 261, sdCardInitialized := true,
    files := [("/images/IMG_1.jpg", [0xFF, 0xD8, 0xFF, 0xD9])], tx := [] }

/-- Handlers of a camera on which every capture fails and every transfer fails. -/
def Handlers.failing : Handlers :=
  { captureAndSaveImage := fun dev => ("", dev), sendImageViaUART := fun _ dev => (false, dev) }

end Cam

/-! ## Notions used to state the properties -/

/-- A complete frame as the receivers see it: it starts with the start marker, its
length byte is at most 252 and it consists of 4 + length bytes. -/
def IsCompleteFrame (F : List Nat) : Prop :=
  F.getD 0 0 = START_BYTE ∧ F.getD 2 0 ≤ 252 ∧ F.length = 4 + F.getD 2 0

instance (F : List Nat) : Decidable (IsCompleteFrame F) := by
  unfold IsCompleteFrame
  infer_instance

/-- The checksum algorithm in the words of the specification, one round: the
accumulator is shifted left by one (mod 256) and XORed with 0x07 when its high bit
was set before the shift. -/
def crc8SpecRound (acc : Nat) : Nat :=
  if acc.testBit 7 then ((acc * 2) % 256) ^^^ 0x07 else (acc * 2) % 256

/-- The checksum algorithm in the words of the specification: the accumulator starts
at 0; each input byte is XORed into it and then 8 rounds are applied. -/
def crc8Spec (bytes : List Nat) : Nat :=
  bytes.foldl (fun acc b => crc8SpecRound^[8] (acc ^^^ b)) 0

/-- Inverse of one pass of the inner CRC loop on bytes (used to show that the loop
loses no information). -/
def crcBitUndo (y : Nat) : Nat :=
  if y &&& 1 ≠ 0 then ((y ^^^ 0x07) >>> 1) ||| 0x80 else y >>> 1

/-- The sequence `d` with bit `k` of its byte at position `i` inverted. -/
def flipBit (d : List Nat) (i k : Nat) : List Nat :=
  d.set i (d.getD i 0 ^^^ (1 <<< k))

/-! ## The chunked transfer of the camera (`main.cpp` 431-518) -/

/-- The value of `CHUNK_SIZE` (both `config.h`). -/
def CHUNK_SIZE : Nat := 1024

namespace Cam

/-- The text `printf` produces for `%d` from a 32-bit argument. -/
def fmtD (n : Nat) : String :=
  if n < 2 ^ 31 then toString n else "-" ++ toString (2 ^ 32 - n)

/-- The camera's `waitForACK()`: `polls` are the passes of its loop made before
`ACK_TIMEOUT_MS` is over, each with the byte read or with nothing available. It returns
true at the first byte `0x06` and false when the time is over. -/
def waitForACK : List (Option Nat) → Bool
  | [] => false
  | some ack :: polls => if ack = 0x06 then true else waitForACK polls
  | none :: polls => waitForACK polls

/-- The seven header bytes `sendChunk` builds. -/
def chunkHeader (chunkSize chunkIndex totalChunks : Nat) : List Nat :=
  [START_BYTE, (chunkIndex >>> 8) &&& 0xFF, chunkIndex &&& 0xFF,
    (totalChunks >>> 8) &&& 0xFF, totalChunks &&& 0xFF,
    (chunkSize >>> 8) &&& 0xFF, chunkSize &&& 0xFF]

/-- The checksum of a chunk packet: `calculateCRC8(header, 7)`, then
`checksum ^= chunkData[i]` for `i < chunkSize`, in a `uint8_t`. -/
def chunkChecksum (header chunkData : List Nat) (chunkSize : Nat) : Nat :=
  (chunkData.take chunkSize).foldl (fun checksum b => (checksum ^^^ b) % 256)
    (calculateCRC8 header 7)

/-- The camera's `sendChunk(chunkData, chunkSize, chunkIndex, totalChunks)`: the three
`Serial.write` calls it makes (header, data, checksum). -/
def sendChunk (chunkData : List Nat) (chunkSize chunkIndex totalChunks : Nat) :
    List SerialOut :=
  [SerialOut.write (chunkHeader chunkSize chunkIndex totalChunks),
    SerialOut.write (chunkData.take chunkSize),
    SerialOut.write [chunkChecksum (chunkHeader chunkSize chunkIndex totalChunks)
      chunkData chunkSize]]

/-- The value of `uint16_t totalChunks = (fileSize + CHUNK_SIZE - 1) / CHUNK_SIZE` for a
32-bit `size_t fileSize`. -/
def totalChunksOf (fileSize : Nat) : Nat :=
  ((fileSize + CHUNK_SIZE - 1) % 2 ^ 32 / CHUNK_SIZE) % 65536

/-- The loop `while (file.available())` of `sendImageViaUART` on a file of content
`content`, at file position `pos` with `chunkIndex` (a `uint16_t`). Each pass reads up to
`CHUNK_SIZE` bytes, sends them with `sendChunk` and calls `waitForACK`; the first
argument holds, for every call of `waitForACK` that is made, the polls of that call.
The result is `some true` with the final line when the loop has ended, and `none` when
the sender is still inside a `waitForACK` for which no polls are given. -/
def sendLoop (content : List Nat) (totalChunks : Nat) :
    List (List (Option Nat)) → Nat → Nat → List SerialOut → Option Bool × List SerialOut
  | [], pos, chunkIndex, tx =>
    if pos < content.length then
      (none, tx ++ sendChunk ((content.drop pos).take CHUNK_SIZE)
        ((content.drop pos).take CHUNK_SIZE).length chunkIndex totalChunks)
    else (some true, tx ++ [SerialOut.println "Image transfer complete"])
  | polls :: acks, pos, chunkIndex, tx =>
    if pos < content.length then
      if waitForACK polls then
        sendLoop content totalChunks acks
          (pos + ((content.drop pos).take CHUNK_SIZE).length) ((chunkIndex + 1) % 65536)
          (tx ++ sendChunk ((content.drop pos).take CHUNK_SIZE)
            ((content.drop pos).take CHUNK_SIZE).length chunkIndex totalChunks)
      else
        sendLoop content totalChunks acks (chunkIndex * CHUNK_SIZE) chunkIndex
          (tx ++ sendChunk ((content.drop pos).take CHUNK_SIZE)
              ((content.drop pos).take CHUNK_SIZE).length chunkIndex totalChunks
            ++ [SerialOut.println "ACK timeout - retrying chunk"])
    else (some true, tx ++ [SerialOut.println "Image transfer complete"])

/-- The call `SD_MMC.open(path, FILE_READ)`: the content of the file of that path. -/
def sdOpenRead (path : String) (files : List (String × List Nat)) : Option (List Nat) :=
  (files.find? fun f => f.1 = path).map fun f => f.2

/-- The camera's `sendImageViaUART(imagePath)`, with the polls of every `waitForACK`
call in `acks`. The returned value is `none` while the function has not returned. -/
def sendImageViaUART (acks : List (List (Option Nat))) (imagePath : String)
    (dev : Device) : Option Bool × Device :=
  match sdOpenRead imagePath dev.files with
  | none =>
    (some false, { dev with tx := dev.tx ++ [SerialOut.println "Failed to open image file"] })
  | some content =>
    let r := sendLoop content (totalChunksOf content.length) acks 0 0
      (dev.tx ++ [SerialOut.print ("Sending image: " ++ fmtD content.length ++ " bytes in "
        ++ fmtD (totalChunksOf content.length) ++ " chunks\n")])
    (r.1, { dev with tx := r.2 })

end Cam

/-- The `write` calls of a serial trace, in order (the log lines left out). -/
def Cam.writes (tx : List Cam.SerialOut) : List (List Nat) :=
  tx.filterMap fun
    | .write bytes => some bytes
    | _ => none
/-- The file bytes `[i * 1024, min ((i + 1) * 1024, S))` of a file of `S` bytes. -/
def Cam.chunkOf (content : List Nat) (i : Nat) : List Nat :=
  (content.drop (i * CHUNK_SIZE)).take CHUNK_SIZE

/-- The chunk packet with header index `i`, header total `total` and payload `data`, as
the three writes of `sendChunk`. -/
def Cam.packet (total : Nat) (i : Nat) (data : List Nat) : List (List Nat) :=
  [Cam.chunkHeader data.length i total, data,
    [Cam.chunkChecksum (Cam.chunkHeader data.length i total) data data.length]]

/-! ## Receiving the image chunks on the master (`main.cpp` 550-658) -/

/-- The value of `MAX_IMAGE_SIZE` (master `config.h`). -/
def MAX_IMAGE_SIZE : Nat := 512 * 1024

namespace Master

/-- One pass of a timed read loop of `receiveImageChunks`: a byte is available and is
read, nothing is available and there is time left, or the time of the loop is over. -/
inductive Poll where
  | byte (b : Nat)
  | idle
  | timeout
  deriving DecidableEq, Repr

/-- How a read loop ends: with a write outside its array (`ub`), still running when the
given polls are used up (`pending`), or left with a value and the polls not yet made. -/
inductive Read (α : Type) where
  | ub
  | pending
  | ready (a : α) (rest : List Poll)
  deriving Repr

/-- The header loop `while (headerIndex < 7 && millis() - startTime < UART_TIMEOUT_MS)`:
bytes other than `START_BYTE` are skipped while `headerIndex` is 0. It ends with the
array and `headerIndex` (below 7 after a timeout). -/
def readHeader : List Nat → Nat → List Poll → Read (List Nat × Nat)
  | _, _, [] => Read.pending
  | header, headerIndex, Poll.timeout :: rest => Read.ready (header, headerIndex) rest
  | header, headerIndex, Poll.idle :: rest => readHeader header headerIndex rest
  | header, headerIndex, Poll.byte inByte :: rest =>
    if headerIndex = 0 ∧ inByte ≠ START_BYTE then readHeader header headerIndex rest
    else
      match bufWrite header headerIndex inByte with
      | none => Read.ub
      | some header1 =>
        if headerIndex + 1 < 7 then readHeader header1 (headerIndex + 1) rest
        else Read.ready (header1, headerIndex + 1) rest

/-- The data loop `while (bytesRead < chunkSize && millis() - startTime < UART_TIMEOUT_MS)`
with its write `chunkData[bytesRead++] = Serial2.read()` into `uint8_t chunkData[CHUNK_SIZE]`;
there is no test of `bytesRead` or `chunkSize` against `CHUNK_SIZE`. -/
def readPayload (chunkSize : Nat) : List Nat → Nat → List Poll → Read (List Nat × Nat)
  | chunkData, bytesRead, [] =>
    if bytesRead < chunkSize then Read.pending else Read.ready (chunkData, bytesRead) []
  | chunkData, bytesRead, Poll.timeout :: rest =>
    if bytesRead < chunkSize then Read.ready (chunkData, bytesRead) rest
    else Read.ready (chunkData, bytesRead) (Poll.timeout :: rest)
  | chunkData, bytesRead, Poll.idle :: rest =>
    if bytesRead < chunkSize then readPayload chunkSize chunkData bytesRead rest
    else Read.ready (chunkData, bytesRead) (Poll.idle :: rest)
  | chunkData, bytesRead, Poll.byte b :: rest =>
    if bytesRead < chunkSize then
      match bufWrite chunkData bytesRead b with
      | none => Read.ub
      | some chunkData1 => readPayload chunkSize chunkData1 (bytesRead + 1) rest
    else Read.ready (chunkData, bytesRead) (Poll.byte b :: rest)

/-- The wait `while (Serial2.available() == 0 && millis() - startTime < 1000)` and the
read of the checksum byte; `none` when no byte came in time. -/
def readChecksum : List Poll → Read (Option Nat)
  | [] => Read.pending
  | Poll.timeout :: rest => Read.ready none rest
  | Poll.idle :: rest => readChecksum rest
  | Poll.byte b :: rest => Read.ready (some b) rest

/-- The globals `imageBuffer` (an allocation of `MAX_IMAGE_SIZE` bytes) and
`imageBufferSize`, the local `expectedChunkIndex` (a `uint16_t`) and the bytes written to
`Serial2`, the link to the camera. The log lines of the master go to `Serial`, another
port, and are left out. -/
structure ImageRx where
  imageBuffer : List Nat
  imageBufferSize : Nat
  expectedChunkIndex : Nat
  tx : List Nat
  deriving DecidableEq, Repr

/-- How one pass of the loop `while (true)` of `receiveImageChunks` ends: undefined
behaviour, still reading when the polls are used up, `continue` or the fall through to
the next pass, or a `return`. -/
inductive Iter where
  | ub
  | waiting (st : ImageRx)
  | next (st : ImageRx) (rest : List Poll)
  | returned (ret : Bool) (st : ImageRx) (rest : List Poll)
  deriving Repr

/-- A 16-bit value from two header bytes: `uint16_t v = (hi << 8) | lo`. -/
def parse16 (hi lo : Nat) : Nat := ((hi <<< 8) ||| lo) % 65536

/-- The checksum the master computes: `calculateCRC8(header, 7)`, then
`calculatedChecksum ^= chunkData[i]` for `i < chunkSize`, in a `uint8_t`. -/
def chunkChecksum (header chunkData : List Nat) (chunkSize : Nat) : Nat :=
  (chunkData.take chunkSize).foldl (fun checksum b => (checksum ^^^ b) % 256)
    (calculateCRC8 header 7)

/-- The part of a pass after the checksum byte was read (`main.cpp` 617-656): checksum
test, index test, capacity test and copy, ACK, `expectedChunkIndex++`, test for the last
chunk. The local `totalChunks` is only read in the pass that wrote it. -/
def chunkVerdict (st : ImageRx) (header chunkData : List Nat) (receivedChecksum : Nat)
    (rest : List Poll) : Iter :=
  let chunkIndex := parse16 (header.getD 1 0) (header.getD 2 0)
  let totalChunks := parse16 (header.getD 3 0) (header.getD 4 0)
  let chunkSize := parse16 (header.getD 5 0) (header.getD 6 0)
  if chunkChecksum header chunkData chunkSize ≠ receivedChecksum then
    Iter.next { st with tx := st.tx ++ [NACK_BYTE] } rest
  else if chunkIndex ≠ st.expectedChunkIndex then
    Iter.next { st with tx := st.tx ++ [NACK_BYTE] } rest
  else if st.imageBufferSize + chunkSize ≤ MAX_IMAGE_SIZE then
    match bufMemcpy st.imageBuffer st.imageBufferSize chunkData chunkSize with
    | none => Iter.ub
    | some imageBuffer1 =>
      if chunkIndex + 1 ≥ totalChunks then
        Iter.returned true
          { imageBuffer := imageBuffer1, imageBufferSize := st.imageBufferSize + chunkSize,
            expectedChunkIndex := (st.expectedChunkIndex + 1) % 65536,
            tx := st.tx ++ [ACK_BYTE] } rest
      else
        Iter.next
          { imageBuffer := imageBuffer1, imageBufferSize := st.imageBufferSize + chunkSize,
            expectedChunkIndex := (st.expectedChunkIndex + 1) % 65536,
            tx := st.tx ++ [ACK_BYTE] } rest
  else Iter.returned false st rest

/-- The part of a pass after the data loop (`main.cpp` 596-615). -/
def afterPayload (st : ImageRx) (header : List Nat) :
    Read (List Nat × Nat) → Iter
  | Read.ub => Iter.ub
  | Read.pending => Iter.waiting st
  | Read.ready (chunkData, bytesRead) rest =>
    if bytesRead < parse16 (header.getD 5 0) (header.getD 6 0) then
      Iter.next { st with tx := st.tx ++ [NACK_BYTE] } rest
    else
      match readChecksum rest with
      | Read.ub => Iter.ub
      | Read.pending => Iter.waiting st
      | Read.ready none rest1 => Iter.next { st with tx := st.tx ++ [NACK_BYTE] } rest1
      | Read.ready (some receivedChecksum) rest1 =>
        chunkVerdict st header chunkData receivedChecksum rest1

/-- The part of a pass after the header loop (`main.cpp` 573-594); the local array
`chunkData` is taken as zero-filled, every byte of it that is read was written first. -/
def afterHeader (st : ImageRx) : Read (List Nat × Nat) → Iter
  | Read.ub => Iter.ub
  | Read.pending => Iter.waiting st
  | Read.ready (header, headerIndex) rest =>
    if headerIndex < 7 then Iter.next { st with tx := st.tx ++ [NACK_BYTE] } rest
    else
      afterPayload st header
        (readPayload (parse16 (header.getD 5 0) (header.getD 6 0))
          (List.replicate CHUNK_SIZE 0) 0 rest)

/-- One pass of the loop `while (true)` of `receiveImageChunks`; the local array
`header` is taken as zero-filled, all 7 bytes are written before it is read. -/
def chunkIteration (st : ImageRx) (polls : List Poll) : Iter :=
  afterHeader st (readHeader (List.replicate 7 0) 0 polls)

/-- The loop `while (true)` of `receiveImageChunks`, for at most `fuel` passes. -/
def receiveChunkLoop : Nat → ImageRx → List Poll → Iter
  | 0, st, _ => Iter.waiting st
  | fuel + 1, st, polls =>
    match chunkIteration st polls with
    | Iter.next st1 rest => receiveChunkLoop fuel st1 rest
    | r => r

/-- The master's `receiveImageChunks()` with `imageBuffer` and the output on `Serial2` as
they are at the call. Every pass uses up at least one poll, so `polls.length + 1` passes
are never all made. The result is `returned ret` with the final state and the polls not
made, `waiting` when the function is still reading after the given polls, or `ub`. -/
def receiveImageChunks (imageBuffer : List Nat) (tx : List Nat) (polls : List Poll) : Iter :=
  receiveChunkLoop (polls.length + 1)
    { imageBuffer := imageBuffer, imageBufferSize := 0, expectedChunkIndex := 0, tx := tx }
    polls

end Master
/-- The state a pass ends with, when it ends in a defined way. -/
def Master.Iter.state : Master.Iter → Option Master.ImageRx
  | .ub => none
  | .waiting st => some st
  | .next st _ => some st
  | .returned _ st _ => some st

/-- The bytes of a chunk packet with the given header, payload and checksum byte, each
one available when the master polls. -/
def Master.packetPolls (header data : List Nat) (checksum : Nat) : List Master.Poll :=
  (header ++ data ++ [checksum]).map Master.Poll.byte

/-! ## Capture and eviction on the camera (`main.cpp` 228-313)

The SD card library is outside the repository. `Cam.Device.files` holds the entries of
`IMAGE_DIR` (files only) as path and content in the order in which `openNextFile`
enumerates them, and the model takes that order as the order of creation: a new file is
enumerated after all existing ones, a file that is written again keeps its place.
`file.name()` is taken to give the name from which `IMAGE_DIR + "/" + file.name()` is the
path of the entry. -/

/-- The value of `MAX_IMAGES` (camera `config.h`). -/
def MAX_IMAGES : Nat := 10

/-- The value of `IMAGE_DIR` (camera `config.h`). -/
def IMAGE_DIR : String := "/images"

/-- The value of `IMAGE_PREFIX` (camera `config.h`). -/
def IMAGE_PREFIX : String := "IMG_"

/-- The value of `IMAGE_EXTENSION` (camera `config.h`). -/
def IMAGE_EXTENSION : String := ".jpg"

namespace Cam

/-- What one call of `captureAndSaveImage` gets from the hardware: the result and the
log output of `initSDCard()` (called only while `sdCardInitialized` is false), the frame
of `esp_camera_fb_get()` (`none` for `NULL`, else the bytes `fb->buf[0 .. fb->len)`), the
value of `millis()` used for the file name, and whether
`SD_MMC.open(filename, FILE_WRITE)` gives a file. -/
structure CaptureEnv where
  sdInit : Bool
  sdInitLog : List SerialOut
  frame : Option (List Nat)
  now : Nat
  canWrite : Bool

/-- The calls `SD_MMC.open(path, FILE_WRITE)`, `file.write(data)`, `file.close()`: an
existing file is replaced in place, a new file becomes the last entry. -/
def sdWrite (path : String) (data : List Nat) :
    List (String × List Nat) → List (String × List Nat)
  | [] => [(path, data)]
  | f :: files => if f.1 = path then (path, data) :: files else f :: sdWrite path data files

/-- The camera's `cleanupOldImages()`: it counts the files of `IMAGE_DIR` and, when there
are `MAX_IMAGES` or more, removes the first entry of the directory. -/
def cleanupOldImages (dev : Device) : Device :=
  if dev.files.length ≥ MAX_IMAGES then
    match dev.files with
    | [] => dev
    | file :: _ =>
      { dev with
        files := sdRemove file.1 dev.files,
        tx := dev.tx ++ [SerialOut.print ("Deleted old image: " ++ file.1 ++ "\n")] }
  else dev

/-- The file name `captureAndSaveImage` builds:
`IMAGE_DIR + "/" + IMAGE_PREFIX + String(millis()) + IMAGE_EXTENSION`. -/
def imageFileName (now : Nat) : String :=
  IMAGE_DIR ++ "/" ++ IMAGE_PREFIX ++ toString now ++ IMAGE_EXTENSION

/-- The camera's `captureAndSaveImage()`: the returned path (empty on failure) and the
device afterwards. The LED and the delay are left out; `imageCounter` is an `int` that
is not taken to overflow. -/
def captureAndSaveImage (env : CaptureEnv) (dev : Device) : String × Device :=
  if ¬ dev.sdCardInitialized ∧ ¬ env.sdInit then
    ("", { dev with
            sdCardInitialized := false,
            tx := dev.tx ++ env.sdInitLog ++ [SerialOut.println "SD Card still not available"] })
  else
    let dev1 : Device :=
      if dev.sdCardInitialized then dev
      else { dev with sdCardInitialized := true, tx := dev.tx ++ env.sdInitLog }
    match env.frame with
    | none => ("", { dev1 with tx := dev1.tx ++ [SerialOut.println "Camera capture failed"] })
    | some buf =>
      let dev2 := cleanupOldImages dev1
      if env.canWrite then
        (imageFileName env.now,
          { dev2 with
            files := sdWrite (imageFileName env.now) buf dev2.files,
            latestImagePath := imageFileName env.now,
            imageCounter := dev2.imageCounter + 1,
            tx := dev2.tx ++ [SerialOut.print ("Image saved: " ++ imageFileName env.now
              ++ " (" ++ fmtD buf.length ++ " bytes)\n")] })
      else
        ("", { dev2 with
                tx := dev2.tx ++ [SerialOut.println "Failed to open file for writing"] })

end Cam

/-- The device after a sequence of `captureAndSaveImage` calls. -/
def Cam.captureAll (envs : List Cam.CaptureEnv) (dev : Cam.Device) : Cam.Device :=
  envs.foldl (fun d env => (Cam.captureAndSaveImage env d).2) dev

/-- The directory entry a successful capture creates. -/
def Cam.capturedEntry (env : Cam.CaptureEnv) : String × List Nat :=
  (Cam.imageFileName env.now, env.frame.getD [])

/-- A call for which the hardware works: the card is up, the frame `buf` is delivered at
time `now` and the file can be written. -/
def Cam.CaptureEnv.good (now : Nat) (buf : List Nat) : Cam.CaptureEnv :=
  { sdInit := true, sdInitLog := [], frame := some buf, now := now, canWrite := true }

/-- The camera after `setup` with a card whose image directory is empty. -/
def Cam.Device.fresh : Cam.Device :=
  { latestImagePath := "", imageCounter := 0, sdCardInitialized := true, files := [], tx := [] }

/-! ## The button, the recording and the upload mode of the master
(`main.cpp` 181-212, 364-435, 664-695) -/

/-- The value of `BUTTON_DEBOUNCE_MS` (master `config.h`). -/
def BUTTON_DEBOUNCE_MS : Nat := 50

/-- The value of `LONG_PRESS_MS` (master `config.h`). -/
def LONG_PRESS_MS : Nat := 500

/-- The value of `AUDIO_RECORD_BUFFER_SIZE` (master `config.h`). -/
def AUDIO_RECORD_BUFFER_SIZE : Nat := 64 * 1024

/-- The value of `I2S_READ_LEN` (master `config.h`). -/
def I2S_READ_LEN : Nat := 1024

/-- The value of `WAV_HEADER_SIZE` (master `config.h`). -/
def WAV_HEADER_SIZE : Nat := 44

/-- The value of `MIC_SAMPLE_RATE` (master `config.h`). -/
def MIC_SAMPLE_RATE : Nat := 16000

/-- The value of `MIC_CHANNELS` (master `config.h`). -/
def MIC_CHANNELS : Nat := 1

/-- The value of `MIC_BITS_PER_SAMPLE` (master `config.h`). -/
def MIC_BITS_PER_SAMPLE : Nat := 16

/-- The value of `MULTIPART_BOUNDARY` (master `config.h`). -/
def MULTIPART_BOUNDARY : String := "----WebKitFormBoundary7MA4YWxkTrZu0gW"

namespace Master

/-- The `enum SystemState` of the master's `config.h`. -/
inductive SystemState where
  | STATE_IDLE
  | STATE_RECORDING
  | STATE_CAPTURING
  | STATE_UPLOADING
  | STATE_PLAYING
  | STATE_ERROR
  deriving DecidableEq, Repr

/-- The globals of the master that the button and the recording use: `currentState`,
`buttonPressTime` (an `unsigned long`, 32 bits), `buttonPressed`, `longPressDetected`,
`recordBuffer` (an allocation of `AUDIO_RECORD_BUFFER_SIZE` bytes) and
`recordBufferIndex`. The log lines on `Serial` are left out. -/
structure Globals where
  currentState : SystemState
  buttonPressTime : Nat
  buttonPressed : Bool
  longPressDetected : Bool
  recordBuffer : List Nat
  recordBufferIndex : Nat
  deriving DecidableEq, Repr

/-- The master's `changeState(newState)`. -/
def changeState (newState : SystemState) (g : Globals) : Globals :=
  { g with currentState := newState }

/-- The `n` bytes of a value in memory, least significant byte first (the ESP32 is
little-endian). -/
def leBytes (n value : Nat) : List Nat :=
  (List.range n).map fun k => value / 256 ^ k % 256

/-- The master's `createWAVHeader(header, dataSize, sampleRate, channels, bitsPerSample)`
as its fourteen `memcpy` calls. `channels` and `bitsPerSample` are `uint8_t` parameters
from which 2 bytes are copied: `stray` holds the byte that lies after each of them. -/
def createWAVHeader (header : List Nat) (dataSize sampleRate channels bitsPerSample : Nat)
    (stray : Nat × Nat) : Option (List Nat) := do
  let byteRate := sampleRate * channels * (bitsPerSample / 8) % 2 ^ 32
  let blockAlign := channels * (bitsPerSample / 8) % 65536
  let chunkSize := (dataSize + 36) % 2 ^ 32
  let h ← bufMemcpy header 0 [0x52, 0x49, 0x46, 0x46] 4
  let h ← bufMemcpy h 4 (leBytes 4 chunkSize) 4
  let h ← bufMemcpy h 8 [0x57, 0x41, 0x56, 0x45] 4
  let h ← bufMemcpy h 12 [0x66, 0x6D, 0x74, 0x20] 4
  let h ← bufMemcpy h 16 (leBytes 4 16) 4
  let h ← bufMemcpy h 20 (leBytes 2 1) 2
  let h ← bufMemcpy h 22 [channels, stray.1] 2
  let h ← bufMemcpy h 24 (leBytes 4 sampleRate) 4
  let h ← bufMemcpy h 28 (leBytes 4 byteRate) 4
  let h ← bufMemcpy h 32 (leBytes 2 blockAlign) 2
  let h ← bufMemcpy h 34 [bitsPerSample, stray.2] 2
  let h ← bufMemcpy h 36 [0x64, 0x61, 0x74, 0x61] 4
  bufMemcpy h 40 (leBytes 4 dataSize) 4

/-- The master's `stopRecording()`: the WAV header is written only while
`currentState == STATE_RECORDING`; `dataSize` is a `uint32_t`. -/
def stopRecording (stray : Nat × Nat) (g : Globals) : Option Globals :=
  if g.currentState = SystemState.STATE_RECORDING then
    (createWAVHeader g.recordBuffer
        ((g.recordBufferIndex + 2 ^ 32 - WAV_HEADER_SIZE) % 2 ^ 32)
        MIC_SAMPLE_RATE MIC_CHANNELS MIC_BITS_PER_SAMPLE stray).map
      fun buf => { g with recordBuffer := buf }
  else some g

/-- One call of `i2s_read` in `recordAudio`: the bytes delivered with `ESP_OK` (at most
`I2S_READ_LEN`), or an error. -/
inductive I2SRead where
  | ok (data : List Nat)
  | err
  deriving DecidableEq, Repr

/-- The loop `while (buttonPressed && recordBufferIndex < AUDIO_RECORD_BUFFER_SIZE)` of
`recordAudio`, with the results of its `i2s_read` calls; `none` when the loop is still
running after the reads given, or a copy leaves `recordBuffer`. -/
def recordLoop : List I2SRead → Globals → Option Globals
  | [], g =>
    if g.buttonPressed ∧ g.recordBufferIndex < AUDIO_RECORD_BUFFER_SIZE then none else some g
  | I2SRead.err :: reads, g =>
    if g.buttonPressed ∧ g.recordBufferIndex < AUDIO_RECORD_BUFFER_SIZE then recordLoop reads g
    else some g
  | I2SRead.ok data :: reads, g =>
    if g.buttonPressed ∧ g.recordBufferIndex < AUDIO_RECORD_BUFFER_SIZE then
      if data.length > 0 then
        match bufMemcpy g.recordBuffer g.recordBufferIndex data
            (min data.length (AUDIO_RECORD_BUFFER_SIZE - g.recordBufferIndex)) with
        | none => none
        | some buf =>
          recordLoop reads
            { g with
              recordBuffer := buf,
              recordBufferIndex := g.recordBufferIndex
                + min data.length (AUDIO_RECORD_BUFFER_SIZE - g.recordBufferIndex) }
      else recordLoop reads g
    else some g

/-- The master's `recordAudio()`. -/
def recordAudio (reads : List I2SRead) (g : Globals) : Option Globals :=
  recordLoop reads (changeState SystemState.STATE_RECORDING
    { g with recordBufferIndex := WAV_HEADER_SIZE })

/-- The master's `buttonISR()`: `pinLow` is `digitalRead(BUTTON_PIN) == LOW`,
`currentTime` the value of `millis()` (32 bits), `reads` the results of the `i2s_read`
calls made if the recording starts. -/
def buttonISR (pinLow : Bool) (currentTime : Nat) (reads : List I2SRead)
    (stray : Nat × Nat) (g : Globals) : Option Globals :=
  if pinLow then
    if ¬ g.buttonPressed
        ∧ (currentTime + 2 ^ 32 - g.buttonPressTime) % 2 ^ 32 > BUTTON_DEBOUNCE_MS then
      recordAudio reads { g with buttonPressed := true, buttonPressTime := currentTime }
    else some g
  else
    if g.buttonPressed
        ∧ (currentTime + 2 ^ 32 - g.buttonPressTime) % 2 ^ 32 > BUTTON_DEBOUNCE_MS then
      if (currentTime + 2 ^ 32 - g.buttonPressTime) % 2 ^ 32 ≥ LONG_PRESS_MS then
        (stopRecording stray { g with longPressDetected := true }).map fun g1 =>
          { changeState SystemState.STATE_CAPTURING g1 with buttonPressed := false }
      else
        some { changeState SystemState.STATE_CAPTURING { g with longPressDetected := false }
                with buttonPressed := false }
    else some g

/-- The text `uploadToBackend(includeAudio)` builds in `requestBody` up to the image
data: the session id field, the mode field and the header of the image part. -/
def requestBody (sessionId : String) (includeAudio : Bool) : String :=
  "--" ++ MULTIPART_BOUNDARY ++ "\r\n"
    ++ "Content-Disposition: form-data; name=\"session_id\"\r\n\r\n"
    ++ sessionId ++ "\r\n"
    ++ "--" ++ MULTIPART_BOUNDARY ++ "\r\n"
    ++ "Content-Disposition: form-data; name=\"mode\"\r\n\r\n"
    ++ (if includeAudio then "conversation" else "snapshot")
    ++ "\r\n"
    ++ "--" ++ MULTIPART_BOUNDARY ++ "\r\n"
    ++ "Content-Disposition: form-data; name=\"image\"; filename=\"image.jpg\"\r\n"
    ++ "Content-Type: image/jpeg\r\n\r\n"

/-- The request body of the call `uploadToBackend(longPressDetected)` that `loop` makes
in `STATE_UPLOADING`. -/
def loopUploadBody (sessionId : String) (g : Globals) : String :=
  requestBody sessionId g.longPressDetected

end Master

/-- The 44 bytes `createWAVHeader` writes for the recording parameters of the master
(16000 Hz, 1 channel, 16 bits). -/
def Master.wavHeaderBytes (dataSize : Nat) (stray : Nat × Nat) : List Nat :=
  [0x52, 0x49, 0x46, 0x46] ++ Master.leBytes 4 ((dataSize + 36) % 2 ^ 32)
    ++ [0x57, 0x41, 0x56, 0x45] ++ [0x66, 0x6D, 0x74, 0x20] ++ Master.leBytes 4 16
    ++ Master.leBytes 2 1 ++ [1, stray.1] ++ Master.leBytes 4 16000
    ++ Master.leBytes 4 32000 ++ Master.leBytes 2 2 ++ [16, stray.2]
    ++ [0x64, 0x61, 0x74, 0x61] ++ Master.leBytes 4 dataSize

/-! ## Playing the response (master `main.cpp` 764-807) -/

/-- The value of `AUDIO_PLAY_BUFFER_SIZE` (master `config.h`). -/
def AUDIO_PLAY_BUFFER_SIZE : Nat := 8 * 1024

namespace Master

/-- The locals `headerSkipped` and `bytesProcessed` (a `size_t`, 32 bits) and the array
`audioBuffer` of `playAudioResponse`, and the byte ranges passed to `i2s_write` so far
(`portMAX_DELAY`: each call writes its whole range). -/
structure Playback where
  audioBuffer : List Nat
  headerSkipped : Bool
  bytesProcessed : Nat
  written : List (List Nat)
  deriving DecidableEq, Repr

/-- One pass of the loop `while (client.connected() || client.available())` of
`playAudioResponse`. `chunk` holds the bytes that `client.read(audioBuffer,
AUDIO_PLAY_BUFFER_SIZE)` stores (`bytesRead` is its length), and is empty when nothing is
available or nothing is read. `none`: the read leaves `audioBuffer`. -/
def playPass (chunk : List Nat) (p : Playback) : Option Playback :=
  if chunk.length > 0 then
    match bufMemcpy p.audioBuffer 0 chunk chunk.length with
    | none => none
    | some audioBuffer =>
      let bytesRead := chunk.length
      let bytesProcessed := (p.bytesProcessed + bytesRead) % 2 ^ 32
      if ¬ p.headerSkipped then
        if bytesProcessed ≥ 44 then
          let headerBytesInBuffer :=
            (44 + 2 ^ 32 - (bytesProcessed + 2 ^ 32 - bytesRead) % 2 ^ 32) % 2 ^ 32
          if headerBytesInBuffer < bytesRead then
            some { audioBuffer := audioBuffer, headerSkipped := true,
                   bytesProcessed := bytesProcessed,
                   written := p.written
                     ++ [(audioBuffer.drop headerBytesInBuffer).take
                          (bytesRead - headerBytesInBuffer)] }
          else
            some { audioBuffer := audioBuffer, headerSkipped := true,
                   bytesProcessed := bytesProcessed, written := p.written }
        else
          some { audioBuffer := audioBuffer, headerSkipped := false,
                 bytesProcessed := bytesProcessed, written := p.written }
      else
        some { audioBuffer := audioBuffer, headerSkipped := true,
               bytesProcessed := bytesProcessed,
               written := p.written ++ [audioBuffer.take bytesRead] }
  else some p

/-- The loop of `playAudioResponse` over the reads made until the client is closed and
empty. -/
def playLoop : List (List Nat) → Playback → Option Playback
  | [], p => some p
  | chunk :: reads, p => (playPass chunk p).bind fun p1 => playLoop reads p1

/-- The master's `playAudioResponse(client)`: the returned value (always true), the
globals and the byte ranges passed to `i2s_write`. `audioBuffer` is the initial
(indeterminate) content of the local array. -/
def playAudioResponse (reads : List (List Nat)) (audioBuffer : List Nat) (g : Globals) :
    Option (Bool × Globals × List (List Nat)) :=
  (playLoop reads
      { audioBuffer := audioBuffer, headerSkipped := false, bytesProcessed := 0,
        written := [] }).map
    fun p => (true, changeState SystemState.STATE_PLAYING g, p.written)

end Master

/-! ## The main loop of the master (`main.cpp` 122-177, 664-758) -/

namespace Master

/-- The globals of the master that `loop` uses: those of the button and the recording,
and `wifiConnected`. -/
structure Node where
  globals : Globals
  wifiConnected : Bool
  deriving DecidableEq, Repr

/-- What one pass of `loop` gets from outside: whether `WiFi.status()` is
`WL_CONNECTED` at its start, whether `setupWiFi()` ends connected if it is called, the
value `captureImageFromCAM()` returns if it is called (the call works on the link and on
`imageBuffer`, not on the globals of `Node`), `sessionId`, the code `http.POST()` returns,
and the reads and the local array of `playAudioResponse`. -/
structure LoopEnv where
  wifiStatusConnected : Bool
  setupWiFi : Bool
  captureImageFromCAM : Bool
  sessionId : String
  httpCode : Int
  reads : List (List Nat)
  audioBuffer : List Nat

/-- The master's `uploadToBackend(includeAudio)`: the returned value, the node
afterwards and the request body it built (`none` when it returns before building it).
The result is `none` when `playAudioResponse` leaves its array. -/
def uploadToBackend (env : LoopEnv) (includeAudio : Bool) (n : Node) :
    Option (Bool × Node × Option String) :=
  if ¬ n.wifiConnected then some (false, n, none)
  else if env.httpCode = 200 then
    (playAudioResponse env.reads env.audioBuffer n.globals).map fun r =>
      (r.1, { n with globals := r.2.1 }, some (requestBody env.sessionId includeAudio))
  else some (false, n, some (requestBody env.sessionId includeAudio))

/-- One pass of the master's `loop()`, without a button interrupt during the pass. -/
def loop (env : LoopEnv) (n : Node) : Option Node :=
  let n1 : Node :=
    if ¬ env.wifiStatusConnected ∧ n.globals.currentState = SystemState.STATE_IDLE then
      { n with wifiConnected := env.setupWiFi }
    else n
  match n1.globals.currentState with
  | SystemState.STATE_IDLE => some n1
  | SystemState.STATE_RECORDING => some n1
  | SystemState.STATE_CAPTURING =>
    if env.captureImageFromCAM then
      some { n1 with globals := changeState SystemState.STATE_UPLOADING n1.globals }
    else some { n1 with globals := changeState SystemState.STATE_ERROR n1.globals }
  | SystemState.STATE_UPLOADING =>
    (uploadToBackend env n1.globals.longPressDetected n1).map fun r =>
      { r.2.1 with
        globals :=
          { (if r.1 then changeState SystemState.STATE_IDLE r.2.1.globals
              else changeState SystemState.STATE_ERROR r.2.1.globals) with
            longPressDetected := false } }
  | SystemState.STATE_PLAYING =>
    some { n1 with globals := changeState SystemState.STATE_IDLE n1.globals }
  | SystemState.STATE_ERROR =>
    some { n1 with globals := changeState SystemState.STATE_IDLE n1.globals }

end Master

/-- The button edges of a run, each with the pin level read (`true` for LOW, a press),
the value of `millis()` and the results of the `i2s_read` calls it makes: the globals
after `buttonISR` has run for each of them in turn. -/
def Master.buttonEdges (stray : Nat × Nat) :
    List (Bool × Nat × List Master.I2SRead) → Master.Globals → Option Master.Globals
  | [], g => some g
  | e :: edges, g =>
    (Master.buttonISR e.1 e.2.1 e.2.2 stray g).bind fun g1 => Master.buttonEdges stray edges g1

/-- The globals of the master after `setup`. -/
def Master.Globals.boot : Master.Globals :=
  { currentState := Master.SystemState.STATE_IDLE, buttonPressTime := 0,
    buttonPressed := false, longPressDetected := false,
    recordBuffer := List.replicate AUDIO_RECORD_BUFFER_SIZE 0, recordBufferIndex := 0 }

namespace Cam

/-- The two handlers as the firmware has them: `captureAndSaveImage` with the hardware
results `env`, and `sendImageViaUART` with the polls `acks` of its `waitForACK` calls.
`dispatch` needs the value the transfer returns, so these handlers are meant for polls
with which `sendImageViaUART` returns; for a call that is still waiting the value is
taken as false here, and the theorems that use the handlers show that it returned. -/
def Handlers.firmware (env : CaptureEnv) (acks : List (List (Option Nat))) : Handlers :=
  { captureAndSaveImage := Cam.captureAndSaveImage env,
    sendImageViaUART := fun imagePath dev =>
      ((Cam.sendImageViaUART acks imagePath dev).1.getD false,
        (Cam.sendImageViaUART acks imagePath dev).2) }

end Cam

/-- The bytes a serial trace of the camera puts on the wire, log lines included. -/
def Cam.wire (tx : List Cam.SerialOut) : List Nat :=
  tx.flatMap Cam.SerialOut.wire

namespace Master

/-- A poll of `receiveUARTResponse` seen as a poll of `receiveImageChunks`: a byte that
is available, or nothing available. -/
def Poll.ofOption : Option Nat → Poll
  | some b => Poll.byte b
  | none => Poll.idle

/-- What a call of `captureImageFromCAM` leaves behind: the returned `bool`, the globals
`imageBuffer` and `imageBufferSize`, the bytes written to `Serial2` during the call, and
the polls of `Serial2` it did not make (the bytes among them stay in the receive queue). -/
structure CaptureReturn where
  ret : Bool
  imageBuffer : List Nat
  imageBufferSize : Nat
  tx : List Nat
  unread : List Poll
  deriving DecidableEq, Repr

/-- The master's `captureImageFromCAM()`. `packet1`, `packet2` and `rxBuffer` are the
initial contents of the local arrays of the two `sendUARTCommand` calls and of
`receiveUARTResponse`, `statusCode` the initial value of the local of that name;
`polls` is what `Serial2` delivers to `receiveUARTResponse` until its timeout, `later`
what it delivers after that. The log lines go to `Serial` and are left out.
`none`: an access outside an array, or the call is still reading when the polls are
used up. -/
def captureImageFromCAM (packet1 packet2 rxBuffer : List Nat) (statusCode : Nat)
    (imageBuffer : List Nat) (imageBufferSize : Nat) (polls : List (Option Nat))
    (later : List Poll) : Option CaptureReturn :=
  match sendUARTCommand packet1 CMD_CAPTURE none 0 with
  | none => none
  | some capture =>
    match receiveUARTResponse rxBuffer
        { statusCode := statusCode, data := none, dataLen := none } polls with
    | none => none
    | some r =>
      if ¬ r.ret then
        some { ret := false, imageBuffer := imageBuffer, imageBufferSize := imageBufferSize,
               tx := capture, unread := r.unread.map Poll.ofOption ++ later }
      else if r.out.statusCode ≠ STATUS_SUCCESS then
        some { ret := false, imageBuffer := imageBuffer, imageBufferSize := imageBufferSize,
               tx := capture, unread := r.unread.map Poll.ofOption ++ later }
      else
        match sendUARTCommand packet2 CMD_SEND_IMAGE none 0 with
        | none => none
        | some send =>
          match receiveImageChunks imageBuffer (capture ++ send)
              (r.unread.map Poll.ofOption ++ later) with
          | Iter.returned ret st rest =>
            some { ret := ret, imageBuffer := st.imageBuffer,
                   imageBufferSize := st.imageBufferSize, tx := st.tx, unread := rest }
          | _ => none

end Master

/-- The frame `sendUARTCommand(cmdId, NULL, 0)` and `sendUARTResponse(status, NULL, 0)`
put on the wire: start byte, identifier or status, length 0, CRC-8 of these three. -/
def emptyFrame (id : Nat) : List Nat :=
  [START_BYTE, id, 0, Cam.calculateCRC8 [START_BYTE, id, 0] 3]

/-- The serial calls of the camera while `processUARTCommand` reads the bytes `input`,
starting with the receiver in state `cam`. -/
def Cam.outputFor (h : Cam.Handlers) (cam : Cam.CamState) (input : List Nat) :
    Option (List Cam.SerialOut) :=
  (Cam.processUARTCommand h cam input).map fun c => c.dev.tx.drop cam.dev.tx.length

/-! ## The commands a camera serves after boot (`main.cpp` 22-24, 92-101) -/

namespace Cam

/-- One command frame the camera serves: the command id and the payload of the frame,
and what the hardware delivers while it is served (the results for
`captureAndSaveImage`, the polls of the `waitForACK` calls of `sendImageViaUART`). -/
structure Request where
  cmdId : Nat
  payload : List Nat
  env : CaptureEnv
  acks : List (List (Option Nat))

/-- The bytes of the frame of a request: start byte, command id, payload length,
payload, CRC-8 of everything before it. -/
def Request.frame (r : Request) : List Nat :=
  [START_BYTE, r.cmdId, r.payload.length] ++ r.payload
    ++ [calculateCRC8 ([START_BYTE, r.cmdId, r.payload.length] ++ r.payload)
          (3 + r.payload.length)]

/-- The camera reads the frames of the requests one after the other with
`processUARTCommand`, each with the firmware's handlers. -/
def serve : List Request → CamState → Option CamState
  | [], cam => some cam
  | r :: rs, cam =>
    (processUARTCommand (Handlers.firmware r.env r.acks) cam r.frame).bind fun cam1 =>
      serve rs cam1

/-- The number of successful captures while the camera serves the requests: the Capture
commands for which `captureAndSaveImage`, called in the state the camera is in when the
command arrives, returns a path (the camera then answers Success). -/
def successfulCaptures : List Request → CamState → Nat
  | [], _ => 0
  | r :: rs, cam =>
    (if r.cmdId = CMD_CAPTURE ∧ (Cam.captureAndSaveImage r.env cam.dev).1.length > 0 then 1
      else 0)
      + match processUARTCommand (Handlers.firmware r.env r.acks) cam r.frame with
        | some cam1 => successfulCaptures rs cam1
        | none => 0

end Cam

/-- A run of five requests after boot: a capture that succeeds at 1000 ms, a capture for
which the sensor gives no frame, a GetStatus, a DeleteImage and a capture that succeeds
at 2000 ms. -/
def Cam.Request.sampleRun : List Cam.Request :=
  [{ cmdId := CMD_CAPTURE, payload := [], env := Cam.CaptureEnv.good 1000 [255, 216, 255, 217],
     acks := [] },
   { cmdId := CMD_CAPTURE, payload := [],
     env := { sdInit := true, sdInitLog := [], frame := none, now := 1500, canWrite := true },
     acks := [] },
   { cmdId := CMD_GET_STATUS, payload := [], env := Cam.CaptureEnv.good 0 [], acks := [] },
   { cmdId := CMD_DELETE_IMAGE, payload := [], env := Cam.CaptureEnv.good 0 [], acks := [] },
   { cmdId := CMD_CAPTURE, payload := [], env := Cam.CaptureEnv.good 2000 [255, 216, 255, 217],
     acks := [] }]

/-! ## Theorems: the CRC-8 engine -/

theorem master_crcByteStep_eq : Master.crcByteStep = Cam.crcByteStep := rfl

theorem master_calculateCRC8_eq (data : List Nat) (length : Nat) :
    Master.calculateCRC8 data length = Cam.calculateCRC8 data length := rfl

theorem crcBitStep_lt (c : Nat) : Cam.crcBitStep c < 256 := by
  unfold Cam.crcBitStep
  split <;> exact Nat.mod_lt _ (by norm_num)

theorem crcBits_lt (c : Nat) : Cam.crcBitStep^[8] c < 256 := by
  rw [show 8 = 7 + 1 from rfl, Function.iterate_succ_apply']
  exact crcBitStep_lt _

theorem crcByteStep_lt (c b : Nat) : Cam.crcByteStep c b < 256 :=
  crcBits_lt _

theorem foldl_crcByteStep_lt (l : List Nat) (c : Nat) (hc : c < 256) :
    l.foldl Cam.crcByteStep c < 256 := by
  induction l generalizing c with
  | nil => simpa using hc
  | cons b l ih => exact ih _ (crcByteStep_lt c b)

theorem calculateCRC8_lt (data : List Nat) (length : Nat) :
    Cam.calculateCRC8 data length < 256 :=
  foldl_crcByteStep_lt _ _ (by norm_num)

set_option maxRecDepth 20000 in
theorem crcBits_undo : ∀ c < 256, crcBitUndo^[8] (Cam.crcBitStep^[8] c) = c := by
  decide

set_option maxRecDepth 20000 in
theorem crcBits_eq_spec : ∀ c < 256, Cam.crcBitStep^[8] c = crc8SpecRound^[8] c := by
  decide

theorem crcBits_inj {a b : Nat} (ha : a < 256) (hb : b < 256)
    (h : Cam.crcBitStep^[8] a = Cam.crcBitStep^[8] b) : a = b := by
  rw [← crcBits_undo a ha, ← crcBits_undo b hb, h]

theorem xor_mod_256 (c b : Nat) : (c ^^^ b) % 256 = (c % 256) ^^^ (b % 256) := by
  apply Nat.eq_of_testBit_eq
  intro j
  rw [show 256 = 2 ^ 8 from rfl]
  simp only [Nat.testBit_mod_two_pow, Nat.testBit_xor]
  by_cases hj : j < 8 <;> simp [hj]

theorem crc8SpecRound_mod (x : Nat) : crc8SpecRound (x % 256) = crc8SpecRound x := by
  unfold crc8SpecRound
  have h1 : (x % 256).testBit 7 = x.testBit 7 := by
    rw [show 256 = 2 ^ 8 from rfl, Nat.testBit_mod_two_pow]
    simp
  have h2 : x % 256 * 2 % 256 = x * 2 % 256 := by omega
  rw [h1, h2]

theorem crcByteStep_eq_spec (crc b : Nat) :
    Cam.crcByteStep crc b = crc8SpecRound^[8] (crc ^^^ b) := by
  unfold Cam.crcByteStep
  rw [crcBits_eq_spec _ (Nat.mod_lt _ (by norm_num))]
  show crc8SpecRound^[7] (crc8SpecRound ((crc ^^^ b) % 256))
    = crc8SpecRound^[7] (crc8SpecRound (crc ^^^ b))
  rw [crc8SpecRound_mod]

theorem crcByteStep_inj {c1 c2 : Nat} (b : Nat) (h1 : c1 < 256) (h2 : c2 < 256)
    (h : Cam.crcByteStep c1 b = Cam.crcByteStep c2 b) : c1 = c2 := by
  unfold Cam.crcByteStep at h
  have h3 := crcBits_inj (Nat.mod_lt _ (by norm_num)) (Nat.mod_lt _ (by norm_num)) h
  rw [xor_mod_256, xor_mod_256, Nat.mod_eq_of_lt h1, Nat.mod_eq_of_lt h2] at h3
  exact Nat.xor_left_injective h3

theorem foldl_crcByteStep_ne (l : List Nat) {c1 c2 : Nat} (h1 : c1 < 256) (h2 : c2 < 256)
    (h : c1 ≠ c2) : l.foldl Cam.crcByteStep c1 ≠ l.foldl Cam.crcByteStep c2 := by
  induction l generalizing c1 c2 with
  | nil => simpa using h
  | cons b l ih =>
    exact ih (crcByteStep_lt c1 b) (crcByteStep_lt c2 b)
      (fun e => h (crcByteStep_inj b h1 h2 e))

theorem crcByteStep_flip_ne (c x k : Nat) (hk : k < 8) :
    Cam.crcByteStep c (x ^^^ (1 <<< k)) ≠ Cam.crcByteStep c x := by
  intro h
  unfold Cam.crcByteStep at h
  have h3 := crcBits_inj (Nat.mod_lt _ (by norm_num)) (Nat.mod_lt _ (by norm_num)) h
  have h4 := congrArg (fun v => Nat.testBit v k) h3
  simp only [show 256 = 2 ^ 8 from rfl, Nat.testBit_mod_two_pow, Nat.testBit_xor,
    Nat.one_shiftLeft, Nat.testBit_two_pow_self, hk, decide_True, Bool.true_and] at h4
  cases hc : c.testBit k <;> cases hx : x.testBit k <;> simp [hc, hx] at h4

theorem flipBit_split (d : List Nat) (i k : Nat) (hi : i < d.length) :
    d = d.take i ++ d.getD i 0 :: d.drop (i + 1) ∧
    flipBit d i k = d.take i ++ (d.getD i 0 ^^^ (1 <<< k)) :: d.drop (i + 1) := by
  constructor
  · rw [List.getD_eq_getElem _ _ hi]
    simp
  · unfold flipBit
    rw [List.set_eq_take_append_cons_drop, if_pos hi]

theorem calculateCRC8_flipBit_ne (d : List Nat) (i k : Nat) (hi : i < d.length) (hk : k < 8) :
    Cam.calculateCRC8 (flipBit d i k) (flipBit d i k).length ≠ Cam.calculateCRC8 d d.length := by
  obtain ⟨h1, h2⟩ := flipBit_split d i k hi
  unfold Cam.calculateCRC8
  rw [List.take_length, List.take_length, h2]
  conv_rhs => rw [h1]
  rw [List.foldl_append, List.foldl_append, List.foldl_cons, List.foldl_cons]
  exact foldl_crcByteStep_ne _ (crcByteStep_lt _ _) (crcByteStep_lt _ _)
    (crcByteStep_flip_ne _ _ _ hk)

/-! ## Theorems: buffers and senders -/

theorem bufWrite_append_cons (acc : List Nat) (x : Nat) (t : List Nat) (v : Nat) :
    bufWrite (acc ++ x :: t) acc.length v = some (acc ++ v :: t) := by
  unfold bufWrite
  rw [if_pos (by simp)]
  simp

theorem bufWrite_append_cons_of_eq (acc : List Nat) (x : Nat) (t : List Nat) (i v : Nat)
    (hi : i = acc.length) : bufWrite (acc ++ x :: t) i v = some (acc ++ v :: t) := by
  subst hi
  exact bufWrite_append_cons acc x t v

theorem calculateCRC8_append_of_le (acc rest : List Nat) (n : Nat) (hn : n ≤ acc.length) :
    Cam.calculateCRC8 (acc ++ rest) n = Cam.calculateCRC8 acc n := by
  unfold Cam.calculateCRC8
  rw [List.take_append_of_le_length hn]

theorem getD_take_append (F junk : List Nat) (k i : Nat) (hk : k ≤ F.length) (hi : i < k) :
    (F.take k ++ junk).getD i 0 = F.getD i 0 := by
  rw [List.getD_append _ _ _ _ (by simp; omega)]
  simp [List.getElem?_take_of_lt hi]

theorem bufWrite_take (F : List Nat) (x : Nat) (t : List Nat) (k : Nat) (hk : k < F.length) :
    bufWrite (F.take k ++ x :: t) k (F.getD k 0) = some (F.take (k + 1) ++ t) := by
  rw [bufWrite_append_cons_of_eq _ _ _ _ _ (by simp; omega), List.getD_eq_getElem _ _ hk,
    List.take_succ, List.getElem?_eq_getElem hk]
  simp only [Option.toList, List.append_assoc, List.singleton_append]

theorem storeResponse_append (out : Master.RxOut) (s : Nat) (F junk : List Nat) (n : Nat)
    (hn : 3 + n ≤ F.length) :
    Master.storeResponse out s (F ++ junk) n = Master.storeResponse out s F n := by
  have h1 : List.take n (List.drop 3 (F ++ junk)) = List.take n (List.drop 3 F) := by
    rw [List.drop_append_of_le_length (by omega), List.take_append_of_le_length (by simp; omega)]
  have h2 : n ≤ (List.drop 3 (F ++ junk)).length ↔ n ≤ (List.drop 3 F).length := by
    simp; omega
  unfold Master.storeResponse bufMemcpy
  simp only [h1, h2]

/-! ## Theorems: feeding a frame to the receivers -/

theorem master_feed (out : Master.RxOut) (F : List Nat) (hF : IsCompleteFrame F)
    (c : Nat) (rest : List (Option Nat)) :
    ∀ (pre : List (Option Nat)) (k : Nat) (junk : List Nat),
      k + junk.length = 256 → pre.filterMap id ++ [c] = F.drop k →
      Master.receiveLoop out (F.take k ++ junk) k (pre ++ some c :: rest) =
        if F.getD (3 + F.getD 2 0) 0 = Master.calculateCRC8 F (3 + F.getD 2 0) then
          (Master.storeResponse out (F.getD 1 0) F (F.getD 2 0)).map
            fun o => { ret := true, out := o, unread := rest }
        else some { ret := false, out := out, unread := rest } := by
  obtain ⟨h0, hle, hlen⟩ := hF
  have step : ∀ (b : Nat) (tl : List Nat) (k : Nat) (junk : List Nat) (polls : List (Option Nat)),
      k + junk.length = 256 → b :: tl = F.drop k →
      k < F.length ∧ tl = F.drop (k + 1) ∧
      ∃ t, junk.length = t.length + 1 ∧
        Master.receiveLoop out (F.take k ++ junk) k (some b :: polls) =
          if k + 1 ≥ 4 ∧ k + 1 ≥ 4 + F.getD 2 0 then
            if F.getD (3 + F.getD 2 0) 0 = Master.calculateCRC8 F (3 + F.getD 2 0) then
              (Master.storeResponse out (F.getD 1 0) F (F.getD 2 0)).map
                fun o => { ret := true, out := o, unread := polls }
            else some { ret := false, out := out, unread := polls }
          else Master.receiveLoop out (F.take (k + 1) ++ t) (k + 1) polls := by
    intro b tl k junk polls hj hb
    have hk : k < F.length := by
      by_contra hge
      rw [List.drop_eq_nil_of_le (by omega)] at hb
      exact List.cons_ne_nil _ _ hb
    rw [List.drop_eq_getElem_cons hk, List.cons.injEq] at hb
    obtain ⟨hb1, hb2⟩ := hb
    have hbk : b = F.getD k 0 := by rw [List.getD_eq_getElem _ _ hk]; exact hb1
    obtain ⟨x, t, rfl⟩ : ∃ x t, junk = x :: t := by
      cases junk with
      | nil => simp at hj; omega
      | cons x t => exact ⟨x, t, rfl⟩
    refine ⟨hk, hb2, t, rfl, ?_⟩
    have hstart : ¬ (k = 0 ∧ b ≠ START_BYTE) := by
      rintro ⟨rfl, hne⟩
      exact hne (hbk.trans h0)
    have hw : bufWrite (F.take k ++ x :: t) k b = some (F.take (k + 1) ++ t) :=
      hbk ▸ bufWrite_take F x t k hk
    rw [Master.receiveLoop, if_neg hstart, hw]
    simp only []
    by_cases h4 : k + 1 ≥ 4
    · rw [if_pos h4, getD_take_append F t (k + 1) 2 (by omega) (by omega),
        getD_take_append F t (k + 1) 1 (by omega) (by omega)]
      by_cases hc : k + 1 ≥ 4 + F.getD 2 0
      · have hkF : k + 1 = F.length := by omega
        rw [if_pos hc, if_pos (And.intro h4 hc), hkF, List.take_length,
          List.getD_append _ _ _ _ (by omega),
          master_calculateCRC8_eq, calculateCRC8_append_of_le _ _ _ (by omega),
          storeResponse_append _ _ _ _ _ (by omega)]
        rfl
      · rw [if_neg hc, if_neg (fun h => hc h.2)]
    · rw [if_neg h4, if_neg (fun h => h4 h.1)]
  intro pre
  induction pre with
  | nil =>
    intro k junk hj hb
    obtain ⟨hk, htl, t, _, hrun⟩ := step c [] k junk rest hj (by simpa using hb)
    have hkF : k + 1 = F.length := by
      have := congrArg List.length htl
      simp at this
      omega
    rw [List.nil_append, hrun, if_pos (by omega)]
  | cons e pre ih =>
    intro k junk hj hb
    cases e with
    | none =>
      rw [List.cons_append, Master.receiveLoop]
      exact ih k junk hj (by simpa using hb)
    | some b =>
      rw [List.filterMap_cons_some (rfl : id (some b) = some b), List.cons_append] at hb
      obtain ⟨hk, htl, t, ht, hrun⟩ := step b _ k junk (pre ++ some c :: rest) hj hb
      have hkF : k + 1 < F.length := by
        have := congrArg List.length htl
        simp at this
        omega
      rw [List.cons_append, hrun, if_neg (by omega)]
      exact ih (k + 1) t (by omega) htl

theorem master_noise (out : Master.RxOut) (rxBuffer : List Nat) (rest : List (Option Nat)) :
    ∀ noise : List (Option Nat), some START_BYTE ∉ noise →
      Master.receiveLoop out rxBuffer 0 (noise ++ rest) = Master.receiveLoop out rxBuffer 0 rest := by
  intro noise
  induction noise with
  | nil => intro _; rfl
  | cons e noise ih =>
    intro hn
    have hn' : some START_BYTE ∉ noise := fun hm => hn (List.mem_cons_of_mem _ hm)
    cases e with
    | none => rw [List.cons_append, Master.receiveLoop]; exact ih hn'
    | some b =>
      have hb : b ≠ START_BYTE := fun hb => hn (by simp [hb])
      rw [List.cons_append, Master.receiveLoop, if_pos (And.intro rfl hb)]
      exact ih hn'

theorem cam_noise (h : Cam.Handlers) (dev : Cam.Device) (buf rest : List Nat) :
    ∀ noise : List Nat, START_BYTE ∉ noise →
      Cam.processUARTCommand h { dev := dev, rxBuffer := buf, rxIndex := 0 } (noise ++ rest)
        = Cam.processUARTCommand h { dev := dev, rxBuffer := buf, rxIndex := 0 } rest := by
  intro noise
  induction noise with
  | nil => intro _; rfl
  | cons b noise ih =>
    intro hn
    have hn' : START_BYTE ∉ noise := fun hm => hn (List.mem_cons_of_mem _ hm)
    have hb : b ≠ START_BYTE := fun hb => hn (by simp [hb])
    rw [List.cons_append, Cam.processUARTCommand, Cam.processByte]
    simp only []
    rw [if_pos (And.intro trivial hb), Option.some_bind]
    exact ih hn'

theorem filterMap_id_eq_concat (polls : List (Option Nat)) (l : List Nat) (c : Nat)
    (h : polls.filterMap id = l ++ [c]) :
    ∃ pre rest, polls = pre ++ some c :: rest ∧ pre.filterMap id = l ∧ rest.filterMap id = [] := by
  induction polls generalizing l with
  | nil => simp at h
  | cons e polls ih =>
    cases e with
    | none =>
      obtain ⟨pre, rest, h1, h2, h3⟩ := ih l (by simpa using h)
      exact ⟨none :: pre, rest, by simp [h1], by simpa using h2, h3⟩
    | some b =>
      rw [List.filterMap_cons_some (rfl : id (some b) = some b)] at h
      cases l with
      | nil =>
        rw [List.nil_append, List.cons.injEq] at h
        exact ⟨[], polls, by simp [h.1], rfl, h.2⟩
      | cons a l =>
        rw [List.cons_append, List.cons.injEq] at h
        obtain ⟨pre, rest, h1, h2, h3⟩ := ih l h.2
        exact ⟨some b :: pre, rest, by simp [h1], by simp [h2, h.1], h3⟩

theorem checkFrame_incomplete (h : Cam.Handlers) (dev : Cam.Device) (F t : List Nat)
    (hF : IsCompleteFrame F) (k : Nat) (hk : k + 1 < F.length) :
    Cam.checkFrame h dev (F.take (k + 1) ++ t) (k + 1) = some (dev, k + 1) := by
  obtain ⟨_, hle, hlen⟩ := hF
  unfold Cam.checkFrame
  by_cases h4 : k + 1 ≥ 4
  · rw [if_pos h4]
    simp only []
    rw [getD_take_append F t (k + 1) 2 (by omega) (by omega), if_neg (by omega)]
  · rw [if_neg h4]

theorem checkFrame_complete (h : Cam.Handlers) (dev : Cam.Device) (F t : List Nat)
    (hF : IsCompleteFrame F) :
    Cam.checkFrame h dev (F ++ t) F.length =
      (if F.getD (3 + F.getD 2 0) 0 = Cam.calculateCRC8 F (3 + F.getD 2 0) then
          Cam.dispatch h (F.getD 1 0) dev
        else some { dev with tx := dev.tx ++ [Cam.SerialOut.println "Checksum error"] }).map
        fun d => (d, 0) := by
  obtain ⟨_, hle, hlen⟩ := hF
  unfold Cam.checkFrame
  rw [if_pos (by omega)]
  simp only []
  rw [List.getD_append _ _ _ _ (by omega), List.getD_append _ _ _ _ (by omega),
    List.getD_append _ _ _ _ (by omega), if_pos (by omega),
    calculateCRC8_append_of_le _ _ _ (by omega)]
  split <;> simp

theorem cam_feed (h : Cam.Handlers) (dev : Cam.Device) (F : List Nat) (hF : IsCompleteFrame F)
    (rest : List Nat) :
    ∀ (m k : Nat) (junk : List Nat), m + k + 1 = F.length → k + junk.length = 256 →
      Cam.processUARTCommand h { dev := dev, rxBuffer := F.take k ++ junk, rxIndex := k }
          (F.drop k ++ rest) =
        (if F.getD (3 + F.getD 2 0) 0 = Cam.calculateCRC8 F (3 + F.getD 2 0) then
            Cam.dispatch h (F.getD 1 0) dev
          else some { dev with tx := dev.tx ++ [Cam.SerialOut.println "Checksum error"] }).bind
          fun d => Cam.processUARTCommand h
            { dev := d, rxBuffer := F ++ junk.drop (F.length - k), rxIndex := 0 } rest := by
  have hF' := hF
  obtain ⟨h0, hle, hlen⟩ := hF
  intro m
  induction m with
  | zero =>
    intro k junk hm hj
    have hk : k < F.length := by omega
    obtain ⟨x, t, rfl⟩ : ∃ x t, junk = x :: t := by
      cases junk with
      | nil => simp at hj; omega
      | cons x t => exact ⟨x, t, rfl⟩
    have hstart : ¬ (k = 0 ∧ F[k] ≠ START_BYTE) := by
      rintro ⟨rfl, hne⟩
      exact hne ((List.getD_eq_getElem _ _ hk).symm.trans h0)
    have hw : bufWrite (F.take k ++ x :: t) k F[k] = some (F.take (k + 1) ++ t) :=
      (List.getD_eq_getElem F 0 hk) ▸ bufWrite_take F x t k hk
    have hkF : k + 1 = F.length := by omega
    rw [List.drop_eq_getElem_cons hk, List.cons_append, Cam.processUARTCommand,
      Cam.processByte]
    simp only []
    rw [if_neg hstart, hw]
    simp only []
    rw [hkF, List.take_length, checkFrame_complete h dev F t hF',
      show F.length - k = 1 by omega, List.drop_length]
    simp only [List.nil_append, List.drop_succ_cons, List.drop_zero]
    split <;> simp [UART_RX_BUFFER_SIZE, Option.bind_map, Function.comp_def]
  | succ m ih =>
    intro k junk hm hj
    have hk : k < F.length := by omega
    obtain ⟨x, t, rfl⟩ : ∃ x t, junk = x :: t := by
      cases junk with
      | nil => simp at hj; omega
      | cons x t => exact ⟨x, t, rfl⟩
    have hstart : ¬ (k = 0 ∧ F[k] ≠ START_BYTE) := by
      rintro ⟨rfl, hne⟩
      exact hne ((List.getD_eq_getElem _ _ hk).symm.trans h0)
    have hw : bufWrite (F.take k ++ x :: t) k F[k] = some (F.take (k + 1) ++ t) :=
      (List.getD_eq_getElem F 0 hk) ▸ bufWrite_take F x t k hk
    rw [List.drop_eq_getElem_cons hk, List.cons_append, Cam.processUARTCommand,
      Cam.processByte]
    simp only []
    rw [if_neg hstart, hw]
    simp only []
    rw [checkFrame_incomplete h dev F t hF' k (by omega)]
    simp only [Option.map_some', Option.some_bind]
    rw [if_neg (by simp [UART_RX_BUFFER_SIZE]; omega),
      ih (k + 1) t (by omega) (by simp at hj ⊢; omega),
      show F.length - k = (F.length - (k + 1)) + 1 by omega, List.drop_succ_cons]

theorem and_0xFF (n : Nat) : n &&& 0xFF = n % 256 :=
  Nat.and_pow_two_sub_one_eq_mod n 8

theorem exists_three_of_length {l : List Nat} {n : Nat} (h : l.length = n + 3) :
    ∃ x0 x1 x2 t, l = x0 :: x1 :: x2 :: t ∧ t.length = n := by
  match l, h with
  | x0 :: x1 :: x2 :: t, h => exact ⟨x0, x1, x2, t, rfl, by simpa using h⟩

theorem exists_split_of_lt_length {t : List Nat} {n : Nat} (h : n < t.length) :
    ∃ a x b, t = a ++ x :: b ∧ a.length = n := by
  refine ⟨t.take n, t[n], t.drop (n + 1), ?_, ?_⟩
  · simp
  · simp; omega

theorem master_sendUARTCommand_eq : Master.sendUARTCommand = Cam.sendUARTResponse := rfl

theorem sendUARTResponse_frame (response : List Nat) (b : Nat) (src : Option (List Nat))
    (p : List Nat) (hsrc : src = some p ∨ (src = none ∧ p = []))
    (hr : response.length = 256) (hp : p.length ≤ 252) :
    Cam.sendUARTResponse response b src p.length
      = some ([START_BYTE, b, p.length] ++ p ++
          [Cam.calculateCRC8 ([START_BYTE, b, p.length] ++ p) (3 + p.length)]) := by
  obtain ⟨x0, x1, x2, t, rfl, ht⟩ := exists_three_of_length (n := 253) hr
  obtain ⟨a, x, r, rfl, ha⟩ := exists_split_of_lt_length (t := t) (n := p.length) (by omega)
  have hmod : p.length % 256 = p.length := Nat.mod_eq_of_lt (by omega)
  have h0 : bufWrite (x0 :: x1 :: x2 :: (a ++ x :: r)) 0 START_BYTE
      = some (START_BYTE :: x1 :: x2 :: (a ++ x :: r)) := by simp [bufWrite]
  have h1 : bufWrite (START_BYTE :: x1 :: x2 :: (a ++ x :: r)) 1 b
      = some (START_BYTE :: b :: x2 :: (a ++ x :: r)) := by simp [bufWrite]
  have h2 : bufWrite (START_BYTE :: b :: x2 :: (a ++ x :: r)) 2 p.length
      = some (START_BYTE :: b :: p.length :: (a ++ x :: r)) := by simp [bufWrite]
  have h3 : memcpyIfPresent (START_BYTE :: b :: p.length :: (a ++ x :: r)) 3 src p.length
      = some (([START_BYTE, b, p.length] ++ p) ++ x :: r) := by
    rcases hsrc with rfl | ⟨rfl, rfl⟩
    · unfold memcpyIfPresent
      show (if p.length > 0 then _ else _) = _
      split
      · unfold bufMemcpy
        rw [if_pos (by simp; omega)]
        have hd : List.drop (3 + p.length) (START_BYTE :: b :: p.length :: (a ++ x :: r))
            = x :: r := by
          rw [show 3 + p.length = p.length + 3 by omega]
          simp only [List.drop_succ_cons]
          exact List.drop_left' ha
        rw [hd]
        simp
      · have hp0 : p = [] := List.eq_nil_of_length_eq_zero (by omega)
        have ha0 : a = [] := List.eq_nil_of_length_eq_zero (by omega)
        simp [hp0, ha0]
    · have ha0 : a = [] := List.eq_nil_of_length_eq_zero (by simpa using ha)
      simp [memcpyIfPresent, ha0]
  have hlen : 3 + p.length = ([START_BYTE, b, p.length] ++ p).length := by simp; omega
  have h4 := bufWrite_append_cons_of_eq ([START_BYTE, b, p.length] ++ p) x r (3 + p.length)
    (Cam.calculateCRC8 ([START_BYTE, b, p.length] ++ p) (3 + p.length)) hlen
  unfold Cam.sendUARTResponse
  simp only [and_0xFF, hmod, h0, h1, h2, h3, Option.bind_eq_bind, Option.some_bind,
    calculateCRC8_append_of_le _ _ _ (le_of_eq hlen), h4]
  have : 4 + p.length = ([START_BYTE, b, p.length] ++ p).length + 1 := by simp; omega
  rw [this, List.take_append_eq_append_take]
  simp

/-! ## Theorems: what the receivers do with a complete frame -/

theorem frame_isComplete (b : Nat) (p : List Nat) (c : Nat) (hp : p.length ≤ 252) :
    IsCompleteFrame ([START_BYTE, b, p.length] ++ p ++ [c]) := by
  refine ⟨rfl, ?_, ?_⟩
  · exact hp
  · simp [List.getD]
    omega

theorem frame_getD_checksum (b : Nat) (p : List Nat) (c : Nat) :
    ([START_BYTE, b, p.length] ++ p ++ [c]).getD (3 + p.length) 0 = c := by
  rw [List.getD_append_right _ _ _ _ (by simp; omega)]
  have : 3 + p.length - ([START_BYTE, b, p.length] ++ p).length = 0 := by simp; omega
  rw [this]
  rfl

theorem frame_crc (b : Nat) (p : List Nat) (c : Nat) :
    Cam.calculateCRC8 ([START_BYTE, b, p.length] ++ p ++ [c]) (3 + p.length)
      = Cam.calculateCRC8 ([START_BYTE, b, p.length] ++ p) (3 + p.length) :=
  calculateCRC8_append_of_le _ _ _ (by simp; omega)

theorem storeResponse_frame (st0 : Nat) (dest : List Nat) (len0 b : Nat) (p : List Nat) (c : Nat)
    (hd : p.length ≤ dest.length) :
    Master.storeResponse { statusCode := st0, data := some dest, dataLen := some len0 } b
        ([START_BYTE, b, p.length] ++ p ++ [c]) p.length
      = some { statusCode := b, data := some (p ++ dest.drop p.length),
               dataLen := some (if p.length > 0 then p.length else len0) } := by
  unfold Master.storeResponse
  simp only []
  split
  · unfold bufMemcpy
    rw [if_pos (by simp; omega)]
    simp
  · have hp0 : p = [] := List.eq_nil_of_length_eq_zero (by omega)
    simp [hp0]

theorem storeResponse_null (out : Master.RxOut) (b : Nat) (F : List Nat) (n : Nat)
    (hnull : out.data = none ∨ out.dataLen = none) :
    Master.storeResponse out b F n = some { out with statusCode := b } := by
  unfold Master.storeResponse
  rcases hnull with h | h
  · rw [h]
  · rw [h]
    cases out.data <;> rfl

theorem master_receive_frame (rxBuffer : List Nat) (out : Master.RxOut) (b : Nat) (p : List Nat)
    (c : Nat) (pre rest : List (Option Nat)) (hrx : rxBuffer.length = 256)
    (hp : p.length ≤ 252) (hpre : pre.filterMap id = [START_BYTE, b, p.length] ++ p) :
    Master.receiveUARTResponse rxBuffer out (pre ++ some c :: rest) =
      if c = Master.calculateCRC8 ([START_BYTE, b, p.length] ++ p) (3 + p.length) then
        (Master.storeResponse out b ([START_BYTE, b, p.length] ++ p ++ [c]) p.length).map
          fun o => { ret := true, out := o, unread := rest }
      else some { ret := false, out := out, unread := rest } := by
  have hF := frame_isComplete b p c hp
  have h := master_feed out _ hF c rest pre 0 rxBuffer (by simpa using hrx)
    (by rw [hpre]; rfl)
  have h2 : ([START_BYTE, b, p.length] ++ p ++ [c]).getD 2 0 = p.length := rfl
  have h1 : ([START_BYTE, b, p.length] ++ p ++ [c]).getD 1 0 = b := rfl
  rw [h2, h1, frame_getD_checksum, master_calculateCRC8_eq, frame_crc] at h
  exact h

theorem cam_process_frame (h : Cam.Handlers) (dev : Cam.Device) (buf : List Nat) (b : Nat)
    (p : List Nat) (c : Nat) (rest : List Nat) (hbuf : buf.length = 256) (hp : p.length ≤ 252) :
    Cam.processUARTCommand h { dev := dev, rxBuffer := buf, rxIndex := 0 }
        ([START_BYTE, b, p.length] ++ p ++ [c] ++ rest) =
      (if c = Cam.calculateCRC8 ([START_BYTE, b, p.length] ++ p) (3 + p.length) then
          Cam.dispatch h b dev
        else some { dev with tx := dev.tx ++ [Cam.SerialOut.println "Checksum error"] }).bind
        fun d => Cam.processUARTCommand h
          { dev := d, rxBuffer := [START_BYTE, b, p.length] ++ p ++ [c] ++ buf.drop (4 + p.length),
            rxIndex := 0 } rest := by
  have hF := frame_isComplete b p c hp
  have hlen : ([START_BYTE, b, p.length] ++ p ++ [c]).length = 4 + p.length := by
    simp; omega
  have h := cam_feed h dev _ hF rest (3 + p.length) 0 buf (by rw [hlen]; omega)
    (by simpa using hbuf)
  have h2 : ([START_BYTE, b, p.length] ++ p ++ [c]).getD 2 0 = p.length := rfl
  have h1 : ([START_BYTE, b, p.length] ++ p ++ [c]).getD 1 0 = b := rfl
  rw [h2, h1, frame_getD_checksum, frame_crc, hlen] at h
  exact h

theorem respond_eq (dev : Cam.Device) (s : Nat) (src : Option (List Nat)) (p : List Nat)
    (hsrc : src = some p ∨ (src = none ∧ p = [])) (hp : p.length ≤ 252) :
    Cam.respond dev s src p.length = some { dev with tx := dev.tx ++ [Cam.SerialOut.write
      ([START_BYTE, s, p.length] ++ p ++
        [Cam.calculateCRC8 ([START_BYTE, s, p.length] ++ p) (3 + p.length)])] } := by
  unfold Cam.respond
  rw [sendUARTResponse_frame _ s src p hsrc (List.length_replicate _ _) hp]
  rfl

theorem respond_null (dev : Cam.Device) (s : Nat) :
    Cam.respond dev s none 0 = some { dev with tx := dev.tx ++ [Cam.SerialOut.write
      [START_BYTE, s, 0, Cam.calculateCRC8 [START_BYTE, s, 0] 3]] } :=
  respond_eq dev s none [] (Or.inr ⟨rfl, rfl⟩) (by simp)

theorem dispatch_getStatus (h : Cam.Handlers) (dev : Cam.Device) :
    Cam.dispatch h CMD_GET_STATUS dev = some { dev with tx := dev.tx ++ [Cam.SerialOut.write
      [START_BYTE, STATUS_SUCCESS, 2, (if dev.sdCardInitialized then 1 else 0),
        dev.imageCounter % 256,
        Cam.calculateCRC8 [START_BYTE, STATUS_SUCCESS, 2,
          (if dev.sdCardInitialized then 1 else 0), dev.imageCounter % 256] 5]] } := by
  unfold Cam.dispatch
  rw [if_neg (by decide), if_neg (by decide), if_pos rfl]
  simp only []
  rw [and_0xFF]
  exact respond_eq dev STATUS_SUCCESS _ [_, _] (Or.inl rfl) (by simp)

theorem dispatch_unknown (h : Cam.Handlers) (dev : Cam.Device) (cmdId : Nat)
    (h1 : cmdId ≠ CMD_CAPTURE) (h2 : cmdId ≠ CMD_SEND_IMAGE) (h3 : cmdId ≠ CMD_GET_STATUS)
    (h4 : cmdId ≠ CMD_DELETE_IMAGE) :
    Cam.dispatch h cmdId dev
      = some { dev with tx := dev.tx ++ [Cam.SerialOut.println "Unknown command"] } := by
  unfold Cam.dispatch
  rw [if_neg h1, if_neg h2, if_neg h3, if_neg h4]

theorem dispatch_isSome (h : Cam.Handlers) (dev : Cam.Device) (cmdId : Nat) :
    ∃ dev', Cam.dispatch h cmdId dev = some dev' := by
  unfold Cam.dispatch
  simp only [and_0xFF]
  split
  · split <;> exact ⟨_, respond_null _ _⟩
  · split
    · split
      · split <;> exact ⟨_, respond_null _ _⟩
      · exact ⟨_, respond_null _ _⟩
    · split
      · exact ⟨_, respond_eq dev STATUS_SUCCESS _ [_, _] (Or.inl rfl) (by simp)⟩
      · split
        · split <;> exact ⟨_, respond_null _ _⟩
        · exact ⟨_, rfl⟩

theorem bind_processUARTCommand_nil (h : Cam.Handlers) (x : Option Cam.Device)
    (B : List Nat) (i : Nat) :
    (x.bind fun d => Cam.processUARTCommand h { dev := d, rxBuffer := B, rxIndex := i } [])
      = x.map fun d => { dev := d, rxBuffer := B, rxIndex := i } := by
  cases x <;> rfl

/-- C4. The camera's and the master's `calculateCRC8` return the same byte on every
input, and that byte is the one the algorithm of the specification computes
(accumulator 0, XOR the byte in, then 8 rounds of shift-left mod 256 with XOR 0x07
when the high bit was set before the shift); the result is a byte. -/
theorem crc8_engine (data : List Nat) (length : Nat) :
    Cam.calculateCRC8 data length = Master.calculateCRC8 data length ∧
    Master.calculateCRC8 data length = crc8Spec (data.take length) ∧
    Master.calculateCRC8 data length < 256 := by
  refine ⟨rfl, ?_, calculateCRC8_lt data length⟩
  rw [master_calculateCRC8_eq]
  unfold Cam.calculateCRC8 crc8Spec
  congr 1
  funext crc b
  exact crcByteStep_eq_spec crc b

/-- C5. Inverting any single bit (bit `k` of the byte at position `i`) of a byte
sequence `d` changes the checksum computed by `calculateCRC8`, on the camera and on
the master; this holds for every length of `d`, in particular for 1 to 1024 bytes. -/
theorem crc8_single_bit_flip (d : List Nat) (i k : Nat) (hi : i < d.length) (hk : k < 8) :
    Cam.calculateCRC8 (flipBit d i k) (flipBit d i k).length ≠ Cam.calculateCRC8 d d.length ∧
    Master.calculateCRC8 (flipBit d i k) (flipBit d i k).length
      ≠ Master.calculateCRC8 d d.length := by
  refine ⟨calculateCRC8_flipBit_ne d i k hi hk, ?_⟩
  rw [master_calculateCRC8_eq, master_calculateCRC8_eq]
  exact calculateCRC8_flipBit_ne d i k hi hk

/-- Instance of C5: bit 5 of the middle byte of `[0x12, 0x34, 0x56]`. -/
theorem crc8_single_bit_flip_witness :
    (1 < [0x12, 0x34, 0x56].length ∧ 5 < 8) ∧
    (Cam.calculateCRC8 (flipBit [0x12, 0x34, 0x56] 1 5) (flipBit [0x12, 0x34, 0x56] 1 5).length
        ≠ Cam.calculateCRC8 [0x12, 0x34, 0x56] [0x12, 0x34, 0x56].length ∧
      Master.calculateCRC8 (flipBit [0x12, 0x34, 0x56] 1 5)
          (flipBit [0x12, 0x34, 0x56] 1 5).length
        ≠ Master.calculateCRC8 [0x12, 0x34, 0x56] [0x12, 0x34, 0x56].length) :=
  ⟨by decide, crc8_single_bit_flip [0x12, 0x34, 0x56] 1 5 (by decide) (by decide)⟩


/-! ## Theorems: the claims about framing -/

set_option maxRecDepth 100000 in
/-- Counterexample to C1 as stated: the camera's frame for status Success with an empty
payload is `[0xAA, 0x00, 0x00, 0xCF]`; the master returns `true` with status 0, but
`*dataLen`, 7 before the call, is still 7 afterwards and not the payload size 0. -/
theorem packet_roundtrip_counterexample :
    Cam.sendUARTResponse (List.replicate 256 0) 0x00 (some []) 0
      = some [0xAA, 0x00, 0x00, 0xCF] ∧
    Master.receiveUARTResponse (List.replicate 256 0)
        { statusCode := 9, data := some [0, 0], dataLen := some 7 }
        [some 0xAA, some 0x00, some 0x00, some 0xCF]
      = some { ret := true,
               out := { statusCode := 0, data := some [0, 0], dataLen := some 7 },
               unread := [] } := by
  decide

/-- C1 (amended). For every status byte `s` and payload `p` of 0 to 252 bytes: the
polls that carry exactly the frame `[0xAA, s, |p|] ++ p ++ [crc]` carry what the camera's
`sendUARTResponse(s, p, |p|)` writes, and the master's `receiveUARTResponse`, called with
non-NULL `data` (room for `|p|` bytes) and `dataLen`, returns `true` with status `s` and
payload `p` in the first `|p|` bytes of `data`; `*dataLen` is `|p|` when `|p| ≥ 1` and
keeps the caller's value when `|p| = 0`. -/
theorem packet_roundtrip (response rxBuffer : List Nat) (s : Nat) (p dest : List Nat)
    (st0 len0 : Nat) (polls : List (Option Nat))
    (hresponse : response.length = 256) (hrx : rxBuffer.length = 256)
    (hp : p.length ≤ 252) (hdest : p.length ≤ dest.length)
    (hfed : polls.filterMap id = [0xAA, s, p.length] ++ p
      ++ [Cam.calculateCRC8 ([0xAA, s, p.length] ++ p) (3 + p.length)]) :
    Cam.sendUARTResponse response s (some p) p.length = some (polls.filterMap id) ∧
    ∃ unread, Master.receiveUARTResponse rxBuffer
        { statusCode := st0, data := some dest, dataLen := some len0 } polls
      = some { ret := true,
               out := { statusCode := s, data := some (p ++ dest.drop p.length),
                        dataLen := some (if p.length > 0 then p.length else len0) },
               unread := unread } := by
  have hfed' : polls.filterMap id = [START_BYTE, s, p.length] ++ p
      ++ [Master.calculateCRC8 ([START_BYTE, s, p.length] ++ p) (3 + p.length)] := hfed
  constructor
  · rw [hfed]
    exact sendUARTResponse_frame response s (some p) p (Or.inl rfl) hresponse hp
  · obtain ⟨pre, rest, hpolls, hpre, _⟩ := filterMap_id_eq_concat polls _ _ hfed'
    refine ⟨rest, ?_⟩
    rw [hpolls, master_receive_frame rxBuffer _ s p _ pre rest hrx hp hpre, if_pos rfl,
      storeResponse_frame st0 dest len0 s p _ hdest]
    rfl

set_option maxRecDepth 100000 in
/-- Instance of C1 (amended), the example of the specification: the frame
`[0xAA, 0x00, 0x02, 0x01, 0x05, 0xF6]`, arriving with idle polls in between, decodes to
status Success, payload `[1, 5]` and data length 2. -/
theorem packet_roundtrip_witness :
    ((List.replicate 256 0).length = 256 ∧ (List.replicate 256 0).length = 256 ∧
      [1, 5].length ≤ 252 ∧ [1, 5].length ≤ [9, 9, 9].length ∧
      [some 0xAA, none, some 0x00, some 0x02, some 0x01, none, some 0x05, some 0xF6, none].filterMap id
        = [0xAA, 0x00, [1, 5].length] ++ [1, 5]
          ++ [Cam.calculateCRC8 ([0xAA, 0x00, [1, 5].length] ++ [1, 5]) (3 + [1, 5].length)]) ∧
    (Cam.sendUARTResponse (List.replicate 256 0) 0x00 (some [1, 5]) [1, 5].length
        = some ([some 0xAA, none, some 0x00, some 0x02, some 0x01, none, some 0x05, some 0xF6,
            none].filterMap id) ∧
      ∃ unread, Master.receiveUARTResponse (List.replicate 256 0)
          { statusCode := 7, data := some [9, 9, 9], dataLen := some 0 }
          [some 0xAA, none, some 0x00, some 0x02, some 0x01, none, some 0x05, some 0xF6, none]
        = some { ret := true,
                 out := { statusCode := 0x00, data := some ([1, 5] ++ [9, 9, 9].drop [1, 5].length),
                          dataLen := some (if [1, 5].length > 0 then [1, 5].length else 0) },
                 unread := unread }) :=
  ⟨⟨List.length_replicate _ _, List.length_replicate _ _, by decide, by decide, by decide⟩,
    packet_roundtrip (List.replicate 256 0) (List.replicate 256 0) 0x00 [1, 5] [9, 9, 9] 7 0
      [some 0xAA, none, some 0x00, some 0x02, some 0x01, none, some 0x05, some 0xF6, none]
      (List.length_replicate _ _) (List.length_replicate _ _) (by decide) (by decide)
      (by decide)⟩

/-- C2. For every id or status byte `b` and payload `p` of at most 252 bytes, the
frame emitted by the master's `sendUARTCommand` and by the camera's `sendUARTResponse`
is `[0xAA, b, |p|] ++ p ++ [c]`: the length byte is the payload size, `c` is
`calculateCRC8` of all the bytes before it, and the frame has `4 + |p| ≤ 256` bytes.
The same holds for the calls with a `NULL` payload and length 0, which emit
`[0xAA, b, 0, c]`. -/
theorem frame_layout (packet response : List Nat) (b : Nat) (p : List Nat)
    (hpacket : packet.length = 256) (hresponse : response.length = 256)
    (hp : p.length ≤ 252) :
    Master.sendUARTCommand packet b (some p) p.length
      = some ([0xAA, b, p.length] ++ p
          ++ [Master.calculateCRC8 ([0xAA, b, p.length] ++ p) (3 + p.length)]) ∧
    Cam.sendUARTResponse response b (some p) p.length
      = some ([0xAA, b, p.length] ++ p
          ++ [Cam.calculateCRC8 ([0xAA, b, p.length] ++ p) (3 + p.length)]) ∧
    Master.sendUARTCommand packet b none 0
      = some [0xAA, b, 0, Master.calculateCRC8 [0xAA, b, 0] 3] ∧
    Cam.sendUARTResponse response b none 0
      = some [0xAA, b, 0, Cam.calculateCRC8 [0xAA, b, 0] 3] ∧
    ([0xAA, b, p.length] ++ p).length = 3 + p.length ∧
    ([0xAA, b, p.length] ++ p
      ++ [Cam.calculateCRC8 ([0xAA, b, p.length] ++ p) (3 + p.length)]).length = 4 + p.length ∧
    4 + p.length ≤ 256 := by
  refine ⟨?_, ?_, ?_, ?_, ?_, ?_, by omega⟩
  · rw [master_sendUARTCommand_eq]
    exact sendUARTResponse_frame packet b (some p) p (Or.inl rfl) hpacket hp
  · exact sendUARTResponse_frame response b (some p) p (Or.inl rfl) hresponse hp
  · rw [master_sendUARTCommand_eq]
    exact sendUARTResponse_frame packet b none [] (Or.inr ⟨rfl, rfl⟩) hpacket (by simp)
  · exact sendUARTResponse_frame response b none [] (Or.inr ⟨rfl, rfl⟩) hresponse (by simp)
  · simp; omega
  · simp; omega

set_option maxRecDepth 100000 in
/-- Instance of C2: id 3 with payload `[1, 5]`, and id 3 without payload (the GetStatus
command). -/
theorem frame_layout_witness :
    ((List.replicate 256 0).length = 256 ∧ (List.replicate 256 255).length = 256 ∧
      [1, 5].length ≤ 252) ∧
    (Master.sendUARTCommand (List.replicate 256 0) 3 (some [1, 5]) 2
      = some [0xAA, 0x03, 0x02, 0x01, 0x05, 0xCC] ∧
    Cam.sendUARTResponse (List.replicate 256 255) 3 (some [1, 5]) 2
      = some [0xAA, 0x03, 0x02, 0x01, 0x05, 0xCC] ∧
    Master.sendUARTCommand (List.replicate 256 0) 3 none 0 = some [0xAA, 0x03, 0x00, 0xF0] ∧
    Cam.sendUARTResponse (List.replicate 256 255) 3 none 0 = some [0xAA, 0x03, 0x00, 0xF0] ∧
    [0xAA, 0x03, 0x02, 0x01, 0x05].length = 3 + 2 ∧
    [0xAA, 0x03, 0x02, 0x01, 0x05, 0xCC].length = 4 + 2 ∧
    4 + 2 ≤ 256) :=
  ⟨⟨List.length_replicate _ _, List.length_replicate _ _, by decide⟩,
    frame_layout (List.replicate 256 0) (List.replicate 256 255) 3 [1, 5]
      (List.length_replicate _ _) (List.length_replicate _ _) (by decide)⟩

set_option maxRecDepth 100000 in
/-- Counterexample to C3 as stated: the GetStatus command is sent as
`[0xAA, 0x03, 0x00, 0xF0]`, whereas CRC8 over `[0x03, 0x00]` alone is 0x3F; a frame
carrying 0x3F as its checksum is rejected by the master (`false`) and by the camera
("Checksum error"). -/
theorem checksum_coverage_counterexample :
    Master.sendUARTCommand (List.replicate 256 0) 0x03 (some []) 0
      = some [0xAA, 0x03, 0x00, 0xF0] ∧
    Master.calculateCRC8 ([0x03, 0x00] ++ []) 2 = 0x3F ∧
    Master.receiveUARTResponse (List.replicate 256 0)
        { statusCode := 9, data := none, dataLen := none }
        [some 0xAA, some 0x03, some 0x00, some 0x3F]
      = some { ret := false, out := { statusCode := 9, data := none, dataLen := none },
               unread := [] } ∧
    Cam.processUARTCommand Cam.Handlers.failing
        (Cam.CamState.boot
          { latestImagePath := "", imageCounter := 0, sdCardInitialized := true,
            files := [], tx := [] })
        [0xAA, 0x03, 0x00, 0x3F]
      = some { dev := { latestImagePath := "", imageCounter := 0, sdCardInitialized := true,
                        files := [], tx := [Cam.SerialOut.println "Checksum error"] },
               rxBuffer := [0xAA, 0x03, 0x00, 0x3F] ++ List.replicate 252 0,
               rxIndex := 0 } := by
  decide

/-- C3 (amended). For every id or status byte `b` and payload `p` of at most 252
bytes, the checksum byte of the frame emitted by `sendUARTCommand` and by
`sendUARTResponse` is CRC8 over `[0xAA, b, |p|] ++ p`, that is over all the bytes
before the checksum, the start marker included; and the two receivers accept the frame
`[0xAA, b, |p|] ++ p ++ [c]` exactly when `c` is that value (the master returns `true`,
the camera dispatches `b`; otherwise the master returns `false` and the camera logs the
error). -/
theorem checksum_coverage (packet response rxBuffer buf : List Nat) (b : Nat) (p : List Nat)
    (c st0 : Nat) (h : Cam.Handlers) (dev : Cam.Device)
    (hpacket : packet.length = 256) (hresponse : response.length = 256)
    (hrx : rxBuffer.length = 256) (hbuf : buf.length = 256) (hp : p.length ≤ 252) :
    (Master.sendUARTCommand packet b (some p) p.length).map (fun f => f.getD (3 + p.length) 0)
      = some (Master.calculateCRC8 ([0xAA, b, p.length] ++ p) (3 + p.length)) ∧
    (Cam.sendUARTResponse response b (some p) p.length).map (fun f => f.getD (3 + p.length) 0)
      = some (Cam.calculateCRC8 ([0xAA, b, p.length] ++ p) (3 + p.length)) ∧
    Master.receiveUARTResponse rxBuffer { statusCode := st0, data := none, dataLen := none }
        (([0xAA, b, p.length] ++ p ++ [c]).map some)
      = (if c = Master.calculateCRC8 ([0xAA, b, p.length] ++ p) (3 + p.length) then
          some { ret := true, out := { statusCode := b, data := none, dataLen := none },
                 unread := [] }
        else
          some { ret := false, out := { statusCode := st0, data := none, dataLen := none },
                 unread := [] }) ∧
    Cam.processUARTCommand h { dev := dev, rxBuffer := buf, rxIndex := 0 }
        ([0xAA, b, p.length] ++ p ++ [c])
      = (if c = Cam.calculateCRC8 ([0xAA, b, p.length] ++ p) (3 + p.length) then
          Cam.dispatch h b dev
        else some { dev with tx := dev.tx ++ [Cam.SerialOut.println "Checksum error"] }).map
        fun d => { dev := d, rxBuffer := [0xAA, b, p.length] ++ p ++ [c] ++ buf.drop (4 + p.length),
                   rxIndex := 0 } := by
  refine ⟨?_, ?_, ?_, ?_⟩
  · rw [master_sendUARTCommand_eq,
      sendUARTResponse_frame packet b (some p) p (Or.inl rfl) hpacket hp]
    exact congrArg some (frame_getD_checksum b p _)
  · rw [sendUARTResponse_frame response b (some p) p (Or.inl rfl) hresponse hp]
    exact congrArg some (frame_getD_checksum b p _)
  · have hpre : (([START_BYTE, b, p.length] ++ p).map some).filterMap id
        = [START_BYTE, b, p.length] ++ p := by
      rw [List.filterMap_map]
      simp
    have hrun := master_receive_frame rxBuffer
      { statusCode := st0, data := none, dataLen := none } b p c _ [] hrx hp hpre
    rw [storeResponse_null _ _ _ _ (Or.inl rfl)] at hrun
    have e : List.map some ([0xAA, b, p.length] ++ p ++ [c])
        = List.map some ([START_BYTE, b, p.length] ++ p) ++ [some c] := by
      simp [START_BYTE]
    rw [e, hrun]
    rfl
  · have hrun := cam_process_frame h dev buf b p c [] hbuf hp
    rw [List.append_nil, bind_processUARTCommand_nil] at hrun
    exact hrun

set_option maxRecDepth 100000 in
/-- Instance of C3 (amended): the GetStatus frame `[0xAA, 0x03, 0x00, 0xF0]`. -/
theorem checksum_coverage_witness :
    ((List.replicate 256 0).length = 256 ∧ (List.replicate 256 0).length = 256 ∧
      (List.replicate 256 0).length = 256 ∧ (List.replicate 256 0).length = 256 ∧
      ([] : List Nat).length ≤ 252) ∧
    ((Master.sendUARTCommand (List.replicate 256 0) 0x03 (some []) 0).map
        (fun f => f.getD 3 0)
      = some (Master.calculateCRC8 [0xAA, 0x03, 0x00] 3) ∧
    (Cam.sendUARTResponse (List.replicate 256 0) 0x03 (some []) 0).map
        (fun f => f.getD 3 0)
      = some (Cam.calculateCRC8 [0xAA, 0x03, 0x00] 3) ∧
    Master.receiveUARTResponse (List.replicate 256 0)
        { statusCode := 9, data := none, dataLen := none }
        [some 0xAA, some 0x03, some 0x00, some 0xF0]
      = some { ret := true, out := { statusCode := 0x03, data := none, dataLen := none },
               unread := [] } ∧
    Cam.processUARTCommand Cam.Handlers.failing
        { dev := Cam.Device.sample, rxBuffer := List.replicate 256 0, rxIndex := 0 }
        [0xAA, 0x03, 0x00, 0xF0]
      = some
          { dev := { Cam.Device.sample with
                     tx := [Cam.SerialOut.write [0xAA, 0x00, 0x02, 1, 5, 0xF6]] },
            rxBuffer := [0xAA, 0x03, 0x00, 0xF0] ++ List.replicate 252 0,
            rxIndex := 0 }) :=
  ⟨⟨List.length_replicate _ _, List.length_replicate _ _, List.length_replicate _ _,
      List.length_replicate _ _, by decide⟩,
    checksum_coverage (List.replicate 256 0) (List.replicate 256 0) (List.replicate 256 0)
      (List.replicate 256 0) 0x03 [] 0xF0 9 Cam.Handlers.failing Cam.Device.sample
      (List.length_replicate _ _) (List.length_replicate _ _) (List.length_replicate _ _)
      (List.length_replicate _ _) (by decide)⟩

set_option maxRecDepth 100000 in
/-- Counterexample to C6 as stated: a single noise byte 0xAA before a valid frame. The
master takes `[0xAA, 0xAA, 0x00, 0x02]` for a frame, finds a checksum mismatch and
returns `false`; the camera takes 0x03 for the length byte, answers nothing and is
left waiting with `rxIndex = 5`. -/
theorem resync_counterexample :
    Cam.sendUARTResponse (List.replicate 256 0) 0x00 (some [1, 5]) 2
      = some [0xAA, 0x00, 0x02, 0x01, 0x05, 0xF6] ∧
    Master.receiveUARTResponse (List.replicate 256 0)
        { statusCode := 9, data := some [0, 0], dataLen := some 0 }
        (([0xAA] ++ [0xAA, 0x00, 0x02, 0x01, 0x05, 0xF6]).map some)
      = some { ret := false, out := { statusCode := 9, data := some [0, 0], dataLen := some 0 },
               unread := [some 0x01, some 0x05, some 0xF6] } ∧
    Master.sendUARTCommand (List.replicate 256 0) 0x03 none 0
      = some [0xAA, 0x03, 0x00, 0xF0] ∧
    (Cam.processUARTCommand Cam.Handlers.failing
        (Cam.CamState.boot
          { latestImagePath := "", imageCounter := 0, sdCardInitialized := true,
            files := [], tx := [] })
        ([0xAA] ++ [0xAA, 0x03, 0x00, 0xF0])).map (fun cam => (cam.dev.tx, cam.rxIndex))
      = some ([], 5) := by
  decide

/-- C6 (amended). Noise that does not contain the start byte 0xAA is discarded: for
every sequence of noise bytes different from 0xAA prepended to a valid frame
`F = [0xAA, b, |p|] ++ p ++ [crc]` with `|p| ≤ 252`, a receiver started empty accepts
exactly `F`: the camera dispatches the command id `b` (once, on the device as it was),
the master returns `true` with status `b` and payload `p`. -/
theorem resync_after_noise (h : Cam.Handlers) (dev : Cam.Device) (buf rxBuffer : List Nat)
    (noise : List Nat) (noisePolls framePolls : List (Option Nat)) (b : Nat)
    (p dest : List Nat) (st0 len0 : Nat)
    (hbuf : buf.length = 256) (hrx : rxBuffer.length = 256) (hp : p.length ≤ 252)
    (hdest : p.length ≤ dest.length)
    (hnoise : ∀ x ∈ noise, x ≠ 0xAA) (hnoisePolls : ∀ x ∈ noisePolls, x ≠ some 0xAA)
    (hframe : framePolls.filterMap id = [0xAA, b, p.length] ++ p
      ++ [Cam.calculateCRC8 ([0xAA, b, p.length] ++ p) (3 + p.length)]) :
    Cam.processUARTCommand h { dev := dev, rxBuffer := buf, rxIndex := 0 }
        (noise ++ ([0xAA, b, p.length] ++ p
          ++ [Cam.calculateCRC8 ([0xAA, b, p.length] ++ p) (3 + p.length)]))
      = (Cam.dispatch h b dev).map
          (fun d => { dev := d,
                      rxBuffer := [0xAA, b, p.length] ++ p
                        ++ [Cam.calculateCRC8 ([0xAA, b, p.length] ++ p) (3 + p.length)]
                        ++ buf.drop (4 + p.length),
                      rxIndex := 0 }) ∧
    ∃ unread, Master.receiveUARTResponse rxBuffer
        { statusCode := st0, data := some dest, dataLen := some len0 } (noisePolls ++ framePolls)
      = some { ret := true,
               out := { statusCode := b, data := some (p ++ dest.drop p.length),
                        dataLen := some (if p.length > 0 then p.length else len0) },
               unread := unread } := by
  constructor
  · have hn : START_BYTE ∉ noise := fun hm => hnoise _ hm rfl
    have hrun := cam_process_frame h dev buf b p
      (Cam.calculateCRC8 ([START_BYTE, b, p.length] ++ p) (3 + p.length)) [] hbuf hp
    rw [List.append_nil, bind_processUARTCommand_nil, if_pos rfl] at hrun
    rw [cam_noise h dev buf _ noise hn]
    exact hrun
  · have hn : some START_BYTE ∉ noisePolls := fun hm => hnoisePolls _ hm rfl
    have hframe' : framePolls.filterMap id = [START_BYTE, b, p.length] ++ p
        ++ [Master.calculateCRC8 ([START_BYTE, b, p.length] ++ p) (3 + p.length)] := hframe
    obtain ⟨pre, rest, hpolls, hpre, _⟩ := filterMap_id_eq_concat framePolls _ _ hframe'
    refine ⟨rest, ?_⟩
    unfold Master.receiveUARTResponse
    rw [master_noise _ rxBuffer framePolls noisePolls hn]
    have hrun := master_receive_frame rxBuffer
      { statusCode := st0, data := some dest, dataLen := some len0 } b p
      (Master.calculateCRC8 ([START_BYTE, b, p.length] ++ p) (3 + p.length)) pre rest hrx hp hpre
    rw [if_pos rfl, storeResponse_frame st0 dest len0 b p _ hdest, ← hpolls] at hrun
    exact hrun

set_option maxRecDepth 100000 in
/-- Instance of C6 (amended): three noise bytes before a GetStatus frame with payload
`[1, 5]`. -/
theorem resync_after_noise_witness :
    ((List.replicate 256 0).length = 256 ∧ (List.replicate 256 0).length = 256 ∧
      [1, 5].length ≤ 252 ∧ [1, 5].length ≤ [9, 9, 9].length ∧
      (∀ x ∈ [0x00, 0x55, 0xFF], x ≠ 0xAA) ∧
      (∀ x ∈ [some 0x00, none, some 0x55], x ≠ some 0xAA) ∧
      [some 0xAA, some 0x03, none, some 0x02, some 0x01, some 0x05, some 0xCC].filterMap id
        = [0xAA, 0x03, [1, 5].length] ++ [1, 5]
          ++ [Cam.calculateCRC8 ([0xAA, 0x03, [1, 5].length] ++ [1, 5]) (3 + [1, 5].length)]) ∧
    (Cam.processUARTCommand Cam.Handlers.failing
        { dev := Cam.Device.sample, rxBuffer := List.replicate 256 0, rxIndex := 0 }
        ([0x00, 0x55, 0xFF] ++ [0xAA, 0x03, 0x02, 0x01, 0x05, 0xCC])
      = some
          { dev := { Cam.Device.sample with
                     tx := [Cam.SerialOut.write [0xAA, 0x00, 0x02, 1, 5, 0xF6]] },
            rxBuffer := [0xAA, 0x03, 0x02, 0x01, 0x05, 0xCC] ++ List.replicate 250 0,
            rxIndex := 0 } ∧
    ∃ unread, Master.receiveUARTResponse (List.replicate 256 0)
        { statusCode := 9, data := some [9, 9, 9], dataLen := some 0 }
        ([some 0x00, none, some 0x55]
          ++ [some 0xAA, some 0x03, none, some 0x02, some 0x01, some 0x05, some 0xCC])
      = some { ret := true,
               out := { statusCode := 0x03, data := some [1, 5, 9], dataLen := some 2 },
               unread := unread }) :=
  ⟨⟨List.length_replicate _ _, List.length_replicate _ _, by decide, by decide, by decide,
      by decide, by decide⟩,
    resync_after_noise Cam.Handlers.failing Cam.Device.sample (List.replicate 256 0)
      (List.replicate 256 0) [0x00, 0x55, 0xFF] [some 0x00, none, some 0x55]
      [some 0xAA, some 0x03, none, some 0x02, some 0x01, some 0x05, some 0xCC] 0x03 [1, 5]
      [9, 9, 9] 9 0 (List.length_replicate _ _) (List.length_replicate _ _) (by decide)
      (by decide) (by decide) (by decide) (by decide)⟩

set_option maxRecDepth 100000 in
/-- Counterexample to C7 as stated: a frame with a wrong checksum followed by a valid
frame. The master returns `false` on the first and leaves the valid frame unread; the
camera, fed a bad frame followed by a valid GetStatus frame, logs the error and then
answers the valid frame. -/
theorem master_bad_checksum_counterexample :
    Cam.sendUARTResponse (List.replicate 256 0) 0x00 (some [1, 5]) 2
      = some [0xAA, 0x00, 0x02, 0x01, 0x05, 0xF6] ∧
    Master.receiveUARTResponse (List.replicate 256 0)
        { statusCode := 9, data := some [0, 0], dataLen := some 0 }
        (([0xAA, 0x01, 0x00, 0x00] ++ [0xAA, 0x00, 0x02, 0x01, 0x05, 0xF6]).map some)
      = some { ret := false, out := { statusCode := 9, data := some [0, 0], dataLen := some 0 },
               unread := [some 0xAA, some 0x00, some 0x02, some 0x01, some 0x05, some 0xF6] } ∧
    (Cam.processUARTCommand Cam.Handlers.failing
        (Cam.CamState.boot
          { latestImagePath := "", imageCounter := 5, sdCardInitialized := true,
            files := [], tx := [] })
        ([0xAA, 0x01, 0x00, 0x00] ++ [0xAA, 0x03, 0x00, 0xF0])).map (fun cam => cam.dev.tx)
      = some [Cam.SerialOut.println "Checksum error",
              Cam.SerialOut.write [0xAA, 0x00, 0x02, 0x01, 0x05, 0xF6]] := by
  decide

/-- C7 (amended). A checksum mismatch ends the master's `receiveUARTResponse`: when it
has accumulated a complete frame `[0xAA, b, |p|] ++ p ++ [c]` (`|p| ≤ 252`) whose
checksum byte `c` does not match, it returns `false` at once, leaves `*statusCode`,
`data` and `*dataLen` as they were and reads nothing further, so a valid frame that
follows stays unread in the serial queue (unlike the camera-side receiver, which
resets and keeps reading). -/
theorem master_bad_checksum_returns_false (rxBuffer : List Nat) (out : Master.RxOut)
    (b : Nat) (p : List Nat) (c : Nat) (framePolls rest : List (Option Nat))
    (hrx : rxBuffer.length = 256) (hp : p.length ≤ 252)
    (hc : c ≠ Master.calculateCRC8 ([0xAA, b, p.length] ++ p) (3 + p.length))
    (hframe : framePolls.filterMap id = [0xAA, b, p.length] ++ p) :
    Master.receiveUARTResponse rxBuffer out (framePolls ++ some c :: rest)
      = some { ret := false, out := out, unread := rest } := by
  rw [master_receive_frame rxBuffer out b p c framePolls rest hrx hp hframe]
  exact if_neg hc

set_option maxRecDepth 100000 in
/-- Instance of C7 (amended): `[0xAA, 0x01, 0x00, 0x00]` (the checksum should be 0xDA)
followed by a valid frame. -/
theorem master_bad_checksum_returns_false_witness :
    ((List.replicate 256 0).length = 256 ∧ ([] : List Nat).length ≤ 252 ∧
      0x00 ≠ Master.calculateCRC8 ([0xAA, 0x01, ([] : List Nat).length] ++ [])
        (3 + ([] : List Nat).length) ∧
      [some 0xAA, none, some 0x01, some 0x00].filterMap id
        = [0xAA, 0x01, ([] : List Nat).length] ++ []) ∧
    Master.receiveUARTResponse (List.replicate 256 0)
        { statusCode := 9, data := none, dataLen := none }
        ([some 0xAA, none, some 0x01, some 0x00]
          ++ some 0x00 :: [some 0xAA, some 0x00, some 0x00, some 0xCF])
      = some { ret := false, out := { statusCode := 9, data := none, dataLen := none },
               unread := [some 0xAA, some 0x00, some 0x00, some 0xCF] } :=
  ⟨⟨List.length_replicate _ _, by decide, by decide, by decide⟩,
    master_bad_checksum_returns_false (List.replicate 256 0)
      { statusCode := 9, data := none, dataLen := none } 0x01 [] 0x00
      [some 0xAA, none, some 0x01, some 0x00]
      [some 0xAA, some 0x00, some 0x00, some 0xCF]
      (List.length_replicate _ _) (by decide) (by decide) (by decide)⟩

/-- C8. A complete frame `[0xAA, b, |p|] ++ p ++ [c]` (`|p| ≤ 252`) whose checksum byte
does not match, or whose checksum matches but whose command id is none of 0x01..0x04,
is dropped by the camera: no response frame is written (the only output on the serial
port is the log line "Checksum error" or "Unknown command", which contains no start
byte), `latestImagePath`, `imageCounter`, `sdCardInitialized` and the files are
unchanged and `rxIndex` is 0 again; a valid frame that follows immediately is
dispatched on that device exactly as from the empty receiver. -/
theorem camera_silent_drop (h : Cam.Handlers) (dev : Cam.Device) (buf : List Nat) (b : Nat)
    (p : List Nat) (c b2 : Nat) (q : List Nat)
    (hbuf : buf.length = 256) (hp : p.length ≤ 252) (hq : q.length ≤ 252)
    (hbad : c ≠ Cam.calculateCRC8 ([0xAA, b, p.length] ++ p) (3 + p.length) ∨
      (b ≠ 0x01 ∧ b ≠ 0x02 ∧ b ≠ 0x03 ∧ b ≠ 0x04)) :
    Cam.processUARTCommand h { dev := dev, rxBuffer := buf, rxIndex := 0 }
        ([0xAA, b, p.length] ++ p ++ [c])
      = some
          { dev := { dev with tx := dev.tx ++ [Cam.SerialOut.println
              (if c = Cam.calculateCRC8 ([0xAA, b, p.length] ++ p) (3 + p.length)
                then "Unknown command" else "Checksum error")] },
            rxBuffer := [0xAA, b, p.length] ++ p ++ [c] ++ buf.drop (4 + p.length),
            rxIndex := 0 } ∧
    0xAA ∉ (Cam.SerialOut.println
        (if c = Cam.calculateCRC8 ([0xAA, b, p.length] ++ p) (3 + p.length)
          then "Unknown command" else "Checksum error")).wire ∧
    Cam.processUARTCommand h { dev := dev, rxBuffer := buf, rxIndex := 0 }
        (([0xAA, b, p.length] ++ p ++ [c])
          ++ ([0xAA, b2, q.length] ++ q
            ++ [Cam.calculateCRC8 ([0xAA, b2, q.length] ++ q) (3 + q.length)]))
      = (Cam.dispatch h b2 { dev with tx := dev.tx ++ [Cam.SerialOut.println
            (if c = Cam.calculateCRC8 ([0xAA, b, p.length] ++ p) (3 + p.length)
              then "Unknown command" else "Checksum error")] }).map
          (fun d => { dev := d,
                      rxBuffer := [0xAA, b2, q.length] ++ q
                        ++ [Cam.calculateCRC8 ([0xAA, b2, q.length] ++ q) (3 + q.length)]
                        ++ ([0xAA, b, p.length] ++ p ++ [c] ++ buf.drop (4 + p.length)).drop
                            (4 + q.length),
                      rxIndex := 0 }) := by
  have hverdict : (if c = Cam.calculateCRC8 ([START_BYTE, b, p.length] ++ p) (3 + p.length) then
        Cam.dispatch h b dev
      else some { dev with tx := dev.tx ++ [Cam.SerialOut.println "Checksum error"] })
      = some { dev with tx := dev.tx ++ [Cam.SerialOut.println
          (if c = Cam.calculateCRC8 ([START_BYTE, b, p.length] ++ p) (3 + p.length)
            then "Unknown command" else "Checksum error")] } := by
    by_cases hc : c = Cam.calculateCRC8 ([START_BYTE, b, p.length] ++ p) (3 + p.length)
    · rw [if_pos hc, if_pos hc]
      rcases hbad with hne | ⟨h1, h2, h3, h4⟩
      · exact absurd hc hne
      · exact dispatch_unknown h dev b h1 h2 h3 h4
    · rw [if_neg hc, if_neg hc]
  have hlenB : ([START_BYTE, b, p.length] ++ p ++ [c] ++ buf.drop (4 + p.length)).length = 256 := by
    simp; omega
  refine ⟨?_, ?_, ?_⟩
  · have hrun := cam_process_frame h dev buf b p c [] hbuf hp
    rw [List.append_nil, bind_processUARTCommand_nil, hverdict] at hrun
    exact hrun
  · split <;> decide
  · have hrun := cam_process_frame h dev buf b p c
      ([START_BYTE, b2, q.length] ++ q
        ++ [Cam.calculateCRC8 ([START_BYTE, b2, q.length] ++ q) (3 + q.length)]) hbuf hp
    rw [hverdict, Option.some_bind] at hrun
    have hrun2 := cam_process_frame h
      { dev with tx := dev.tx ++ [Cam.SerialOut.println
          (if c = Cam.calculateCRC8 ([START_BYTE, b, p.length] ++ p) (3 + p.length)
            then "Unknown command" else "Checksum error")] }
      _ b2 q (Cam.calculateCRC8 ([START_BYTE, b2, q.length] ++ q) (3 + q.length)) [] hlenB hq
    rw [List.append_nil, bind_processUARTCommand_nil, if_pos rfl] at hrun2
    exact hrun.trans hrun2

set_option maxRecDepth 100000 in
/-- Instance of C8: command id 0x09 with a matching checksum, followed by a GetStatus
frame. -/
theorem camera_silent_drop_witness :
    ((List.replicate 256 0).length = 256 ∧ ([] : List Nat).length ≤ 252 ∧
      ([] : List Nat).length ≤ 252 ∧
      (0x72 ≠ Cam.calculateCRC8 ([0xAA, 0x09, ([] : List Nat).length] ++ [])
          (3 + ([] : List Nat).length) ∨
        (0x09 ≠ 0x01 ∧ 0x09 ≠ 0x02 ∧ 0x09 ≠ 0x03 ∧ 0x09 ≠ 0x04))) ∧
    (Cam.processUARTCommand Cam.Handlers.failing
        { dev := Cam.Device.sample, rxBuffer := List.replicate 256 0, rxIndex := 0 }
        [0xAA, 0x09, 0x00, 0x72]
      = some
          { dev := { Cam.Device.sample with
                     tx := [Cam.SerialOut.println "Unknown command"] },
            rxBuffer := [0xAA, 0x09, 0x00, 0x72] ++ List.replicate 252 0,
            rxIndex := 0 } ∧
    0xAA ∉ (Cam.SerialOut.println "Unknown command").wire ∧
    Cam.processUARTCommand Cam.Handlers.failing
        { dev := Cam.Device.sample, rxBuffer := List.replicate 256 0, rxIndex := 0 }
        ([0xAA, 0x09, 0x00, 0x72] ++ [0xAA, 0x03, 0x00, 0xF0])
      = some
          { dev := { Cam.Device.sample with
                     tx := [Cam.SerialOut.println "Unknown command",
                            Cam.SerialOut.write [0xAA, 0x00, 0x02, 1, 5, 0xF6]] },
            rxBuffer := [0xAA, 0x03, 0x00, 0xF0] ++ List.replicate 252 0,
            rxIndex := 0 }) :=
  ⟨⟨List.length_replicate _ _, by decide, by decide, Or.inr (by decide)⟩,
    camera_silent_drop Cam.Handlers.failing Cam.Device.sample (List.replicate 256 0) 0x09 []
      0x72 0x03 [] (List.length_replicate _ _) (by decide) (by decide) (Or.inr (by decide))⟩

theorem checkFrame_isSome (h : Cam.Handlers) (dev : Cam.Device) (rxBuffer : List Nat)
    (rxIndex : Nat) :
    ∃ r, Cam.checkFrame h dev rxBuffer rxIndex = some r ∧ (r.2 = 0 ∨ r.2 = rxIndex) := by
  unfold Cam.checkFrame
  simp only []
  split
  · split
    · split
      · obtain ⟨d, hd⟩ := dispatch_isSome h dev (rxBuffer.getD 1 0)
        exact ⟨(d, 0), by rw [hd]; rfl, Or.inl rfl⟩
      · exact ⟨_, rfl, Or.inl rfl⟩
    · exact ⟨_, rfl, Or.inr rfl⟩
  · exact ⟨_, rfl, Or.inr rfl⟩

theorem processByte_in_bounds (h : Cam.Handlers) (cam : Cam.CamState) (inByte : Nat)
    (hlen : cam.rxBuffer.length = UART_RX_BUFFER_SIZE) (hidx : cam.rxIndex < UART_RX_BUFFER_SIZE) :
    ∃ cam', Cam.processByte h cam inByte = some cam' ∧
      cam'.rxBuffer.length = UART_RX_BUFFER_SIZE ∧ cam'.rxIndex < UART_RX_BUFFER_SIZE := by
  unfold Cam.processByte
  split
  · exact ⟨cam, rfl, hlen, hidx⟩
  · have hw : bufWrite cam.rxBuffer cam.rxIndex inByte
        = some (cam.rxBuffer.set cam.rxIndex inByte) := by
      unfold bufWrite
      rw [if_pos (by omega)]
    rw [hw]
    simp only []
    obtain ⟨r, hr, _⟩ := checkFrame_isSome h cam.dev (cam.rxBuffer.set cam.rxIndex inByte)
      (cam.rxIndex + 1)
    rw [hr]
    refine ⟨_, rfl, ?_, ?_⟩
    · simpa using hlen
    · show (if r.2 ≥ UART_RX_BUFFER_SIZE then 0 else r.2) < UART_RX_BUFFER_SIZE
      split
      · decide
      · omega

/-- The camera never writes outside `rxBuffer`: from a state with `rxIndex` inside the
buffer, `processUARTCommand` runs to the end of every input without an out-of-bounds
write and ends with `rxIndex` inside the buffer again; as `processByte` only writes at
`rxIndex`, every write `rxBuffer[rxIndex++]` happens with `rxIndex < 256`. -/
theorem camera_receive_in_bounds (h : Cam.Handlers) (input : List Nat) :
    ∀ cam : Cam.CamState, cam.rxBuffer.length = UART_RX_BUFFER_SIZE →
      cam.rxIndex < UART_RX_BUFFER_SIZE →
      ∃ cam', Cam.processUARTCommand h cam input = some cam' ∧
        cam'.rxBuffer.length = UART_RX_BUFFER_SIZE ∧ cam'.rxIndex < UART_RX_BUFFER_SIZE := by
  induction input with
  | nil => intro cam hlen hidx; exact ⟨cam, rfl, hlen, hidx⟩
  | cons b rest ih =>
    intro cam hlen hidx
    obtain ⟨cam1, h1, hlen1, hidx1⟩ := processByte_in_bounds h cam b hlen hidx
    obtain ⟨cam2, h2, hlen2, hidx2⟩ := ih cam1 hlen1 hidx1
    exact ⟨cam2, by rw [Cam.processUARTCommand, h1]; exact h2, hlen2, hidx2⟩

/-- Instance of `camera_receive_in_bounds`: the booted camera fed a frame head that
announces 253 payload bytes, followed by 254 more bytes. -/
theorem camera_receive_in_bounds_witness :
    ((Cam.CamState.boot Cam.Device.sample).rxBuffer.length = UART_RX_BUFFER_SIZE ∧
      (Cam.CamState.boot Cam.Device.sample).rxIndex < UART_RX_BUFFER_SIZE) ∧
    ∃ cam', Cam.processUARTCommand Cam.Handlers.failing (Cam.CamState.boot Cam.Device.sample)
        ([0xAA, 0x00, 0xFD] ++ List.replicate 254 0) = some cam' ∧
      cam'.rxBuffer.length = UART_RX_BUFFER_SIZE ∧ cam'.rxIndex < UART_RX_BUFFER_SIZE :=
  ⟨⟨List.length_replicate _ _, by decide⟩,
    camera_receive_in_bounds Cam.Handlers.failing ([0xAA, 0x00, 0xFD] ++ List.replicate 254 0)
      (Cam.CamState.boot Cam.Device.sample) (List.length_replicate _ _) (by decide)⟩

set_option maxRecDepth 1000000 in
/-- C9, at the failing input. A frame head `[0xAA, 0x00, 0xFD]` announces 253 payload
bytes. After 256 bytes the master has not returned (here the polls end, so it times
out); with one byte more it writes `rxBuffer[256]`, outside the array (`none`). The
camera, on the same 257 bytes, resets at 256 and ends with `rxIndex = 0` and nothing
written. -/
theorem master_receive_overflow :
    Master.receiveUARTResponse (List.replicate 256 0)
        { statusCode := 0, data := none, dataLen := none }
        (([0xAA, 0x00, 0xFD] ++ List.replicate 253 0).map some)
      = some { ret := false, out := { statusCode := 0, data := none, dataLen := none },
               unread := [] } ∧
    Master.receiveUARTResponse (List.replicate 256 0)
        { statusCode := 0, data := none, dataLen := none }
        (([0xAA, 0x00, 0xFD] ++ List.replicate 254 0).map some)
      = none ∧
    (Cam.processUARTCommand Cam.Handlers.failing
        (Cam.CamState.boot
          { latestImagePath := "", imageCounter := 0, sdCardInitialized := true,
            files := [], tx := [] })
        ([0xAA, 0x00, 0xFD] ++ List.replicate 254 0)).map (fun cam => (cam.rxIndex, cam.dev.tx))
      = some (0, []) := by
  decide

/-- A valid GetStatus frame (command id 0x03, any payload of at most 252 bytes) makes the
camera write exactly one response frame, `[0xAA, 0x00, 0x02, f, n mod 256, crc]` with
`f = 1` if the SD card is initialised and `0` otherwise and `n` the value of
`imageCounter`; the device is otherwise unchanged and the receiver is empty again. -/
theorem get_status_frame (h : Cam.Handlers) (dev : Cam.Device) (buf p : List Nat)
    (hbuf : buf.length = 256) (hp : p.length ≤ 252) :
    Cam.processUARTCommand h { dev := dev, rxBuffer := buf, rxIndex := 0 }
        ([0xAA, 0x03, p.length] ++ p
          ++ [Cam.calculateCRC8 ([0xAA, 0x03, p.length] ++ p) (3 + p.length)])
      = some
          { dev := { dev with tx := dev.tx ++ [Cam.SerialOut.write
              [0xAA, 0x00, 0x02, (if dev.sdCardInitialized then 1 else 0),
                dev.imageCounter % 256,
                Cam.calculateCRC8 [0xAA, 0x00, 0x02,
                  (if dev.sdCardInitialized then 1 else 0), dev.imageCounter % 256] 5]] },
            rxBuffer := [0xAA, 0x03, p.length] ++ p
              ++ [Cam.calculateCRC8 ([0xAA, 0x03, p.length] ++ p) (3 + p.length)]
              ++ buf.drop (4 + p.length),
            rxIndex := 0 } := by
  have hrun := cam_process_frame h dev buf CMD_GET_STATUS p
    (Cam.calculateCRC8 ([START_BYTE, CMD_GET_STATUS, p.length] ++ p) (3 + p.length)) [] hbuf hp
  rw [List.append_nil, bind_processUARTCommand_nil, if_pos rfl, dispatch_getStatus] at hrun
  exact hrun

/-! ## Theorems: DeleteImage (C11) -/


theorem dispatch_delete (h : Cam.Handlers) (dev : Cam.Device) :
    Cam.dispatch h CMD_DELETE_IMAGE dev =
      if dev.latestImagePath.length > 0 then
        some { dev with files := Cam.sdRemove dev.latestImagePath dev.files,
                        latestImagePath := "",
                        tx := dev.tx ++ [Cam.SerialOut.write [0xAA, 0x00, 0x00, 0xCF]] }
      else some { dev with tx := dev.tx ++ [Cam.SerialOut.write [0xAA, 0x04, 0x00, 0x9B]] } := by
  unfold Cam.dispatch
  rw [if_neg (by decide), if_neg (by decide), if_neg (by decide), if_pos rfl]
  split
  · rw [respond_null]; rfl
  · rw [respond_null]; rfl

theorem dispatch_send_noImage (h : Cam.Handlers) (dev : Cam.Device)
    (hnone : dev.latestImagePath = "") :
    Cam.dispatch h CMD_SEND_IMAGE dev
      = some { dev with tx := dev.tx ++ [Cam.SerialOut.write [0xAA, 0x04, 0x00, 0x9B]] } := by
  unfold Cam.dispatch
  rw [if_neg (by decide), if_pos rfl, if_neg (by rw [hnone]; decide), respond_null]
  rfl

theorem sdRemove_not_mem (path : String) (files : List (String × List Nat)) :
    ∀ f ∈ Cam.sdRemove path files, f.1 ≠ path := by
  intro f hf
  unfold Cam.sdRemove at hf
  simpa using (List.mem_filter.mp hf).2

/-- C11. A valid DeleteImage frame (command id 0x04, any payload of at most 252 bytes),
received by the empty receiver: when a latest image is recorded the camera removes
that file from the store, clears `latestImagePath` and answers Success
(`[0xAA, 0x00, 0x00, 0xCF]`); when none is recorded it answers NoImage
(`[0xAA, 0x04, 0x00, 0x9B]`) and changes nothing else. In both cases `latestImagePath` is
empty afterwards, so an immediately following DeleteImage or SendImage frame is
answered with NoImage only: nothing is removed and no chunk is sent, whatever the
transfer handler would do. -/
theorem delete_image (h : Cam.Handlers) (dev : Cam.Device) (buf p q : List Nat) (b2 : Nat)
    (hbuf : buf.length = 256) (hp : p.length ≤ 252) (hq : q.length ≤ 252)
    (hb2 : b2 = 0x04 ∨ b2 = 0x02) :
    (Cam.processUARTCommand h { dev := dev, rxBuffer := buf, rxIndex := 0 }
        ([0xAA, 0x04, p.length] ++ p
          ++ [Cam.calculateCRC8 ([0xAA, 0x04, p.length] ++ p) (3 + p.length)])).map
        (fun cam => (cam.dev, cam.rxIndex))
      = some
          (if dev.latestImagePath.length > 0 then
              { dev with files := Cam.sdRemove dev.latestImagePath dev.files,
                         latestImagePath := "",
                         tx := dev.tx ++ [Cam.SerialOut.write [0xAA, 0x00, 0x00, 0xCF]] }
            else { dev with tx := dev.tx ++ [Cam.SerialOut.write [0xAA, 0x04, 0x00, 0x9B]] },
            0) ∧
    (∀ f ∈ Cam.sdRemove dev.latestImagePath dev.files, f.1 ≠ dev.latestImagePath) ∧
    (Cam.processUARTCommand h { dev := dev, rxBuffer := buf, rxIndex := 0 }
        (([0xAA, 0x04, p.length] ++ p
            ++ [Cam.calculateCRC8 ([0xAA, 0x04, p.length] ++ p) (3 + p.length)])
          ++ ([0xAA, b2, q.length] ++ q
            ++ [Cam.calculateCRC8 ([0xAA, b2, q.length] ++ q) (3 + q.length)]))).map
        (fun cam => (cam.dev, cam.rxIndex))
      = some
          (if dev.latestImagePath.length > 0 then
              { dev with files := Cam.sdRemove dev.latestImagePath dev.files,
                         latestImagePath := "",
                         tx := dev.tx ++ [Cam.SerialOut.write [0xAA, 0x00, 0x00, 0xCF],
                                          Cam.SerialOut.write [0xAA, 0x04, 0x00, 0x9B]] }
            else { dev with tx := dev.tx ++ [Cam.SerialOut.write [0xAA, 0x04, 0x00, 0x9B],
                                             Cam.SerialOut.write [0xAA, 0x04, 0x00, 0x9B]] },
            0) := by
  have hafter : ∀ d, Cam.dispatch h CMD_DELETE_IMAGE dev = some d →
      Cam.dispatch h b2 d
        = some { d with tx := d.tx ++ [Cam.SerialOut.write [0xAA, 0x04, 0x00, 0x9B]] } := by
    intro d hd
    have hempty : d.latestImagePath = "" := by
      rw [dispatch_delete] at hd
      split at hd
      · cases hd; rfl
      · rename_i hlen
        cases hd
        show dev.latestImagePath = ""
        have h0 : dev.latestImagePath.length = 0 := by omega
        exact String.ext (List.eq_nil_of_length_eq_zero h0)
    rcases hb2 with rfl | rfl
    · have := dispatch_delete h d
      rw [if_neg (by rw [hempty]; decide)] at this
      exact this
    · exact dispatch_send_noImage h d hempty
  refine ⟨?_, sdRemove_not_mem _ _, ?_⟩
  · have hrun := cam_process_frame h dev buf CMD_DELETE_IMAGE p
      (Cam.calculateCRC8 ([START_BYTE, CMD_DELETE_IMAGE, p.length] ++ p) (3 + p.length)) []
      hbuf hp
    rw [List.append_nil, bind_processUARTCommand_nil, if_pos rfl, dispatch_delete] at hrun
    rw [show ([0xAA, 0x04, p.length] ++ p
          ++ [Cam.calculateCRC8 ([0xAA, 0x04, p.length] ++ p) (3 + p.length)])
        = ([START_BYTE, CMD_DELETE_IMAGE, p.length] ++ p
          ++ [Cam.calculateCRC8 ([START_BYTE, CMD_DELETE_IMAGE, p.length] ++ p)
              (3 + p.length)]) from rfl, hrun]
    split <;> rfl
  · have hlenB : ([START_BYTE, CMD_DELETE_IMAGE, p.length] ++ p
        ++ [Cam.calculateCRC8 ([START_BYTE, CMD_DELETE_IMAGE, p.length] ++ p) (3 + p.length)]
        ++ buf.drop (4 + p.length)).length = 256 := by
      simp; omega
    have hrun := cam_process_frame h dev buf CMD_DELETE_IMAGE p
      (Cam.calculateCRC8 ([START_BYTE, CMD_DELETE_IMAGE, p.length] ++ p) (3 + p.length))
      ([START_BYTE, b2, q.length] ++ q
        ++ [Cam.calculateCRC8 ([START_BYTE, b2, q.length] ++ q) (3 + q.length)]) hbuf hp
    rw [if_pos rfl] at hrun
    rw [show (([0xAA, 0x04, p.length] ++ p
            ++ [Cam.calculateCRC8 ([0xAA, 0x04, p.length] ++ p) (3 + p.length)])
          ++ ([0xAA, b2, q.length] ++ q
            ++ [Cam.calculateCRC8 ([0xAA, b2, q.length] ++ q) (3 + q.length)]))
        = ([START_BYTE, CMD_DELETE_IMAGE, p.length] ++ p
          ++ [Cam.calculateCRC8 ([START_BYTE, CMD_DELETE_IMAGE, p.length] ++ p)
              (3 + p.length)]
          ++ ([START_BYTE, b2, q.length] ++ q
            ++ [Cam.calculateCRC8 ([START_BYTE, b2, q.length] ++ q) (3 + q.length)]))
        from rfl, hrun]
    obtain ⟨d, hd⟩ := dispatch_isSome h dev CMD_DELETE_IMAGE
    have h2 := hafter d hd
    rw [hd, Option.some_bind]
    have hrun2 := cam_process_frame h d _ b2 q
      (Cam.calculateCRC8 ([START_BYTE, b2, q.length] ++ q) (3 + q.length)) [] hlenB hq
    rw [List.append_nil, bind_processUARTCommand_nil, if_pos rfl, h2] at hrun2
    rw [hrun2]
    rw [dispatch_delete] at hd
    split at hd <;> rename_i hlen
    · cases hd
      rw [if_pos hlen]
      simp
    · cases hd
      rw [if_neg hlen]
      simp

set_option maxRecDepth 100000 in
/-- Instance of C11: on a camera whose latest image is `/images/IMG_1.jpg`, the frames
`[0xAA, 0x04, 0x00, 0x9B]` (DeleteImage) and `[0xAA, 0x02, 0x00, 0xE5]` (SendImage) empty
the store and are answered with Success, then NoImage; the failing transfer handler
is never reached. -/
theorem delete_image_witness :
    ((List.replicate 256 0).length = 256 ∧ ([] : List Nat).length ≤ 252
      ∧ ([] : List Nat).length ≤ 252 ∧ ((0x02 : Nat) = 0x04 ∨ (0x02 : Nat) = 0x02)) ∧
    (Cam.processUARTCommand Cam.Handlers.failing
        { dev := Cam.Device.sample, rxBuffer := List.replicate 256 0, rxIndex := 0 }
        [0xAA, 0x04, 0x00, 0x9B, 0xAA, 0x02, 0x00, 0xE5]).map
        (fun cam => (cam.dev, cam.rxIndex))
      = some
          ({ Cam.Device.sample with
              files := [], latestImagePath := "",
              tx := [Cam.SerialOut.write [0xAA, 0x00, 0x00, 0xCF],
                     Cam.SerialOut.write [0xAA, 0x04, 0x00, 0x9B]] }, 0) :=
  ⟨⟨List.length_replicate _ _, by decide, by decide, Or.inr rfl⟩,
    (delete_image Cam.Handlers.failing Cam.Device.sample (List.replicate 256 0) [] [] 0x02
      (List.length_replicate _ _) (by decide) (by decide) (Or.inr rfl)).2.2⟩

/-! ## Theorems: the chunked transfer of the camera (C12, C18) -/

theorem writes_append (a b : List Cam.SerialOut) :
    Cam.writes (a ++ b) = Cam.writes a ++ Cam.writes b := by
  unfold Cam.writes
  exact List.filterMap_append _ _ _

theorem writes_sendChunk (data : List Nat) (i total : Nat) :
    Cam.writes (Cam.sendChunk data data.length i total) = Cam.packet total i data := by
  simp [Cam.writes, Cam.sendChunk, Cam.packet, List.take_length]

theorem writes_println (s : String) : Cam.writes [Cam.SerialOut.println s] = [] := rfl

theorem writes_print (s : String) : Cam.writes [Cam.SerialOut.print s] = [] := rfl

theorem sendLoop_done (content : List Nat) (total : Nat) (acks : List (List (Option Nat)))
    (pos i : Nat) (tx : List Cam.SerialOut) (h : content.length ≤ pos) :
    Cam.sendLoop content total acks pos i tx
      = (some true, tx ++ [Cam.SerialOut.println "Image transfer complete"]) := by
  cases acks <;> simp [Cam.sendLoop, Nat.not_lt.mpr h]

/-- Every packet of a transfer is a `sendChunk` packet with the same total. -/
theorem sendLoop_writes (content : List Nat) (total : Nat) :
    ∀ (acks : List (List (Option Nat))) (pos i : Nat) (tx : List Cam.SerialOut),
      ∃ sent : List (Nat × List Nat),
        Cam.writes (Cam.sendLoop content total acks pos i tx).2
          = Cam.writes tx ++ sent.flatMap fun c => Cam.packet total c.1 c.2 := by
  intro acks
  induction acks with
  | nil =>
    intro pos i tx
    by_cases h : pos < content.length
    · refine ⟨[(i, (content.drop pos).take CHUNK_SIZE)], ?_⟩
      rw [Cam.sendLoop, if_pos h, writes_append, writes_sendChunk]
      simp
    · refine ⟨[], ?_⟩
      simp [Cam.sendLoop, h, writes_append, writes_println]
  | cons polls acks ih =>
    intro pos i tx
    by_cases h : pos < content.length
    · by_cases hack : Cam.waitForACK polls
      · obtain ⟨sent, hsent⟩ := ih (pos + ((content.drop pos).take CHUNK_SIZE).length)
          ((i + 1) % 65536)
          (tx ++ Cam.sendChunk ((content.drop pos).take CHUNK_SIZE)
            ((content.drop pos).take CHUNK_SIZE).length i total)
        refine ⟨(i, (content.drop pos).take CHUNK_SIZE) :: sent, ?_⟩
        rw [Cam.sendLoop, if_pos h, if_pos hack, hsent, writes_append, writes_sendChunk]
        simp
      · obtain ⟨sent, hsent⟩ := ih (i * CHUNK_SIZE) i
          (tx ++ Cam.sendChunk ((content.drop pos).take CHUNK_SIZE)
              ((content.drop pos).take CHUNK_SIZE).length i total
            ++ [Cam.SerialOut.println "ACK timeout - retrying chunk"])
        refine ⟨(i, (content.drop pos).take CHUNK_SIZE) :: sent, ?_⟩
        rw [Cam.sendLoop, if_pos h, if_neg hack, hsent, writes_append, writes_append,
          writes_sendChunk, writes_println]
        simp
    · refine ⟨[], ?_⟩
      rw [sendLoop_done _ _ _ _ _ _ (Nat.le_of_not_lt h)]
      simp [writes_append, writes_println]

theorem totalChunksOf_eq (S : Nat) (hS : S ≤ 65535 * 1024) :
    Cam.totalChunksOf S = (S + 1023) / 1024 := by
  unfold Cam.totalChunksOf CHUNK_SIZE
  have h1 : (S + 1024 - 1) % 2 ^ 32 = S + 1023 := by
    rw [Nat.mod_eq_of_lt] <;> omega
  rw [h1, Nat.mod_eq_of_lt]
  omega

theorem ceil_div_1024 (S : Nat) : ⌈(S : ℚ) / 1024⌉₊ = (S + 1023) / 1024 := by
  rcases Nat.eq_zero_or_pos S with rfl | hpos
  · simp
  · have hn : (S + 1023) / 1024 ≠ 0 := by omega
    rw [Nat.ceil_eq_iff hn]
    constructor
    · rw [lt_div_iff₀ (by norm_num)]
      have : ((S + 1023) / 1024 - 1) * 1024 < S := by omega
      exact_mod_cast this
    · rw [div_le_iff₀ (by norm_num)]
      have : S ≤ (S + 1023) / 1024 * 1024 := by omega
      exact_mod_cast this

theorem chunkHeader_total (size i total : Nat) (h : total < 65536) :
    (Cam.chunkHeader size i total).getD 3 0 * 256 + (Cam.chunkHeader size i total).getD 4 0
      = total := by
  simp only [Cam.chunkHeader, List.getD_cons_succ, List.getD_cons_zero]
  rw [Nat.shiftRight_eq_div_pow, show (0xFF : Nat) = 2 ^ 8 - 1 from rfl,
    Nat.and_pow_two_sub_one_eq_mod, Nat.and_pow_two_sub_one_eq_mod]
  omega

/-- C12 (for files of at most 65535 chunks). The total-chunks value `sendImageViaUART`
computes for a file of `S ≤ 65535 * 1024` bytes is `⌈S / 1024⌉` (the least `n` with
`S ≤ n * 1024`), and every packet written during the transfer, whatever the ACK outcomes,
is a `sendChunk` packet whose header bytes 3 and 4 hold that same value (high byte, low
byte). -/
theorem chunk_count (acks : List (List (Option Nat))) (path : String) (dev : Cam.Device)
    (content : List Nat) (hopen : Cam.sdOpenRead path dev.files = some content)
    (hS : content.length ≤ 65535 * 1024) :
    Cam.totalChunksOf content.length = ⌈(content.length : ℚ) / 1024⌉₊ ∧
    (content.length ≤ Cam.totalChunksOf content.length * 1024 ∧
      ∀ n, content.length ≤ n * 1024 → Cam.totalChunksOf content.length ≤ n) ∧
    ∃ sent : List (Nat × List Nat),
      Cam.writes (Cam.sendImageViaUART acks path dev).2.tx
        = Cam.writes dev.tx
          ++ (sent.flatMap fun c => Cam.packet (Cam.totalChunksOf content.length) c.1 c.2) ∧
      ∀ c ∈ sent,
        (Cam.chunkHeader c.2.length c.1 (Cam.totalChunksOf content.length)).getD 3 0 * 256
          + (Cam.chunkHeader c.2.length c.1 (Cam.totalChunksOf content.length)).getD 4 0
          = ⌈(content.length : ℚ) / 1024⌉₊ := by
  have htot := totalChunksOf_eq content.length hS
  have hceil := ceil_div_1024 content.length
  refine ⟨by rw [htot, hceil], ⟨by rw [htot]; omega, fun n hn => by rw [htot]; omega⟩, ?_⟩
  obtain ⟨sent, hsent⟩ := sendLoop_writes content (Cam.totalChunksOf content.length) acks 0 0
    (dev.tx ++ [Cam.SerialOut.print ("Sending image: " ++ Cam.fmtD content.length
      ++ " bytes in " ++ Cam.fmtD (Cam.totalChunksOf content.length) ++ " chunks\n")])
  refine ⟨sent, ?_, ?_⟩
  · unfold Cam.sendImageViaUART
    rw [hopen]
    simp only []
    rw [hsent, writes_append, writes_print, List.append_nil]
  · intro c _
    rw [chunkHeader_total _ _ _ (by rw [htot]; omega), htot, hceil]
/-- Instance of C12: the 4-byte file of the sample device is sent with total 1. -/
theorem chunk_count_witness :
    (Cam.sdOpenRead "/images/IMG_1.jpg" Cam.Device.sample.files = some [255, 216, 255, 217]
      ∧ ([255, 216, 255, 217] : List Nat).length ≤ 65535 * 1024) ∧
    Cam.totalChunksOf ([255, 216, 255, 217] : List Nat).length
      = ⌈((([255, 216, 255, 217] : List Nat).length : Nat) : ℚ) / 1024⌉₊ :=
  ⟨⟨by decide, by decide⟩,
    (chunk_count [[some 6]] "/images/IMG_1.jpg" Cam.Device.sample [255, 216, 255, 217]
      (by decide) (by decide)).1⟩

/-- Counterexample to C12 as stated for every file size: for a file of 67108864 bytes
(64 MiB) the number of chunks is 65536, but the 16-bit `totalChunks` holds 0, and the
header of its chunks carries the total bytes `0, 0`. -/
theorem chunk_count_counterexample :
    Cam.totalChunksOf 67108864 = 0 ∧ ⌈((67108864 : Nat) : ℚ) / 1024⌉₊ = 65536 ∧
    Cam.chunkHeader 1024 0 (Cam.totalChunksOf 67108864) = [0xAA, 0, 0, 0, 0, 4, 0] :=
  ⟨by decide, by rw [ceil_div_1024], by decide⟩
theorem chunkOf_length (content : List Nat) (i : Nat) :
    (Cam.chunkOf content i).length = min 1024 (content.length - i * 1024) := by
  simp [Cam.chunkOf, CHUNK_SIZE]

/-- The packets of a transfer that starts at the beginning of chunk `i`: their indices
start at `i`, go up by one after an ACK and stay after a timeout, and each packet carries
the chunk of its index. -/
theorem sendLoop_trace (content : List Nat) (total : Nat)
    (hS : content.length ≤ 65536 * 1024) :
    ∀ (acks : List (List (Option Nat))) (i : Nat) (tx : List Cam.SerialOut),
      i * 1024 < content.length →
      ∃ idx : List Nat,
        idx.head? = some i ∧
        idx.length ≤ acks.length + 1 ∧
        ((Cam.sendLoop content total acks (i * 1024) i tx).1 = none
          → idx.length = acks.length + 1) ∧
        (∀ k, k + 1 < idx.length →
          idx.getD (k + 1) 0
            = idx.getD k 0 + if Cam.waitForACK (acks.getD k []) then 1 else 0) ∧
        (∀ j ∈ idx, j * 1024 < content.length) ∧
        Cam.writes (Cam.sendLoop content total acks (i * 1024) i tx).2
          = Cam.writes tx
            ++ idx.flatMap fun j => Cam.packet total j (Cam.chunkOf content j) := by
  intro acks
  induction acks with
  | nil =>
    intro i tx hi
    refine ⟨[i], rfl, by simp, fun _ => by simp, fun k hk => by simp at hk,
      fun j hj => by simp at hj; omega, ?_⟩
    rw [Cam.sendLoop, if_pos hi, writes_append, writes_sendChunk]
    simp [Cam.chunkOf, CHUNK_SIZE]
  | cons polls acks ih =>
    intro i tx hi
    have hdata : (content.drop (i * 1024)).take CHUNK_SIZE = Cam.chunkOf content i := rfl
    by_cases hack : Cam.waitForACK polls
    · rw [Cam.sendLoop, if_pos hi, if_pos hack, hdata]
      by_cases hnext : (i + 1) * 1024 < content.length
      · have hpos : i * 1024 + (Cam.chunkOf content i).length = (i + 1) * 1024 := by
          rw [chunkOf_length]; omega
        have hidx : (i + 1) % 65536 = i + 1 := Nat.mod_eq_of_lt (by omega)
        rw [hpos, hidx]
        obtain ⟨idx, hhead, hlen, hnone, hchain, hmem, hw⟩ := ih (i + 1)
          (tx ++ Cam.sendChunk (Cam.chunkOf content i) (Cam.chunkOf content i).length i total)
          hnext
        refine ⟨i :: idx, rfl, by simp; omega, fun h => by simp [hnone h], ?_, ?_, ?_⟩
        · intro k hk
          cases k with
          | zero =>
            cases idx with
            | nil => simp at hhead
            | cons a l =>
              simp at hhead
              simp [hack, hhead]
          | succ k =>
            have := hchain k (by simpa using hk)
            simpa using this
        · intro j hj
          rcases List.mem_cons.mp hj with rfl | hj
          · exact hi
          · exact hmem j hj
        · rw [hw, writes_append, writes_sendChunk]
          simp
      · have hpos : content.length ≤ i * 1024 + (Cam.chunkOf content i).length := by
          rw [chunkOf_length]; omega
        rw [sendLoop_done _ _ _ _ _ _ hpos]
        refine ⟨[i], rfl, by simp, fun h => by simp at h, fun k hk => by simp at hk,
          fun j hj => by simp at hj; omega, ?_⟩
        rw [writes_append, writes_append, writes_sendChunk, writes_println]
        simp
    · rw [Cam.sendLoop, if_pos hi, if_neg hack, hdata,
        show i * CHUNK_SIZE = i * 1024 from rfl]
      obtain ⟨idx, hhead, hlen, hnone, hchain, hmem, hw⟩ := ih i
        (tx ++ Cam.sendChunk (Cam.chunkOf content i) (Cam.chunkOf content i).length i total
          ++ [Cam.SerialOut.println "ACK timeout - retrying chunk"]) hi
      refine ⟨i :: idx, rfl, by simp; omega, fun h => by simp [hnone h], ?_, ?_, ?_⟩
      · intro k hk
        cases k with
        | zero =>
          cases idx with
          | nil => simp at hhead
          | cons a l =>
            simp at hhead
            simp [hack, hhead]
        | succ k =>
          have := hchain k (by simpa using hk)
          simpa using this
      · intro j hj
        rcases List.mem_cons.mp hj with rfl | hj
        · exact hi
        · exact hmem j hj
      · rw [hw, writes_append, writes_append, writes_sendChunk, writes_println]
        simp
/-- A run of `n` acknowledged full chunks from chunk `c` on: the index sent is
`c % 65536`, the `uint16_t chunkIndex`. -/
theorem sendLoop_acked (content : List Nat) (total : Nat) :
    ∀ (n c : Nat) (tx : List Cam.SerialOut) (acks : List (List (Option Nat))),
      (c + n) * 1024 ≤ content.length →
      Cam.sendLoop content total (List.replicate n [some 6] ++ acks) (c * 1024) (c % 65536) tx
        = Cam.sendLoop content total acks ((c + n) * 1024) ((c + n) % 65536)
            (tx ++ (List.range' c n).flatMap fun j =>
              Cam.sendChunk (Cam.chunkOf content j) 1024 (j % 65536) total) := by
  intro n
  induction n with
  | zero => intro c tx acks _; simp
  | succ n ih =>
    intro c tx acks h
    have hi : c * 1024 < content.length := by omega
    have hlen : (Cam.chunkOf content c).length = 1024 := by rw [chunkOf_length]; omega
    have hdata : (content.drop (c * 1024)).take CHUNK_SIZE = Cam.chunkOf content c := rfl
    rw [List.replicate_succ, List.cons_append, Cam.sendLoop, if_pos hi,
      if_pos (by rfl), hdata, hlen, show c * 1024 + 1024 = (c + 1) * 1024 by omega,
      show (c % 65536 + 1) % 65536 = (c + 1) % 65536 by omega, ih (c + 1) _ acks (by omega),
      show c + 1 + n = c + (n + 1) by omega, List.range'_succ]
    simp [List.append_assoc]

/-- C18 (for files of at most 65536 chunks). For every file of `1 ≤ S ≤ 65536 * 1024`
bytes and all polls seen by the `waitForACK` calls, the packets `sendImageViaUART`
writes are, in order, the `sendChunk` packets of a list of indices `idx` such that: the
first index is 0; the index after an acknowledged packet is one higher and the index
after a timeout is the same (so the packet is the same, byte for byte, the last chunk
included); every index `j` is the index of a chunk of the file and its packet carries the
file bytes `[j * 1024, min ((j + 1) * 1024, S))`. There is one packet per `waitForACK`
call made, and one more while the sender waits for an answer. -/
theorem sender_retry (acks : List (List (Option Nat))) (path : String) (dev : Cam.Device)
    (content : List Nat) (hopen : Cam.sdOpenRead path dev.files = some content)
    (h1 : 1 ≤ content.length) (hS : content.length ≤ 65536 * 1024) :
    ∃ idx : List Nat,
      idx.head? = some 0 ∧
      (∀ k, k + 1 < idx.length →
        idx.getD (k + 1) 0
          = idx.getD k 0 + if Cam.waitForACK (acks.getD k []) then 1 else 0) ∧
      (∀ j ∈ idx, j * 1024 < content.length ∧
        Cam.chunkOf content j
          = (content.drop (j * 1024)).take (min ((j + 1) * 1024) content.length - j * 1024)) ∧
      Cam.writes (Cam.sendImageViaUART acks path dev).2.tx
        = Cam.writes dev.tx ++ (idx.flatMap fun j =>
            Cam.packet (Cam.totalChunksOf content.length) j (Cam.chunkOf content j)) ∧
      idx.length ≤ acks.length + 1 ∧
      ((Cam.sendImageViaUART acks path dev).1 = none → idx.length = acks.length + 1) := by
  obtain ⟨idx, hhead, hlen, hnone, hchain, hmem, hw⟩ :=
    sendLoop_trace content (Cam.totalChunksOf content.length) hS acks 0
      (dev.tx ++ [Cam.SerialOut.print ("Sending image: " ++ Cam.fmtD content.length
        ++ " bytes in " ++ Cam.fmtD (Cam.totalChunksOf content.length) ++ " chunks\n")])
      (by omega)
  have hrun : Cam.sendImageViaUART acks path dev
      = ((Cam.sendLoop content (Cam.totalChunksOf content.length) acks (0 * 1024) 0
          (dev.tx ++ [Cam.SerialOut.print ("Sending image: " ++ Cam.fmtD content.length
            ++ " bytes in " ++ Cam.fmtD (Cam.totalChunksOf content.length)
            ++ " chunks\n")])).1,
        { dev with tx := (Cam.sendLoop content (Cam.totalChunksOf content.length) acks
          (0 * 1024) 0
          (dev.tx ++ [Cam.SerialOut.print ("Sending image: " ++ Cam.fmtD content.length
            ++ " bytes in " ++ Cam.fmtD (Cam.totalChunksOf content.length)
            ++ " chunks\n")])).2 }) := by
    unfold Cam.sendImageViaUART
    rw [hopen]
  refine ⟨idx, hhead, hchain, ?_, ?_, hlen, ?_⟩
  · intro j hj
    refine ⟨hmem j hj, ?_⟩
    have := hmem j hj
    unfold Cam.chunkOf CHUNK_SIZE
    apply List.ext_getElem?
    intro n
    simp only [List.getElem?_take, List.getElem?_drop]
    by_cases hn : n < 1024
    · by_cases hn2 : n < min ((j + 1) * 1024) content.length - j * 1024
      · simp [hn, hn2]
      · rw [if_pos hn, if_neg hn2]
        exact List.getElem?_eq_none (by omega)
    · rw [if_neg hn, if_neg (by omega)]
  · rw [hrun]
    simp only []
    rw [hw, writes_append, writes_print, List.append_nil]
  · rw [hrun]
    exact hnone
set_option maxRecDepth 100000 in
/-- Instance of C18: the 4-byte file of the sample device, first `waitForACK` timing
out, second one acknowledged. -/
theorem sender_retry_witness :
    (Cam.sdOpenRead "/images/IMG_1.jpg" Cam.Device.sample.files = some [255, 216, 255, 217]
      ∧ 1 ≤ ([255, 216, 255, 217] : List Nat).length
      ∧ ([255, 216, 255, 217] : List Nat).length ≤ 65536 * 1024) ∧
    ∃ idx : List Nat,
      idx.head? = some 0 ∧
      Cam.writes (Cam.sendImageViaUART [[none], [some 6]] "/images/IMG_1.jpg"
          Cam.Device.sample).2.tx
        = idx.flatMap fun j => Cam.packet 1 j (Cam.chunkOf [255, 216, 255, 217] j) :=
  ⟨⟨by decide, by decide, by decide⟩,
    (sender_retry [[none], [some 6]] "/images/IMG_1.jpg" Cam.Device.sample
      [255, 216, 255, 217] (by decide) (by decide) (by decide)).imp
      fun _ h => ⟨h.1, h.2.2.2.1⟩⟩

/-- A file that can be opened: `sendImageViaUART` is its loop after the first log line. -/
theorem sendImageViaUART_open (acks : List (List (Option Nat))) (path : String)
    (dev : Cam.Device) (content : List Nat)
    (hopen : Cam.sdOpenRead path dev.files = some content) :
    Cam.sendImageViaUART acks path dev
      = ((Cam.sendLoop content (Cam.totalChunksOf content.length) acks 0 0
          (dev.tx ++ [Cam.SerialOut.print ("Sending image: " ++ Cam.fmtD content.length
            ++ " bytes in " ++ Cam.fmtD (Cam.totalChunksOf content.length)
            ++ " chunks\n")])).1,
        { dev with tx := (Cam.sendLoop content (Cam.totalChunksOf content.length) acks 0 0
          (dev.tx ++ [Cam.SerialOut.print ("Sending image: " ++ Cam.fmtD content.length
            ++ " bytes in " ++ Cam.fmtD (Cam.totalChunksOf content.length)
            ++ " chunks\n")])).2 }) := by
  unfold Cam.sendImageViaUART
  rw [hopen]

/-- Counterexample to C18 as stated for every file: a file of 67108865 bytes (64 MiB of
zeros, then the byte 7) with every packet acknowledged. After 65536 packets the 16-bit
`chunkIndex` is 0 again, so the next packet is sent with index 0 but carries the file
byte at offset 67108864, while the bytes `[0, 1024)` of the file are zeros. -/
theorem sender_retry_counterexample :
    (∃ pre, (Cam.sendImageViaUART (List.replicate 65536 [some 6]) "/f"
        { Cam.Device.sample with files := [("/f", List.replicate 67108864 0 ++ [7])] }).2.tx
      = pre ++ Cam.sendChunk [7] 1 0 1) ∧
    Cam.chunkOf (List.replicate 67108864 0 ++ [7]) 0 = List.replicate 1024 0 := by
  have hlen : (List.replicate 67108864 0 ++ [7] : List Nat).length = 67108865 := by
    rw [List.length_append, List.length_replicate]; rfl
  have hopen : Cam.sdOpenRead "/f" [("/f", (List.replicate 67108864 0 ++ [7] : List Nat))]
      = some (List.replicate 67108864 0 ++ [7]) := by
    unfold Cam.sdOpenRead
    rw [List.find?_cons_of_pos _ (by decide)]
    rfl
  have hdrop : ((List.replicate 67108864 0 ++ [7] : List Nat).drop ((0 + 65536) * 1024)).take
      CHUNK_SIZE = [7] := by
    rw [List.drop_left' (by rw [List.length_replicate])]
    rfl
  have hloop : ∀ tx : List Cam.SerialOut,
      Cam.sendLoop (List.replicate 67108864 0 ++ [7]) 1 (List.replicate 65536 [some 6]) 0 0 tx
        = (none, tx ++ ((List.range' 0 65536).flatMap fun j =>
            Cam.sendChunk (Cam.chunkOf (List.replicate 67108864 0 ++ [7]) j) 1024
              (j % 65536) 1) ++ Cam.sendChunk [7] 1 0 1) := by
    intro tx
    have hrun := sendLoop_acked (List.replicate 67108864 0 ++ [7]) 1 65536 0 tx []
      (by rw [hlen]; decide)
    rw [List.append_nil, Cam.sendLoop, if_pos (by rw [hlen]; decide), hdrop] at hrun
    exact hrun
  constructor
  · rw [sendImageViaUART_open _ _ _ _ hopen, hlen,
      show Cam.totalChunksOf 67108865 = 1 by decide, hloop]
    exact ⟨_, rfl⟩
  · unfold Cam.chunkOf CHUNK_SIZE
    rw [Nat.zero_mul, List.drop_zero, List.take_append_of_le_length
      (by rw [List.length_replicate]; decide), List.take_replicate]
    rfl

/-! ## Theorems: receiving the image chunks (C13 to C17) -/

theorem readHeader_skip (header : List Nat) (rest : List Master.Poll) :
    ∀ noise : List Nat, (∀ b ∈ noise, b ≠ START_BYTE) →
      Master.readHeader header 0 (noise.map Master.Poll.byte ++ rest)
        = Master.readHeader header 0 rest := by
  intro noise
  induction noise with
  | nil => intro _; rfl
  | cons b noise ih =>
    intro h
    rw [List.map_cons, List.cons_append, Master.readHeader,
      if_pos ⟨rfl, h b (List.mem_cons_self _ _)⟩]
    exact ih fun x hx => h x (List.mem_cons_of_mem _ hx)

theorem exists_seven_of_length (l : List Nat) (h : l.length = 7) :
    ∃ a b c d e f g, l = [a, b, c, d, e, f, g] := by
  match l, h with
  | [a, b, c, d, e, f, g], _ => exact ⟨a, b, c, d, e, f, g, rfl⟩

theorem readHeader_bytes (hd : List Nat) (rest : List Master.Poll) (hlen : hd.length = 7)
    (hstart : hd.getD 0 0 = START_BYTE) :
    Master.readHeader (List.replicate 7 0) 0 (hd.map Master.Poll.byte ++ rest)
      = Master.Read.ready (hd, 7) rest := by
  obtain ⟨a, b, c, d, e, f, g, rfl⟩ := exists_seven_of_length hd hlen
  have ha : a = START_BYTE := hstart
  subst ha
  simp [Master.readHeader, bufWrite, List.replicate]

theorem readPayload_full (size : Nat) (cd : List Nat) (n : Nat) (rest : List Master.Poll)
    (h : ¬ n < size) :
    Master.readPayload size cd n rest = Master.Read.ready (cd, n) rest := by
  cases rest with
  | nil => rw [Master.readPayload, if_neg h]
  | cons p rest => cases p <;> rw [Master.readPayload, if_neg h]

theorem set_take_drop (cd d : List Nat) (n b : Nat) (h : n + (d.length + 1) ≤ cd.length) :
    (cd.set n b).take (n + 1) ++ d ++ (cd.set n b).drop (n + 1 + d.length)
      = cd.take n ++ b :: d ++ cd.drop (n + (d.length + 1)) := by
  rw [List.set_eq_take_append_cons_drop, if_pos (by omega)]
  rw [show cd.take n ++ b :: cd.drop (n + 1) = (cd.take n ++ [b]) ++ cd.drop (n + 1) by simp]
  have hl : (cd.take n ++ [b]).length = n + 1 := by simp; omega
  rw [List.take_left' hl, show n + 1 + d.length = (cd.take n ++ [b]).length + d.length by omega,
    List.drop_append, List.drop_drop]
  simp [Nat.add_assoc, Nat.add_comm, Nat.add_left_comm]

theorem readPayload_segment (size : Nat) (rest : List Master.Poll) :
    ∀ (d cd : List Nat) (n : Nat), n + d.length ≤ size → n + d.length ≤ cd.length →
      Master.readPayload size cd n (d.map Master.Poll.byte ++ rest)
        = Master.readPayload size (cd.take n ++ d ++ cd.drop (n + d.length))
            (n + d.length) rest := by
  intro d
  induction d with
  | nil =>
    intro cd n _ _
    simp
  | cons b d ih =>
    intro cd n hn hcd
    simp only [List.length_cons] at hn hcd
    rw [List.map_cons, List.cons_append, Master.readPayload, if_pos (by omega), bufWrite,
      if_pos (by omega)]
    simp only []
    rw [ih (cd.set n b) (n + 1) (by omega) (by rw [List.length_set]; omega),
      set_take_drop _ _ _ _ hcd]
    simp [Nat.add_assoc, Nat.add_comm 1]

theorem readPayload_bytes (size : Nat) (rest : List Master.Poll) (d cd : List Nat) (n : Nat)
    (hn : n + d.length = size) (hcd : n + d.length ≤ cd.length) :
    Master.readPayload size cd n (d.map Master.Poll.byte ++ rest)
      = Master.Read.ready (cd.take n ++ d ++ cd.drop (n + d.length), size) rest := by
  rw [readPayload_segment size rest d cd n (by omega) hcd,
    readPayload_full _ _ _ _ (by omega), hn]

theorem chunkChecksum_pad (header d pad : List Nat) :
    Master.chunkChecksum header (d ++ pad) d.length = Cam.chunkChecksum header d d.length := by
  unfold Master.chunkChecksum Cam.chunkChecksum
  rw [List.take_left' rfl, List.take_length, master_calculateCRC8_eq]

/-- A pass of the master's loop that reads a whole packet (any bytes other than the
start byte before it) goes on to the tests of `chunkVerdict`. -/
theorem chunkIteration_packet (st : Master.ImageRx) (noise hd d : List Nat) (c : Nat)
    (rest : List Master.Poll) (hnoise : ∀ b ∈ noise, b ≠ START_BYTE)
    (hlen : hd.length = 7) (hstart : hd.getD 0 0 = START_BYTE)
    (hsize : Master.parse16 (hd.getD 5 0) (hd.getD 6 0) = d.length)
    (hd1024 : d.length ≤ CHUNK_SIZE) :
    Master.chunkIteration st
        (noise.map Master.Poll.byte ++ Master.packetPolls hd d c ++ rest)
      = Master.chunkVerdict st hd (d ++ List.replicate (CHUNK_SIZE - d.length) 0) c rest := by
  unfold Master.chunkIteration Master.packetPolls
  rw [List.append_assoc, readHeader_skip _ _ _ hnoise, List.map_append, List.map_append,
    List.append_assoc, List.append_assoc, readHeader_bytes _ _ hlen hstart]
  unfold Master.afterHeader
  simp only []
  rw [if_neg (Nat.lt_irrefl 7), hsize,
    readPayload_bytes d.length _ d (List.replicate CHUNK_SIZE 0) 0 (by omega)
      (by rw [List.length_replicate]; omega)]
  unfold Master.afterPayload
  simp only []
  rw [hsize, if_neg (Nat.lt_irrefl _)]
  simp only [List.map_cons, List.map_nil, List.singleton_append, Master.readChecksum,
    List.take_zero, List.nil_append, Nat.zero_add, List.drop_replicate]
  rfl
/-- C14. A pass of `receiveImageChunks` that reads a whole chunk packet (header of 7
bytes starting with `0xAA`, the declared number of payload bytes, at most `CHUNK_SIZE`, and
the checksum byte) whose checksum byte differs from `calculateCRC8(header, 7)` XORed with
every payload byte, or whose chunk index differs from `expectedChunkIndex`, writes the
single byte NACK (`0x15`) to the link and nothing else: `imageBuffer`, `imageBufferSize`
and `expectedChunkIndex` are as before, and the loop goes on with the next pass. -/
theorem chunk_rejection_atomic (st : Master.ImageRx) (noise hd d : List Nat) (c : Nat)
    (rest : List Master.Poll) (hnoise : ∀ b ∈ noise, b ≠ START_BYTE)
    (hlen : hd.length = 7) (hstart : hd.getD 0 0 = START_BYTE)
    (hsize : Master.parse16 (hd.getD 5 0) (hd.getD 6 0) = d.length)
    (hd1024 : d.length ≤ CHUNK_SIZE)
    (hbad : c ≠ Master.chunkChecksum hd d d.length
      ∨ Master.parse16 (hd.getD 1 0) (hd.getD 2 0) ≠ st.expectedChunkIndex) :
    Master.chunkIteration st
        (noise.map Master.Poll.byte ++ Master.packetPolls hd d c ++ rest)
      = Master.Iter.next
          { imageBuffer := st.imageBuffer, imageBufferSize := st.imageBufferSize,
            expectedChunkIndex := st.expectedChunkIndex, tx := st.tx ++ [0x15] } rest := by
  rw [chunkIteration_packet st noise hd d c rest hnoise hlen hstart hsize hd1024]
  unfold Master.chunkVerdict
  simp only []
  rw [hsize]
  have hck : Master.chunkChecksum hd (d ++ List.replicate (CHUNK_SIZE - d.length) 0) d.length
      = Master.chunkChecksum hd d d.length := by
    unfold Master.chunkChecksum
    rw [List.take_left' rfl, List.take_length]
  rw [hck]
  by_cases h1 : Master.chunkChecksum hd d d.length = c
  · have h2 : Master.parse16 (hd.getD 1 0) (hd.getD 2 0) ≠ st.expectedChunkIndex := by
      rcases hbad with h | h
      · exact absurd h1.symm h
      · exact h
    rw [if_neg (not_not.mpr h1), if_pos h2]
    rfl
  · rw [if_pos h1]
    rfl
theorem parse16_header (v : Nat) (h : v < 65536) :
    Master.parse16 ((v >>> 8) &&& 0xFF) (v &&& 0xFF) = v := by
  unfold Master.parse16
  rw [and_0xFF, and_0xFF, Nat.shiftRight_eq_div_pow, Nat.shiftLeft_eq, Nat.mul_comm,
    ← Nat.mul_add_lt_is_or (Nat.mod_lt _ (by decide))]
  omega

theorem chunkHeader_length (size i total : Nat) :
    (Cam.chunkHeader size i total).length = 7 := rfl

theorem chunkHeader_start (size i total : Nat) :
    (Cam.chunkHeader size i total).getD 0 0 = START_BYTE := rfl

theorem chunkHeader_index (size i total : Nat) (h : i < 65536) :
    Master.parse16 ((Cam.chunkHeader size i total).getD 1 0)
      ((Cam.chunkHeader size i total).getD 2 0) = i :=
  parse16_header i h

theorem chunkHeader_parse_total (size i total : Nat) (h : total < 65536) :
    Master.parse16 ((Cam.chunkHeader size i total).getD 3 0)
      ((Cam.chunkHeader size i total).getD 4 0) = total :=
  parse16_header total h

theorem chunkHeader_size (size i total : Nat) (h : size < 65536) :
    Master.parse16 ((Cam.chunkHeader size i total).getD 5 0)
      ((Cam.chunkHeader size i total).getD 6 0) = size :=
  parse16_header size h

/-- What `chunkVerdict` does with a chunk that passes the checksum and index tests and
fits: copy, ACK, next index, and `return true` when `chunkIndex + 1 >= totalChunks`. -/
theorem chunkVerdict_accept (st : Master.ImageRx) (hd d pad : List Nat) (c : Nat)
    (rest : List Master.Poll)
    (hsize : Master.parse16 (hd.getD 5 0) (hd.getD 6 0) = d.length)
    (hck : c = Master.chunkChecksum hd d d.length)
    (hidx : Master.parse16 (hd.getD 1 0) (hd.getD 2 0) = st.expectedChunkIndex)
    (hfit : st.imageBufferSize + d.length ≤ MAX_IMAGE_SIZE)
    (hbuf : st.imageBuffer.length = MAX_IMAGE_SIZE) :
    Master.chunkVerdict st hd (d ++ pad) c rest
      = if st.expectedChunkIndex + 1 ≥ Master.parse16 (hd.getD 3 0) (hd.getD 4 0) then
          Master.Iter.returned true
            { imageBuffer := st.imageBuffer.take st.imageBufferSize ++ d
                ++ st.imageBuffer.drop (st.imageBufferSize + d.length),
              imageBufferSize := st.imageBufferSize + d.length,
              expectedChunkIndex := (st.expectedChunkIndex + 1) % 65536,
              tx := st.tx ++ [0x06] } rest
        else
          Master.Iter.next
            { imageBuffer := st.imageBuffer.take st.imageBufferSize ++ d
                ++ st.imageBuffer.drop (st.imageBufferSize + d.length),
              imageBufferSize := st.imageBufferSize + d.length,
              expectedChunkIndex := (st.expectedChunkIndex + 1) % 65536,
              tx := st.tx ++ [0x06] } rest := by
  unfold Master.chunkVerdict
  simp only []
  have hck2 : Master.chunkChecksum hd (d ++ pad) d.length = c := by
    rw [hck]
    unfold Master.chunkChecksum
    rw [List.take_left' rfl, List.take_length]
  rw [hsize, hck2, if_neg (not_not.mpr rfl), hidx, if_neg (not_not.mpr rfl), if_pos hfit]
  unfold bufMemcpy
  rw [if_pos ⟨by omega, by simp⟩, List.take_left' rfl]
  rfl

/-- What `chunkVerdict` does with a chunk that passes the checksum and index tests and
does not fit: `return false`, nothing copied, nothing written to the link. -/
theorem chunkVerdict_too_large (st : Master.ImageRx) (hd d pad : List Nat) (c : Nat)
    (rest : List Master.Poll)
    (hsize : Master.parse16 (hd.getD 5 0) (hd.getD 6 0) = d.length)
    (hck : c = Master.chunkChecksum hd d d.length)
    (hidx : Master.parse16 (hd.getD 1 0) (hd.getD 2 0) = st.expectedChunkIndex)
    (hfit : MAX_IMAGE_SIZE < st.imageBufferSize + d.length) :
    Master.chunkVerdict st hd (d ++ pad) c rest = Master.Iter.returned false st rest := by
  unfold Master.chunkVerdict
  simp only []
  have hck2 : Master.chunkChecksum hd (d ++ pad) d.length = c := by
    rw [hck]
    unfold Master.chunkChecksum
    rw [List.take_left' rfl, List.take_length]
  rw [hsize, hck2, if_neg (not_not.mpr rfl), hidx, if_neg (not_not.mpr rfl),
    if_neg (by omega)]
theorem receiveChunkLoop_succ (fuel : Nat) (st : Master.ImageRx) (polls : List Master.Poll) :
    Master.receiveChunkLoop (fuel + 1) st polls
      = match Master.chunkIteration st polls with
        | Master.Iter.next st1 rest => Master.receiveChunkLoop fuel st1 rest
        | r => r := rfl

theorem chunkVerdict_inv (st : Master.ImageRx) (hd cd : List Nat) (c : Nat)
    (rest : List Master.Poll) (h : st.imageBufferSize ≤ MAX_IMAGE_SIZE) :
    ∀ s ∈ (Master.chunkVerdict st hd cd c rest).state, s.imageBufferSize ≤ MAX_IMAGE_SIZE := by
  intro s hs
  unfold Master.chunkVerdict at hs
  simp only [] at hs
  split at hs
  · cases hs; exact h
  · split at hs
    · cases hs; exact h
    · split at hs
      · rename_i hfit
        split at hs
        · cases hs
        · split at hs
          · cases hs; exact hfit
          · cases hs; exact hfit
      · cases hs; exact h

theorem afterPayload_inv (st : Master.ImageRx) (hd : List Nat)
    (r : Master.Read (List Nat × Nat)) (h : st.imageBufferSize ≤ MAX_IMAGE_SIZE) :
    ∀ s ∈ (Master.afterPayload st hd r).state, s.imageBufferSize ≤ MAX_IMAGE_SIZE := by
  intro s hs
  unfold Master.afterPayload at hs
  split at hs
  · cases hs
  · cases hs; exact h
  · split at hs
    · cases hs; exact h
    · split at hs
      · cases hs
      · cases hs; exact h
      · cases hs; exact h
      · exact chunkVerdict_inv _ _ _ _ _ h s hs

theorem chunkIteration_inv (st : Master.ImageRx) (polls : List Master.Poll)
    (h : st.imageBufferSize ≤ MAX_IMAGE_SIZE) :
    ∀ s ∈ (Master.chunkIteration st polls).state, s.imageBufferSize ≤ MAX_IMAGE_SIZE := by
  intro s hs
  unfold Master.chunkIteration Master.afterHeader at hs
  split at hs
  · cases hs
  · cases hs; exact h
  · split at hs
    · cases hs; exact h
    · exact afterPayload_inv _ _ _ h s hs

theorem receiveChunkLoop_inv :
    ∀ (fuel : Nat) (st : Master.ImageRx) (polls : List Master.Poll),
      st.imageBufferSize ≤ MAX_IMAGE_SIZE →
      ∀ s ∈ (Master.receiveChunkLoop fuel st polls).state,
        s.imageBufferSize ≤ MAX_IMAGE_SIZE := by
  intro fuel
  induction fuel with
  | zero =>
    intro st polls h s hs
    cases hs
    exact h
  | succ fuel ih =>
    intro st polls h s hs
    rw [receiveChunkLoop_succ] at hs
    have hinv := chunkIteration_inv st polls h
    cases hit : Master.chunkIteration st polls with
    | ub => rw [hit] at hs; cases hs
    | waiting st1 => rw [hit] at hs hinv; exact hinv s hs
    | next st1 rest =>
      rw [hit] at hs hinv
      exact ih st1 rest (hinv st1 rfl) s hs
    | returned ret st1 rest => rw [hit] at hs hinv; exact hinv s hs

/-- C15. Whatever `receiveImageChunks` reads, `imageBufferSize` is at most
`MAX_IMAGE_SIZE` in every state it reaches (the state after the polls given, for every
list of polls). And a pass that reads a whole chunk packet with a valid checksum and the
expected index whose payload would take `imageBufferSize` above `MAX_IMAGE_SIZE` ends the
function with `return false`: the state is as before (nothing copied, no ACK and no NACK
written, expected index unchanged) and no further poll is made. -/
theorem image_capacity (fuel : Nat) (st : Master.ImageRx) (noise hd d : List Nat) (c : Nat)
    (rest : List Master.Poll) (hnoise : ∀ b ∈ noise, b ≠ START_BYTE)
    (hlen : hd.length = 7) (hstart : hd.getD 0 0 = START_BYTE)
    (hsize : Master.parse16 (hd.getD 5 0) (hd.getD 6 0) = d.length)
    (hd1024 : d.length ≤ CHUNK_SIZE)
    (hck : c = Master.chunkChecksum hd d d.length)
    (hidx : Master.parse16 (hd.getD 1 0) (hd.getD 2 0) = st.expectedChunkIndex)
    (hover : MAX_IMAGE_SIZE < st.imageBufferSize + d.length) :
    (∀ (imageBuffer tx : List Nat) (polls : List Master.Poll),
      ∀ s ∈ (Master.receiveImageChunks imageBuffer tx polls).state,
        s.imageBufferSize ≤ MAX_IMAGE_SIZE) ∧
    (∀ polls : List Master.Poll, st.imageBufferSize ≤ MAX_IMAGE_SIZE →
      ∀ s ∈ (Master.chunkIteration st polls).state, s.imageBufferSize ≤ MAX_IMAGE_SIZE) ∧
    Master.receiveChunkLoop (fuel + 1) st
        (noise.map Master.Poll.byte ++ Master.packetPolls hd d c ++ rest)
      = Master.Iter.returned false st rest := by
  refine ⟨fun imageBuffer tx polls => receiveChunkLoop_inv _ _ _ (Nat.zero_le _),
    fun polls h => chunkIteration_inv st polls h, ?_⟩
  rw [receiveChunkLoop_succ,
    chunkIteration_packet st noise hd d c rest hnoise hlen hstart hsize hd1024,
    chunkVerdict_too_large st hd d _ c rest hsize hck hidx hover]

/-- The loop of `receiveImageChunks` on a chunk that is accepted. -/
theorem receiveChunkLoop_accept (fuel : Nat) (st : Master.ImageRx) (noise hd d : List Nat)
    (c : Nat) (rest : List Master.Poll) (hnoise : ∀ b ∈ noise, b ≠ START_BYTE)
    (hlen : hd.length = 7) (hstart : hd.getD 0 0 = START_BYTE)
    (hsize : Master.parse16 (hd.getD 5 0) (hd.getD 6 0) = d.length)
    (hd1024 : d.length ≤ CHUNK_SIZE)
    (hck : c = Master.chunkChecksum hd d d.length)
    (hidx : Master.parse16 (hd.getD 1 0) (hd.getD 2 0) = st.expectedChunkIndex)
    (hfit : st.imageBufferSize + d.length ≤ MAX_IMAGE_SIZE)
    (hbuf : st.imageBuffer.length = MAX_IMAGE_SIZE) :
    Master.receiveChunkLoop (fuel + 1) st
        (noise.map Master.Poll.byte ++ Master.packetPolls hd d c ++ rest)
      = if Master.parse16 (hd.getD 1 0) (hd.getD 2 0) + 1
            ≥ Master.parse16 (hd.getD 3 0) (hd.getD 4 0) then
          Master.Iter.returned true
            { imageBuffer := st.imageBuffer.take st.imageBufferSize ++ d
                ++ st.imageBuffer.drop (st.imageBufferSize + d.length),
              imageBufferSize := st.imageBufferSize + d.length,
              expectedChunkIndex := (st.expectedChunkIndex + 1) % 65536,
              tx := st.tx ++ [0x06] } rest
        else
          Master.receiveChunkLoop fuel
            { imageBuffer := st.imageBuffer.take st.imageBufferSize ++ d
                ++ st.imageBuffer.drop (st.imageBufferSize + d.length),
              imageBufferSize := st.imageBufferSize + d.length,
              expectedChunkIndex := (st.expectedChunkIndex + 1) % 65536,
              tx := st.tx ++ [0x06] } rest := by
  rw [receiveChunkLoop_succ,
    chunkIteration_packet st noise hd d c rest hnoise hlen hstart hsize hd1024,
    chunkVerdict_accept st hd d _ c rest hsize hck hidx hfit hbuf, hidx]
  by_cases hlast : st.expectedChunkIndex + 1 ≥ Master.parse16 (hd.getD 3 0) (hd.getD 4 0)
  · rw [if_pos hlast, if_pos hlast]
  · rw [if_neg hlast, if_neg hlast]

/-- C16 (with `>=` for `==`). A pass of `receiveImageChunks` that accepts a chunk (whole
packet read, checksum valid, index as expected, payload fits) copies the payload to
`imageBuffer[imageBufferSize ..]`, writes ACK and increments the expected index; the
function then returns true when `chunkIndex + 1 >= totalChunks` for the index and total
of that header, and otherwise goes on with the next pass on the polls that follow. -/
theorem transfer_completion (fuel : Nat) (st : Master.ImageRx) (noise hd d : List Nat)
    (c : Nat) (rest : List Master.Poll) (hnoise : ∀ b ∈ noise, b ≠ START_BYTE)
    (hlen : hd.length = 7) (hstart : hd.getD 0 0 = START_BYTE)
    (hsize : Master.parse16 (hd.getD 5 0) (hd.getD 6 0) = d.length)
    (hd1024 : d.length ≤ CHUNK_SIZE)
    (hck : c = Master.chunkChecksum hd d d.length)
    (hidx : Master.parse16 (hd.getD 1 0) (hd.getD 2 0) = st.expectedChunkIndex)
    (hfit : st.imageBufferSize + d.length ≤ MAX_IMAGE_SIZE)
    (hbuf : st.imageBuffer.length = MAX_IMAGE_SIZE) :
    Master.receiveChunkLoop (fuel + 1) st
        (noise.map Master.Poll.byte ++ Master.packetPolls hd d c ++ rest)
      = if Master.parse16 (hd.getD 1 0) (hd.getD 2 0) + 1
            ≥ Master.parse16 (hd.getD 3 0) (hd.getD 4 0) then
          Master.Iter.returned true
            { imageBuffer := st.imageBuffer.take st.imageBufferSize ++ d
                ++ st.imageBuffer.drop (st.imageBufferSize + d.length),
              imageBufferSize := st.imageBufferSize + d.length,
              expectedChunkIndex := (st.expectedChunkIndex + 1) % 65536,
              tx := st.tx ++ [0x06] } rest
        else
          Master.receiveChunkLoop fuel
            { imageBuffer := st.imageBuffer.take st.imageBufferSize ++ d
                ++ st.imageBuffer.drop (st.imageBufferSize + d.length),
              imageBufferSize := st.imageBufferSize + d.length,
              expectedChunkIndex := (st.expectedChunkIndex + 1) % 65536,
              tx := st.tx ++ [0x06] } rest :=
  receiveChunkLoop_accept fuel st noise hd d c rest hnoise hlen hstart hsize hd1024 hck hidx
    hfit hbuf

/-- C17: the write outside `chunkData`. When the header declares more than `CHUNK_SIZE`
payload bytes and `CHUNK_SIZE + 1` bytes follow it in time, the data loop of
`receiveImageChunks` stores the last of them with `chunkData[bytesRead++]` at
`bytesRead = CHUNK_SIZE`, outside `uint8_t chunkData[CHUNK_SIZE]`: the chunk is not
rejected, the behaviour of the function is undefined from there. -/
theorem oversized_chunk_overflow (fuel : Nat) (st : Master.ImageRx) (noise hd d : List Nat)
    (b : Nat) (rest : List Master.Poll) (hnoise : ∀ x ∈ noise, x ≠ START_BYTE)
    (hlen : hd.length = 7) (hstart : hd.getD 0 0 = START_BYTE)
    (hbig : CHUNK_SIZE < Master.parse16 (hd.getD 5 0) (hd.getD 6 0))
    (hd1024 : d.length = CHUNK_SIZE) :
    Master.receiveChunkLoop (fuel + 1) st
        (noise.map Master.Poll.byte ++ (hd ++ d ++ [b]).map Master.Poll.byte ++ rest)
      = Master.Iter.ub := by
  rw [receiveChunkLoop_succ]
  unfold Master.chunkIteration
  rw [List.append_assoc, readHeader_skip _ _ _ hnoise, List.map_append, List.map_append,
    List.append_assoc, List.append_assoc, readHeader_bytes _ _ hlen hstart]
  unfold Master.afterHeader
  simp only []
  rw [if_neg (Nat.lt_irrefl 7),
    readPayload_segment _ _ d (List.replicate CHUNK_SIZE 0) 0 (by omega)
      (by rw [List.length_replicate]; omega)]
  simp only [List.map_cons, List.map_nil, List.singleton_append, List.cons_append,
    List.nil_append, Nat.zero_add]
  rw [Master.readPayload, if_pos (by omega), bufWrite, if_neg (by simp [hd1024])]
  rfl
set_option maxRecDepth 100000 in
/-- Instance of C14: the packet with header `[0xAA, 0, 0, 0, 1, 0, 2]`, payload `[5, 6]`
and the checksum byte `31` (the valid one is `30`) is answered with one NACK. -/
theorem chunk_rejection_atomic_witness :
    ((∀ b ∈ ([] : List Nat), b ≠ START_BYTE)
      ∧ ([0xAA, 0, 0, 0, 1, 0, 2] : List Nat).length = 7
      ∧ ([0xAA, 0, 0, 0, 1, 0, 2] : List Nat).getD 0 0 = START_BYTE
      ∧ Master.parse16 (([0xAA, 0, 0, 0, 1, 0, 2] : List Nat).getD 5 0)
          (([0xAA, 0, 0, 0, 1, 0, 2] : List Nat).getD 6 0) = ([5, 6] : List Nat).length
      ∧ ([5, 6] : List Nat).length ≤ CHUNK_SIZE
      ∧ (31 ≠ Master.chunkChecksum [0xAA, 0, 0, 0, 1, 0, 2] [5, 6] 2
        ∨ Master.parse16 0 0 ≠ 0)) ∧
    Master.chunkIteration
        { imageBuffer := List.replicate MAX_IMAGE_SIZE 0, imageBufferSize := 0,
          expectedChunkIndex := 0, tx := [] }
        (Master.packetPolls [0xAA, 0, 0, 0, 1, 0, 2] [5, 6] 31)
      = Master.Iter.next
          { imageBuffer := List.replicate MAX_IMAGE_SIZE 0, imageBufferSize := 0,
            expectedChunkIndex := 0, tx := [0x15] } [] :=
  ⟨⟨by simp, rfl, rfl, by decide, by decide, Or.inl (by decide)⟩,
    chunk_rejection_atomic
      { imageBuffer := List.replicate MAX_IMAGE_SIZE 0, imageBufferSize := 0,
        expectedChunkIndex := 0, tx := [] }
      [] [0xAA, 0, 0, 0, 1, 0, 2] [5, 6] 31 [] (by simp) rfl rfl (by decide) (by decide)
      (Or.inl (by decide))⟩

set_option maxRecDepth 100000 in
/-- Instance of C15: with `imageBuffer` full, the valid packet of index 512 with the
payload `[5, 6]` ends the function with `return false` and the state as before. -/
theorem image_capacity_witness :
    ((∀ b ∈ ([] : List Nat), b ≠ START_BYTE)
      ∧ ([0xAA, 2, 0, 2, 1, 0, 2] : List Nat).length = 7
      ∧ ([0xAA, 2, 0, 2, 1, 0, 2] : List Nat).getD 0 0 = START_BYTE
      ∧ Master.parse16 0 2 = ([5, 6] : List Nat).length
      ∧ ([5, 6] : List Nat).length ≤ CHUNK_SIZE
      ∧ 96 = Master.chunkChecksum [0xAA, 2, 0, 2, 1, 0, 2] [5, 6] 2
      ∧ Master.parse16 2 0 = 512
      ∧ MAX_IMAGE_SIZE < MAX_IMAGE_SIZE + ([5, 6] : List Nat).length) ∧
    Master.receiveChunkLoop (0 + 1)
        { imageBuffer := List.replicate MAX_IMAGE_SIZE 0, imageBufferSize := MAX_IMAGE_SIZE,
          expectedChunkIndex := 512, tx := [] }
        (Master.packetPolls [0xAA, 2, 0, 2, 1, 0, 2] [5, 6] 96)
      = Master.Iter.returned false
          { imageBuffer := List.replicate MAX_IMAGE_SIZE 0, imageBufferSize := MAX_IMAGE_SIZE,
            expectedChunkIndex := 512, tx := [] } [] :=
  ⟨⟨by simp, rfl, rfl, by decide, by decide, by decide, by decide, by decide⟩,
    (image_capacity 0
      { imageBuffer := List.replicate MAX_IMAGE_SIZE 0, imageBufferSize := MAX_IMAGE_SIZE,
        expectedChunkIndex := 512, tx := [] }
      [] [0xAA, 2, 0, 2, 1, 0, 2] [5, 6] 96 [] (by simp) rfl rfl (by decide) (by decide)
      (by decide) (by decide) (by decide)).2.2⟩

set_option maxRecDepth 100000 in
/-- Instance of C16: the first packet of a one-chunk transfer (index 0, total 1, payload
`[5, 6]`) is accepted and `receiveImageChunks` returns true. -/
theorem transfer_completion_witness :
    ((∀ b ∈ ([] : List Nat), b ≠ START_BYTE)
      ∧ ([0xAA, 0, 0, 0, 1, 0, 2] : List Nat).length = 7
      ∧ ([0xAA, 0, 0, 0, 1, 0, 2] : List Nat).getD 0 0 = START_BYTE
      ∧ Master.parse16 0 2 = ([5, 6] : List Nat).length
      ∧ ([5, 6] : List Nat).length ≤ CHUNK_SIZE
      ∧ 30 = Master.chunkChecksum [0xAA, 0, 0, 0, 1, 0, 2] [5, 6] 2
      ∧ Master.parse16 0 0 = 0
      ∧ 0 + ([5, 6] : List Nat).length ≤ MAX_IMAGE_SIZE
      ∧ (List.replicate MAX_IMAGE_SIZE 0).length = MAX_IMAGE_SIZE) ∧
    Master.receiveImageChunks (List.replicate MAX_IMAGE_SIZE 0) []
        (Master.packetPolls [0xAA, 0, 0, 0, 1, 0, 2] [5, 6] 30)
      = Master.Iter.returned true
          { imageBuffer := [5, 6] ++ (List.replicate MAX_IMAGE_SIZE 0).drop 2,
            imageBufferSize := 2, expectedChunkIndex := 1, tx := [0x06] } [] :=
  ⟨⟨by simp, rfl, rfl, by decide, by decide, by decide, by decide, by decide,
      List.length_replicate _ _⟩,
    transfer_completion (Master.packetPolls [0xAA, 0, 0, 0, 1, 0, 2] [5, 6] 30).length
      { imageBuffer := List.replicate MAX_IMAGE_SIZE 0, imageBufferSize := 0,
        expectedChunkIndex := 0, tx := [] }
      [] [0xAA, 0, 0, 0, 1, 0, 2] [5, 6] 30 [] (by simp) rfl rfl (by decide) (by decide)
      (by decide) (by decide) (by decide) (List.length_replicate _ _)⟩

set_option maxRecDepth 100000 in
/-- Counterexample to C16 as stated with `==`: a first packet whose header carries index 0
and total 0 (payload `[5, 6]`, valid checksum `117`) is accepted and `receiveImageChunks`
returns true, although index + 1 = 1 differs from the total 0. -/
theorem transfer_completion_counterexample :
    Master.receiveImageChunks (List.replicate MAX_IMAGE_SIZE 0) []
        (Master.packetPolls [0xAA, 0, 0, 0, 0, 0, 2] [5, 6] 117)
      = Master.Iter.returned true
          { imageBuffer := [5, 6] ++ (List.replicate MAX_IMAGE_SIZE 0).drop 2,
            imageBufferSize := 2, expectedChunkIndex := 1, tx := [0x06] } [] ∧
    Master.parse16 0 0 + 1 ≠ Master.parse16 0 0 :=
  ⟨receiveChunkLoop_accept (Master.packetPolls [0xAA, 0, 0, 0, 0, 0, 2] [5, 6] 117).length
      { imageBuffer := List.replicate MAX_IMAGE_SIZE 0, imageBufferSize := 0,
        expectedChunkIndex := 0, tx := [] }
      [] [0xAA, 0, 0, 0, 0, 0, 2] [5, 6] 117 [] (by simp) rfl rfl (by decide) (by decide)
      (by decide) (by decide) (by decide) (List.length_replicate _ _),
    by decide⟩

set_option maxRecDepth 100000 in
/-- Instance of C17: the header `[0xAA, 0, 0, 0, 1, 4, 1]` declares 1025 payload bytes;
when 1025 bytes follow, `receiveImageChunks` writes `chunkData[1024]`. -/
theorem oversized_chunk_overflow_witness :
    ((∀ x ∈ ([] : List Nat), x ≠ START_BYTE)
      ∧ ([0xAA, 0, 0, 0, 1, 4, 1] : List Nat).length = 7
      ∧ ([0xAA, 0, 0, 0, 1, 4, 1] : List Nat).getD 0 0 = START_BYTE
      ∧ CHUNK_SIZE < Master.parse16 4 1
      ∧ (List.replicate 1024 0).length = CHUNK_SIZE) ∧
    Master.receiveImageChunks (List.replicate MAX_IMAGE_SIZE 0) []
        (List.map Master.Poll.byte ([0xAA, 0, 0, 0, 1, 4, 1] ++ List.replicate 1025 0))
      = Master.Iter.ub :=
  ⟨⟨by simp, rfl, rfl, by decide, List.length_replicate _ _⟩,
    oversized_chunk_overflow _
      { imageBuffer := List.replicate MAX_IMAGE_SIZE 0, imageBufferSize := 0,
        expectedChunkIndex := 0, tx := [] }
      [] [0xAA, 0, 0, 0, 1, 4, 1] (List.replicate 1024 0) 0 [] (by simp) rfl rfl (by decide)
      (List.length_replicate _ _)⟩

/-! ## Theorems: a whole transfer from the camera to the master (C13) -/

/-- A transfer in which every `waitForACK` sees an ACK: the chunks go out once each, in
order, and the function returns true. -/
theorem sendLoop_all_acked (content : List Nat) (total : Nat)
    (hS : content.length ≤ 65536 * 1024) :
    ∀ (m i : Nat) (acks : List (List (Option Nat))) (tx : List Cam.SerialOut),
      i + m = (content.length + 1023) / 1024 → m ≤ acks.length →
      (∀ w ∈ acks, Cam.waitForACK w = true) →
      Cam.sendLoop content total acks (min (i * 1024) content.length) (i % 65536) tx
        = (some true, tx ++ ((List.range' i m).flatMap fun j =>
              Cam.sendChunk (Cam.chunkOf content j) (Cam.chunkOf content j).length j total)
            ++ [Cam.SerialOut.println "Image transfer complete"]) := by
  intro m
  induction m with
  | zero =>
    intro i acks tx hi _ _
    rw [sendLoop_done _ _ _ _ _ _ (by omega)]
    simp
  | succ m ih =>
    intro i acks tx hi hm hacks
    have hlt : i * 1024 < content.length := by omega
    cases acks with
    | nil => simp at hm
    | cons w acks =>
      have hdata : (content.drop (i * 1024)).take CHUNK_SIZE = Cam.chunkOf content i := rfl
      rw [Nat.min_eq_left (Nat.le_of_lt hlt), Cam.sendLoop, if_pos hlt,
        if_pos (hacks w (List.mem_cons_self _ _)), hdata,
        show i * 1024 + (Cam.chunkOf content i).length
          = min ((i + 1) * 1024) content.length by rw [chunkOf_length]; omega,
        show (i % 65536 + 1) % 65536 = (i + 1) % 65536 by omega,
        ih (i + 1) acks _ (by omega) (by simpa using hm)
          (fun x hx => hacks x (List.mem_cons_of_mem _ hx)),
        Nat.mod_eq_of_lt (show i < 65536 by omega), List.range'_succ]
      simp [List.append_assoc]

theorem writes_flatMap (l : List Nat) (f : Nat → List Cam.SerialOut) :
    Cam.writes (l.flatMap f) = l.flatMap fun j => Cam.writes (f j) := by
  induction l with
  | nil => rfl
  | cons a l ih => rw [List.flatMap_cons, writes_append, ih, List.flatMap_cons]

theorem le_length_flatMap_range' (f : Nat → List Master.Poll) (hf : ∀ j, 1 ≤ (f j).length) :
    ∀ m i, m ≤ ((List.range' i m).flatMap f).length := by
  intro m
  induction m with
  | zero => intro i; exact Nat.zero_le _
  | succ m ih =>
    intro i
    rw [List.range'_succ, List.flatMap_cons, List.length_append]
    have := ih (i + 1)
    have := hf i
    omega

/-- The bytes of the chunk packet `j` of a file as the master polls them. -/
theorem packet_polls (content : List Nat) (total j : Nat) :
    (Cam.packet total j (Cam.chunkOf content j)).flatten.map Master.Poll.byte
      = Master.packetPolls (Cam.chunkHeader (Cam.chunkOf content j).length j total)
          (Cam.chunkOf content j)
          (Cam.chunkChecksum (Cam.chunkHeader (Cam.chunkOf content j).length j total)
            (Cam.chunkOf content j) (Cam.chunkOf content j).length) := by
  simp [Cam.packet, Master.packetPolls, List.flatten]

theorem flatten_flatMap_map (l : List Nat) (f : Nat → List (List Nat)) :
    (l.flatMap f).flatten.map Master.Poll.byte
      = l.flatMap fun j => (f j).flatten.map Master.Poll.byte := by
  induction l with
  | nil => rfl
  | cons a l ih =>
    rw [List.flatMap_cons, List.flatten_append, List.map_append, ih, List.flatMap_cons]
theorem master_chunkChecksum_eq (header data : List Nat) (size : Nat) :
    Master.chunkChecksum header data size = Cam.chunkChecksum header data size := by
  unfold Master.chunkChecksum Cam.chunkChecksum
  rw [master_calculateCRC8_eq]
theorem chunkOf_append_drop (content : List Nat) (i : Nat) :
    Cam.chunkOf content i ++ content.drop ((i + 1) * 1024) = content.drop (i * 1024) := by
  unfold Cam.chunkOf CHUNK_SIZE
  rw [show (i + 1) * 1024 = i * 1024 + 1024 by omega, ← List.drop_drop]
  exact List.take_append_drop _ _

/-- The master's loop on the packets `i, i + 1, ...` of a file of `N` chunks, up to the
last one: every packet is accepted and the function returns true with the file in
`imageBuffer`. -/
theorem receiveChunkLoop_packets (content : List Nat)
    (hS : content.length ≤ MAX_IMAGE_SIZE) :
    ∀ (m i fuel : Nat) (st : Master.ImageRx) (noise : List Nat) (rest : List Master.Poll),
      i + (m + 1) = (content.length + 1023) / 1024 → m + 1 ≤ fuel →
      st.expectedChunkIndex = i → st.imageBufferSize = i * 1024 →
      st.imageBuffer.length = MAX_IMAGE_SIZE → (∀ b ∈ noise, b ≠ START_BYTE) →
      Master.receiveChunkLoop fuel st
          (noise.map Master.Poll.byte
            ++ ((List.range' i (m + 1)).flatMap fun j =>
              Master.packetPolls
                (Cam.chunkHeader (Cam.chunkOf content j).length j
                  ((content.length + 1023) / 1024))
                (Cam.chunkOf content j)
                (Cam.chunkChecksum
                  (Cam.chunkHeader (Cam.chunkOf content j).length j
                    ((content.length + 1023) / 1024))
                  (Cam.chunkOf content j) (Cam.chunkOf content j).length))
            ++ rest)
        = Master.Iter.returned true
            { imageBuffer := st.imageBuffer.take (i * 1024) ++ content.drop (i * 1024)
                ++ st.imageBuffer.drop content.length,
              imageBufferSize := content.length,
              expectedChunkIndex := (content.length + 1023) / 1024,
              tx := st.tx ++ List.replicate (m + 1) 0x06 } rest := by
  have hmax : MAX_IMAGE_SIZE = 524288 := rfl
  intro m
  induction m with
  | zero =>
    intro i fuel st noise rest hi hfuel hidx hsz hbuf hnoise
    obtain ⟨fuel, rfl⟩ : ∃ f, fuel = f + 1 := ⟨fuel - 1, by omega⟩
    have hlen := chunkOf_length content i
    have hl : (Cam.chunkOf content i).length = content.length - i * 1024 := by
      rw [hlen]; omega
    rw [List.range'_succ, List.range'_zero, List.flatMap_cons, List.flatMap_nil,
      List.append_nil,
      receiveChunkLoop_accept fuel st noise _ (Cam.chunkOf content i) _ rest hnoise
        (chunkHeader_length _ _ _) (chunkHeader_start _ _ _)
        (chunkHeader_size _ _ _ (by rw [hlen]; omega))
        (by rw [hlen]; unfold CHUNK_SIZE; omega)
        (by rw [← master_chunkChecksum_eq])
        (by rw [chunkHeader_index _ _ _ (by omega), hidx])
        (by rw [hsz, hmax]; omega) hbuf,
      chunkHeader_index _ _ _ (by omega), chunkHeader_parse_total _ _ _ (by omega),
      if_pos (by omega), hsz, hidx]
    have hch : Cam.chunkOf content i = content.drop (i * 1024) := by
      unfold Cam.chunkOf CHUNK_SIZE
      exact List.take_of_length_le (by rw [List.length_drop]; omega)
    rw [hl, hch, show i * 1024 + (content.length - i * 1024) = content.length by omega,
      Nat.mod_eq_of_lt (by omega), hi]
    rfl
  | succ m ih =>
    intro i fuel st noise rest hi hfuel hidx hsz hbuf hnoise
    obtain ⟨fuel, rfl⟩ : ∃ f, fuel = f + 1 := ⟨fuel - 1, by omega⟩
    have hlen := chunkOf_length content i
    have hl : (Cam.chunkOf content i).length = 1024 := by
      rw [hlen]; omega
    rw [List.range'_succ, List.flatMap_cons, List.append_assoc, List.append_assoc,
      ← List.append_assoc (List.map Master.Poll.byte noise),
      receiveChunkLoop_accept fuel st noise _ (Cam.chunkOf content i) _ _ hnoise
        (chunkHeader_length _ _ _) (chunkHeader_start _ _ _)
        (chunkHeader_size _ _ _ (by rw [hlen]; omega))
        (by rw [hlen]; unfold CHUNK_SIZE; omega)
        (by rw [← master_chunkChecksum_eq])
        (by rw [chunkHeader_index _ _ _ (by omega), hidx])
        (by rw [hsz, hmax]; omega) hbuf,
      chunkHeader_index _ _ _ (by omega), chunkHeader_parse_total _ _ _ (by omega),
      if_neg (by omega)]
    have hstep := ih (i + 1) fuel
      { imageBuffer := st.imageBuffer.take st.imageBufferSize ++ Cam.chunkOf content i
          ++ st.imageBuffer.drop (st.imageBufferSize + (Cam.chunkOf content i).length),
        imageBufferSize := st.imageBufferSize + (Cam.chunkOf content i).length,
        expectedChunkIndex := (st.expectedChunkIndex + 1) % 65536,
        tx := st.tx ++ [0x06] } [] rest (by omega) (by omega)
      (by simp only []; rw [hidx]; exact Nat.mod_eq_of_lt (by omega))
      (by simp only []; rw [hsz, hl]; omega)
      (by simp only [List.length_append, List.length_take, List.length_drop]; omega)
      (by simp)
    rw [List.map_nil, List.nil_append] at hstep
    rw [hstep]
    simp only [hsz, hl]
    have hA : (st.imageBuffer.take (i * 1024) ++ Cam.chunkOf content i).length
        = (i + 1) * 1024 := by
      rw [List.length_append, List.length_take, hl]; omega
    have himg : (st.imageBuffer.take (i * 1024) ++ Cam.chunkOf content i
          ++ st.imageBuffer.drop (i * 1024 + 1024)).take ((i + 1) * 1024)
          ++ content.drop ((i + 1) * 1024)
          ++ (st.imageBuffer.take (i * 1024) ++ Cam.chunkOf content i
            ++ st.imageBuffer.drop (i * 1024 + 1024)).drop content.length
        = st.imageBuffer.take (i * 1024) ++ content.drop (i * 1024)
          ++ st.imageBuffer.drop content.length := by
      rw [List.take_left' hA,
        show content.length = (st.imageBuffer.take (i * 1024)
          ++ Cam.chunkOf content i).length + (content.length - (i + 1) * 1024) by
            rw [hA]; omega,
        List.drop_append, List.drop_drop, hA, List.append_assoc (List.take _ _),
        chunkOf_append_drop]
      rw [show i * 1024 + 1024 + (content.length - (i + 1) * 1024)
        = (i + 1) * 1024 + (content.length - (i + 1) * 1024) by omega]
    have htx : (st.tx ++ [6]) ++ List.replicate (m + 1) 6
        = st.tx ++ List.replicate (m + 1 + 1) 6 := by
      rw [List.append_assoc]
      rfl
    rw [himg, htx]
theorem digitChar_ascii (m : Nat) (h : m < 10) : (Nat.digitChar m).toNat < 128 := by
  interval_cases m <;> decide

theorem toDigitsCore_ascii :
    ∀ (fuel n : Nat) (ds : List Char), (∀ c ∈ ds, c.toNat < 128) →
      ∀ c ∈ Nat.toDigitsCore 10 fuel n ds, c.toNat < 128 := by
  intro fuel
  induction fuel with
  | zero => intro n ds h c hc; exact h c (by simpa [Nat.toDigitsCore] using hc)
  | succ fuel ih =>
    intro n ds h c hc
    rw [Nat.toDigitsCore] at hc
    have hds : ∀ c ∈ Nat.digitChar (n % 10) :: ds, c.toNat < 128 := by
      intro x hx
      rcases List.mem_cons.mp hx with rfl | hx
      · exact digitChar_ascii _ (Nat.mod_lt _ (by decide))
      · exact h x hx
    split at hc
    · exact hds c hc
    · exact ih _ _ hds c hc

theorem toString_ascii (n : Nat) : ∀ c ∈ (toString n).toList, c.toNat < 128 := by
  intro c hc
  exact toDigitsCore_ascii _ _ [] (fun _ h => by simp at h) c hc

theorem fmtD_ascii (n : Nat) : ∀ c ∈ (Cam.fmtD n).toList, c.toNat < 128 := by
  intro c hc
  unfold Cam.fmtD at hc
  split at hc
  · exact toString_ascii _ c hc
  · rw [String.toList, String.data_append] at hc
    rcases List.mem_append.mp hc with h | h
    · have : c = '-' := by simpa using h
      subst this
      decide
    · exact toString_ascii _ c h

/-- The log line `sendImageViaUART` prints before the first packet is ASCII text, so it
has no byte `0xAA` and the header loop of the master skips it. -/
theorem sending_line_no_start (size total : Nat) :
    ∀ b ∈ (Cam.SerialOut.print ("Sending image: " ++ Cam.fmtD size ++ " bytes in "
        ++ Cam.fmtD total ++ " chunks\n")).wire, b ≠ START_BYTE := by
  intro b hb
  have hlt : b < 128 := by
    simp only [Cam.SerialOut.wire, String.toList, String.data_append, List.map_append,
      List.mem_append, List.mem_map] at hb
    rcases hb with (((⟨c, hc, rfl⟩ | ⟨c, hc, rfl⟩) | ⟨c, hc, rfl⟩) | ⟨c, hc, rfl⟩) | ⟨c, hc, rfl⟩
    · revert c; decide
    · exact fmtD_ascii _ c hc
    · revert c; decide
    · exact fmtD_ascii _ c hc
    · revert c; decide
  unfold START_BYTE
  omega
/-- C13. For every image of `1 ≤ S ≤ MAX_IMAGE_SIZE` bytes on the camera's card, a
transfer in which every `waitForACK` sees an ACK returns true on the camera, and when
the bytes of the chunk packets written during that call are fed in order to the master's
`receiveImageChunks` (after any bytes other than `0xAA`, such as log text, and before
any further polls `rest`), the master accepts every packet, writes one ACK (`0x06`) per
packet and nothing else, returns true after the last packet without reading further, and
leaves `imageBufferSize = S` with `imageBuffer[0..S)` equal to the file. -/
theorem chunk_reconstruction (acks : List (List (Option Nat))) (path : String)
    (dev : Cam.Device) (content imageBuffer tx noise : List Nat) (rest : List Master.Poll)
    (hopen : Cam.sdOpenRead path dev.files = some content)
    (h1 : 1 ≤ content.length) (hS : content.length ≤ MAX_IMAGE_SIZE)
    (hacks : ∀ w ∈ acks, Cam.waitForACK w = true)
    (hn : Cam.totalChunksOf content.length ≤ acks.length)
    (hbuf : imageBuffer.length = MAX_IMAGE_SIZE)
    (hnoise : ∀ b ∈ noise, b ≠ START_BYTE) :
    (Cam.sendImageViaUART acks path dev).1 = some true ∧
    Master.receiveImageChunks imageBuffer tx
        ((noise ++ (Cam.writes
            ((Cam.sendImageViaUART acks path dev).2.tx.drop dev.tx.length)).flatten).map
          Master.Poll.byte ++ rest)
      = Master.Iter.returned true
          { imageBuffer := content ++ imageBuffer.drop content.length,
            imageBufferSize := content.length,
            expectedChunkIndex := Cam.totalChunksOf content.length,
            tx := tx ++ List.replicate (Cam.totalChunksOf content.length) 0x06 } rest := by
  have hmax : MAX_IMAGE_SIZE = 524288 := rfl
  have htot : Cam.totalChunksOf content.length = (content.length + 1023) / 1024 :=
    totalChunksOf_eq _ (by omega)
  have hN : 1 ≤ (content.length + 1023) / 1024 := by omega
  have hloop := sendLoop_all_acked content (Cam.totalChunksOf content.length) (by omega)
    ((content.length + 1023) / 1024) 0 acks
    (dev.tx ++ [Cam.SerialOut.print ("Sending image: " ++ Cam.fmtD content.length
      ++ " bytes in " ++ Cam.fmtD (Cam.totalChunksOf content.length) ++ " chunks\n")])
    (by omega) (by omega) hacks
  rw [Nat.zero_mul, Nat.zero_min, Nat.zero_mod] at hloop
  rw [sendImageViaUART_open _ _ _ _ hopen, hloop]
  refine ⟨rfl, ?_⟩
  simp only []
  rw [List.append_assoc, List.append_assoc, List.drop_left, writes_append, writes_print,
    List.nil_append, writes_append, writes_println, List.append_nil, writes_flatMap]
  simp only [writes_sendChunk]
  rw [List.map_append, flatten_flatMap_map]
  simp only [packet_polls]
  unfold Master.receiveImageChunks
  rw [htot]
  have hfuel : (content.length + 1023) / 1024 ≤ (noise.map Master.Poll.byte
      ++ ((List.range' 0 ((content.length + 1023) / 1024)).flatMap fun j =>
        Master.packetPolls
          (Cam.chunkHeader (Cam.chunkOf content j).length j ((content.length + 1023) / 1024))
          (Cam.chunkOf content j)
          (Cam.chunkChecksum
            (Cam.chunkHeader (Cam.chunkOf content j).length j
              ((content.length + 1023) / 1024))
            (Cam.chunkOf content j) (Cam.chunkOf content j).length))
      ++ rest).length + 1 := by
    rw [List.length_append, List.length_append]
    have := le_length_flatMap_range' (fun j =>
        Master.packetPolls
          (Cam.chunkHeader (Cam.chunkOf content j).length j ((content.length + 1023) / 1024))
          (Cam.chunkOf content j)
          (Cam.chunkChecksum
            (Cam.chunkHeader (Cam.chunkOf content j).length j
              ((content.length + 1023) / 1024))
            (Cam.chunkOf content j) (Cam.chunkOf content j).length))
        (fun j => by simp [Master.packetPolls]; omega) ((content.length + 1023) / 1024) 0
    omega
  obtain ⟨m, hm⟩ : ∃ m, m + 1 = (content.length + 1023) / 1024 :=
    ⟨(content.length + 1023) / 1024 - 1, by omega⟩
  have hrx := fun fuel hf => receiveChunkLoop_packets content hS m 0 fuel
    { imageBuffer := imageBuffer, imageBufferSize := 0, expectedChunkIndex := 0, tx := tx }
    noise rest (by omega) hf rfl rfl hbuf hnoise
  rw [hm] at hrx
  rw [hrx _ hfuel]
  simp
set_option maxRecDepth 100000 in
/-- Instance of C13: the 4-byte file of the sample device goes out as the one packet
`[0xAA, 0, 0, 0, 1, 0, 4] ++ [255, 216, 255, 217] ++ [checksum]`, which the master
acknowledges and stores. -/
theorem chunk_reconstruction_witness :
    (Cam.sdOpenRead "/images/IMG_1.jpg" Cam.Device.sample.files = some [255, 216, 255, 217]
      ∧ 1 ≤ ([255, 216, 255, 217] : List Nat).length
      ∧ ([255, 216, 255, 217] : List Nat).length ≤ MAX_IMAGE_SIZE
      ∧ (∀ w ∈ [[some 6]], Cam.waitForACK w = true)
      ∧ Cam.totalChunksOf ([255, 216, 255, 217] : List Nat).length
          ≤ ([[some 6]] : List (List (Option Nat))).length
      ∧ (List.replicate MAX_IMAGE_SIZE 0).length = MAX_IMAGE_SIZE
      ∧ (∀ b ∈ ([] : List Nat), b ≠ START_BYTE)) ∧
    (Cam.sendImageViaUART [[some 6]] "/images/IMG_1.jpg" Cam.Device.sample).1 = some true ∧
    Master.receiveImageChunks (List.replicate MAX_IMAGE_SIZE 0) []
        (Master.packetPolls [0xAA, 0, 0, 0, 1, 0, 4] [255, 216, 255, 217]
          (Cam.chunkChecksum [0xAA, 0, 0, 0, 1, 0, 4] [255, 216, 255, 217] 4))
      = Master.Iter.returned true
          { imageBuffer := [255, 216, 255, 217] ++ (List.replicate MAX_IMAGE_SIZE 0).drop 4,
            imageBufferSize := 4, expectedChunkIndex := 1, tx := [0x06] } [] :=
  ⟨⟨by decide, by decide, by decide, by decide, by decide, List.length_replicate _ _,
      by simp⟩,
    chunk_reconstruction [[some 6]] "/images/IMG_1.jpg" Cam.Device.sample
      [255, 216, 255, 217] (List.replicate MAX_IMAGE_SIZE 0) [] [] [] (by decide) (by decide)
      (by decide) (by decide) (by decide) (List.length_replicate _ _) (by simp)⟩

/-! ## Theorems: capture and eviction (C19) -/

theorem sdWrite_new (path : String) (data : List Nat) :
    ∀ files : List (String × List Nat), path ∉ files.map Prod.fst →
      Cam.sdWrite path data files = files ++ [(path, data)] := by
  intro files
  induction files with
  | nil => intro _; rfl
  | cons f files ih =>
    intro h
    rw [List.map_cons, List.mem_cons, not_or] at h
    rw [Cam.sdWrite, if_neg (fun hf => h.1 hf.symm), ih h.2]
    rfl

theorem sdRemove_head (f : String × List Nat) (files : List (String × List Nat))
    (h : f.1 ∉ files.map Prod.fst) : Cam.sdRemove f.1 (f :: files) = files := by
  unfold Cam.sdRemove
  rw [List.filter_cons_of_neg (by simp), List.filter_eq_self]
  intro g hg
  have : g.1 ≠ f.1 := fun hgf => h (hgf ▸ List.mem_map_of_mem Prod.fst hg)
  simpa using this

/-- One successful capture: the oldest entry goes when there are `MAX_IMAGES` entries or
more, the new file becomes the last entry. -/
theorem captureAndSaveImage_files (env : Cam.CaptureEnv) (dev : Cam.Device)
    (buf : List Nat) (hinit : env.sdInit = true) (hframe : env.frame = some buf)
    (hwrite : env.canWrite = true) (hnodup : (dev.files.map Prod.fst).Nodup)
    (hnew : Cam.imageFileName env.now ∉ dev.files.map Prod.fst) :
    (Cam.captureAndSaveImage env dev).1 = Cam.imageFileName env.now ∧
    (Cam.captureAndSaveImage env dev).2.files
      = (if dev.files.length ≥ MAX_IMAGES then dev.files.tail else dev.files)
        ++ [(Cam.imageFileName env.now, buf)] := by
  have hclean : (Cam.cleanupOldImages
        (if dev.sdCardInitialized then dev
          else { dev with sdCardInitialized := true, tx := dev.tx ++ env.sdInitLog })).files
      = if dev.files.length ≥ MAX_IMAGES then dev.files.tail else dev.files := by
    have hfiles : (if dev.sdCardInitialized then dev
          else { dev with sdCardInitialized := true, tx := dev.tx ++ env.sdInitLog }).files
        = dev.files := by
      split <;> rfl
    unfold Cam.cleanupOldImages
    rw [hfiles]
    by_cases hfull : dev.files.length ≥ MAX_IMAGES
    · rw [if_pos hfull, if_pos hfull]
      cases hf : dev.files with
      | nil => rw [hf] at hfull; exact absurd hfull (by decide)
      | cons f files =>
        rw [hf] at hnodup
        simp only [List.map_cons, List.nodup_cons] at hnodup
        simp only [List.tail_cons]
        exact sdRemove_head f files hnodup.1
    · rw [if_neg hfull, if_neg hfull, hfiles]
  have hsub : ∀ l : List (String × List Nat),
      l = (if dev.files.length ≥ MAX_IMAGES then dev.files.tail else dev.files) →
      Cam.imageFileName env.now ∉ l.map Prod.fst := by
    intro l hl hmem
    apply hnew
    rw [hl] at hmem
    split at hmem
    · exact List.mem_map.mpr (by
        obtain ⟨g, hg, hg1⟩ := List.mem_map.mp hmem
        exact ⟨g, List.mem_of_mem_tail hg, hg1⟩)
    · exact hmem
  unfold Cam.captureAndSaveImage
  rw [if_neg (by simp [hinit]), hframe]
  simp only []
  rw [if_pos hwrite]
  refine ⟨rfl, ?_⟩
  simp only []
  rw [sdWrite_new _ _ _ (hsub _ hclean), hclean]
theorem captureAll_append (envs : List Cam.CaptureEnv) (env : Cam.CaptureEnv)
    (dev : Cam.Device) :
    Cam.captureAll (envs ++ [env]) dev
      = (Cam.captureAndSaveImage env (Cam.captureAll envs dev)).2 := by
  unfold Cam.captureAll
  rw [List.foldl_append]
  rfl

/-- The store after `n` successful captures from an empty directory: the last
`min n MAX_IMAGES` files captured, oldest first. -/
theorem captureAll_files (dev : Cam.Device) (hempty : dev.files = []) :
    ∀ envs : List Cam.CaptureEnv,
      (∀ e ∈ envs, e.sdInit = true ∧ e.frame.isSome = true ∧ e.canWrite = true) →
      (envs.map fun e => Cam.imageFileName e.now).Nodup →
      (Cam.captureAll envs dev).files
        = (envs.map Cam.capturedEntry).drop (envs.length - MAX_IMAGES) := by
  intro envs
  induction envs using List.reverseRecOn with
  | nil => intro _ _; exact hempty
  | append_singleton envs env ih =>
    intro hok hnodup
    rw [List.map_append, List.nodup_append] at hnodup
    have hprev := ih (fun e he => hok e (List.mem_append_left _ he)) hnodup.1
    obtain ⟨hinit, hframe, hwrite⟩ := hok env (List.mem_append_right _ (List.mem_singleton_self _))
    obtain ⟨buf, hbuf⟩ := Option.isSome_iff_exists.mp hframe
    have hnames : (envs.map Cam.capturedEntry).map Prod.fst
        = envs.map fun e => Cam.imageFileName e.now := by
      rw [List.map_map]; rfl
    have hsubl : List.Sublist (((envs.map Cam.capturedEntry).drop
        (envs.length - MAX_IMAGES)).map Prod.fst) (envs.map fun e => Cam.imageFileName e.now) := by
      rw [← hnames, List.map_drop]
      exact List.drop_sublist _ _
    have hnd : ((Cam.captureAll envs dev).files.map Prod.fst).Nodup := by
      rw [hprev]
      exact hnodup.1.sublist hsubl
    have hnew : Cam.imageFileName env.now ∉ (Cam.captureAll envs dev).files.map Prod.fst := by
      rw [hprev]
      intro hmem
      exact hnodup.2.2 (hsubl.subset hmem) (by simp) 
    rw [captureAll_append,
      (captureAndSaveImage_files env _ buf hinit hbuf hwrite hnd hnew).2, hprev]
    have hentry : Cam.capturedEntry env = (Cam.imageFileName env.now, buf) := by
      unfold Cam.capturedEntry; rw [hbuf]; rfl
    rw [List.map_append, List.map_singleton, hentry, List.length_append, List.length_singleton,
      List.length_drop, List.length_map]
    unfold MAX_IMAGES
    by_cases hfull : envs.length - (envs.length - 10) ≥ 10
    · rw [if_pos hfull, List.tail_drop,
        show envs.length + 1 - 10 = envs.length - 10 + 1 by omega,
        List.drop_append_of_le_length (by rw [List.length_map]; omega)]
    · rw [if_neg hfull, show envs.length + 1 - 10 = 0 by omega,
        show envs.length - 10 = 0 by omega]
      rfl
/-- C19. Start from an empty image directory and make successful captures (the SD card
is up, a frame is delivered, the file can be opened for writing, and the file names are
pairwise distinct). After `n` captures the store holds the last `min n MAX_IMAGES`
captured files in the order of capture, so `min n MAX_IMAGES` entries. Capture number
`n + 1` keeps every entry when `n < MAX_IMAGES`, and otherwise removes exactly the first
entry, which is the oldest one; then it adds the new file. -/
theorem eviction (dev : Cam.Device) (envs : List Cam.CaptureEnv) (env : Cam.CaptureEnv)
    (hempty : dev.files = [])
    (hok : ∀ e ∈ envs ++ [env], e.sdInit = true ∧ e.frame.isSome = true ∧ e.canWrite = true)
    (hnodup : ((envs ++ [env]).map fun e => Cam.imageFileName e.now).Nodup) :
    (Cam.captureAll envs dev).files
      = (envs.map Cam.capturedEntry).drop (envs.length - MAX_IMAGES) ∧
    (Cam.captureAll envs dev).files.length = min envs.length MAX_IMAGES ∧
    (Cam.captureAll (envs ++ [env]) dev).files
      = (if envs.length < MAX_IMAGES then (Cam.captureAll envs dev).files
          else (Cam.captureAll envs dev).files.tail) ++ [Cam.capturedEntry env] ∧
    (Cam.captureAll (envs ++ [env]) dev).files.length = min (envs.length + 1) MAX_IMAGES := by
  have hnodup1 : (envs.map fun e => Cam.imageFileName e.now).Nodup := by
    rw [List.map_append, List.nodup_append] at hnodup
    exact hnodup.1
  have hprev := captureAll_files dev hempty envs
    (fun e he => hok e (List.mem_append_left _ he)) hnodup1
  have hnext := captureAll_files dev hempty (envs ++ [env]) hok hnodup
  have hlen : (Cam.captureAll envs dev).files.length = min envs.length MAX_IMAGES := by
    rw [hprev, List.length_drop, List.length_map]
    unfold MAX_IMAGES
    omega
  refine ⟨hprev, hlen, ?_, ?_⟩
  · rw [hnext, hprev, List.map_append, List.map_singleton, List.length_append,
      List.length_singleton]
    unfold MAX_IMAGES
    by_cases hfull : envs.length < 10
    · rw [if_pos hfull, show envs.length + 1 - 10 = 0 by omega,
        show envs.length - 10 = 0 by omega]
      rfl
    · rw [if_neg hfull, List.tail_drop,
        show envs.length + 1 - 10 = envs.length - 10 + 1 by omega,
        List.drop_append_of_le_length (by rw [List.length_map]; omega)]
  · rw [hnext, List.length_drop, List.length_map, List.length_append, List.length_singleton]
    unfold MAX_IMAGES
    omega

set_option maxRecDepth 1000000 in
/-- Instance of C19: eleven captures at the times 0 to 10; the eleventh removes
`/images/IMG_0.jpg` and the store holds the ten files of the times 1 to 10. -/
theorem eviction_witness :
    (Cam.Device.fresh.files = []
      ∧ (∀ e ∈ ((List.range 10).map fun n => Cam.CaptureEnv.good n [n])
            ++ [Cam.CaptureEnv.good 10 [10]],
          e.sdInit = true ∧ e.frame.isSome = true ∧ e.canWrite = true)
      ∧ ((((List.range 10).map fun n => Cam.CaptureEnv.good n [n])
            ++ [Cam.CaptureEnv.good 10 [10]]).map fun e => Cam.imageFileName e.now).Nodup) ∧
    (Cam.captureAll
        (((List.range 10).map fun n => Cam.CaptureEnv.good n [n])
          ++ [Cam.CaptureEnv.good 10 [10]]) Cam.Device.fresh).files
      = ((Cam.captureAll ((List.range 10).map fun n => Cam.CaptureEnv.good n [n])
          Cam.Device.fresh).files.tail ++ [("/images/IMG_10.jpg", [10])]) :=
  ⟨⟨rfl, by decide, by decide⟩,
    (eviction Cam.Device.fresh ((List.range 10).map fun n => Cam.CaptureEnv.good n [n])
      (Cam.CaptureEnv.good 10 [10]) rfl (by decide) (by decide)).2.2.1⟩

/-! ## Theorems: the button release and the upload mode (C20) -/

theorem bufMemcpy_append (P rest src : List Nat) (off n : Nat) (hoff : P.length = off)
    (hsrc : src.length = n) (hrest : n ≤ rest.length) :
    bufMemcpy (P ++ rest) off src n = some (P ++ src ++ rest.drop n) := by
  subst hoff hsrc
  unfold bufMemcpy
  rw [if_pos ⟨by rw [List.length_append]; omega, Nat.le_refl _⟩, List.take_left' rfl,
    List.take_length, List.drop_append]

theorem leBytes_length (n value : Nat) : (Master.leBytes n value).length = n := by
  simp [Master.leBytes]

/-- The header `createWAVHeader` writes for the master's recording parameters: 44 bytes
at the start of the buffer, the rest of the buffer unchanged. -/
theorem createWAVHeader_eq (header : List Nat) (dataSize : Nat) (stray : Nat × Nat)
    (h : 44 ≤ header.length) :
    Master.createWAVHeader header dataSize MIC_SAMPLE_RATE MIC_CHANNELS MIC_BITS_PER_SAMPLE
        stray
      = some (Master.wavHeaderBytes dataSize stray ++ header.drop 44) := by
  unfold Master.createWAVHeader
  simp only [MIC_SAMPLE_RATE, MIC_CHANNELS, MIC_BITS_PER_SAMPLE]
  rw [← List.nil_append header]
  rw [bufMemcpy_append _ _ _ _ _ (by rfl) (by rfl) (by omega)]
  simp only [Option.bind_eq_bind, Option.some_bind]
  rw [bufMemcpy_append _ _ _ _ _ (by simp [leBytes_length]) (by simp [leBytes_length])
    (by simp; omega)]
  simp only [Option.some_bind]
  rw [bufMemcpy_append _ _ _ _ _ (by simp [leBytes_length]) (by simp [leBytes_length])
    (by simp; omega)]
  simp only [Option.some_bind]
  rw [bufMemcpy_append _ _ _ _ _ (by simp [leBytes_length]) (by simp [leBytes_length])
    (by simp; omega)]
  simp only [Option.some_bind]
  rw [bufMemcpy_append _ _ _ _ _ (by simp [leBytes_length]) (by simp [leBytes_length])
    (by simp; omega)]
  simp only [Option.some_bind]
  rw [bufMemcpy_append _ _ _ _ _ (by simp [leBytes_length]) (by simp [leBytes_length])
    (by simp; omega)]
  simp only [Option.some_bind]
  rw [bufMemcpy_append _ _ _ _ _ (by simp [leBytes_length]) (by simp [leBytes_length])
    (by simp; omega)]
  simp only [Option.some_bind]
  rw [bufMemcpy_append _ _ _ _ _ (by simp [leBytes_length]) (by simp [leBytes_length])
    (by simp; omega)]
  simp only [Option.some_bind]
  rw [bufMemcpy_append _ _ _ _ _ (by simp [leBytes_length]) (by simp [leBytes_length])
    (by simp; omega)]
  simp only [Option.some_bind]
  rw [bufMemcpy_append _ _ _ _ _ (by simp [leBytes_length]) (by simp [leBytes_length])
    (by simp; omega)]
  simp only [Option.some_bind]
  rw [bufMemcpy_append _ _ _ _ _ (by simp [leBytes_length]) (by simp [leBytes_length])
    (by simp; omega)]
  simp only [Option.some_bind]
  rw [bufMemcpy_append _ _ _ _ _ (by simp [leBytes_length]) (by simp [leBytes_length])
    (by simp; omega)]
  simp only [Option.some_bind]
  rw [bufMemcpy_append _ _ _ _ _ (by simp [leBytes_length]) (by simp [leBytes_length])
    (by simp; omega)]
  simp [Master.wavHeaderBytes]
/-- What `buttonISR` does on a release edge that it honours. -/
theorem buttonISR_release (g : Master.Globals) (currentTime : Nat)
    (reads : List Master.I2SRead) (stray : Nat × Nat)
    (hpressed : g.buttonPressed = true)
    (hdeb : (currentTime + 2 ^ 32 - g.buttonPressTime) % 2 ^ 32 > BUTTON_DEBOUNCE_MS)
    (hbuf : g.recordBuffer.length = AUDIO_RECORD_BUFFER_SIZE) :
    Master.buttonISR false currentTime reads stray g
      = some
          { currentState := Master.SystemState.STATE_CAPTURING,
            buttonPressTime := g.buttonPressTime,
            buttonPressed := false,
            longPressDetected :=
              decide ((currentTime + 2 ^ 32 - g.buttonPressTime) % 2 ^ 32 ≥ LONG_PRESS_MS),
            recordBuffer :=
              if (currentTime + 2 ^ 32 - g.buttonPressTime) % 2 ^ 32 ≥ LONG_PRESS_MS
                  ∧ g.currentState = Master.SystemState.STATE_RECORDING then
                Master.wavHeaderBytes ((g.recordBufferIndex + 2 ^ 32 - WAV_HEADER_SIZE) % 2 ^ 32)
                    stray
                  ++ g.recordBuffer.drop 44
              else g.recordBuffer,
            recordBufferIndex := g.recordBufferIndex } := by
  have h44 : 44 ≤ g.recordBuffer.length := by rw [hbuf]; decide
  unfold Master.buttonISR
  rw [if_neg (by simp), if_pos ⟨hpressed, hdeb⟩]
  by_cases hlong : (currentTime + 2 ^ 32 - g.buttonPressTime) % 2 ^ 32 ≥ LONG_PRESS_MS
  · rw [if_pos hlong]
    unfold Master.stopRecording
    by_cases hrec : g.currentState = Master.SystemState.STATE_RECORDING
    · rw [if_pos hrec, if_pos ⟨hlong, hrec⟩, createWAVHeader_eq _ _ _ h44,
        decide_eq_true hlong]
      rfl
    · rw [if_neg hrec, if_neg (fun h => hrec h.2), decide_eq_true hlong]
      rfl
  · rw [if_neg hlong, if_neg (fun h => hlong h.1), decide_eq_false hlong]
    rfl

theorem wavHeaderBytes_dataSize (dataSize : Nat) (stray : Nat × Nat) :
    (Master.wavHeaderBytes dataSize stray).length = 44 ∧
    (Master.wavHeaderBytes dataSize stray).drop 40 = Master.leBytes 4 dataSize := by
  constructor
  · simp [Master.wavHeaderBytes, leBytes_length]
  · rfl
/-- C20 (the WAV header is written only in state Recording). On a release edge that
`buttonISR` honours (`buttonPressed` set and more than `BUTTON_DEBOUNCE_MS` since the
press), with `d = currentTime - buttonPressTime` in 32 bits: the state becomes Capturing,
`buttonPressed` is cleared, and `longPressDetected` is true exactly when
`d >= LONG_PRESS_MS`, false otherwise. The 44 bytes of the WAV header, with the data size
`recordBufferIndex - 44` in bytes 40 to 43, are written at the start of `recordBuffer`
when `d >= LONG_PRESS_MS` and the state was Recording; in every other case `recordBuffer`
is unchanged. The body `loop` then uploads carries the mode `conversation` exactly when
the flag is true, and `snapshot` otherwise. -/
theorem press_duration_selects_mode (g : Master.Globals) (currentTime : Nat)
    (reads : List Master.I2SRead) (stray : Nat × Nat) (sessionId : String)
    (hpressed : g.buttonPressed = true)
    (hdeb : (currentTime + 2 ^ 32 - g.buttonPressTime) % 2 ^ 32 > BUTTON_DEBOUNCE_MS)
    (hbuf : g.recordBuffer.length = AUDIO_RECORD_BUFFER_SIZE) :
    ∃ g1, Master.buttonISR false currentTime reads stray g = some g1 ∧
      g1.currentState = Master.SystemState.STATE_CAPTURING ∧
      g1.buttonPressed = false ∧
      g1.buttonPressTime = g.buttonPressTime ∧
      g1.recordBufferIndex = g.recordBufferIndex ∧
      (g1.longPressDetected = true
        ↔ (currentTime + 2 ^ 32 - g.buttonPressTime) % 2 ^ 32 ≥ LONG_PRESS_MS) ∧
      g1.recordBuffer
        = (if (currentTime + 2 ^ 32 - g.buttonPressTime) % 2 ^ 32 ≥ LONG_PRESS_MS
              ∧ g.currentState = Master.SystemState.STATE_RECORDING then
            Master.wavHeaderBytes ((g.recordBufferIndex + 2 ^ 32 - WAV_HEADER_SIZE) % 2 ^ 32)
                stray
              ++ g.recordBuffer.drop 44
          else g.recordBuffer) ∧
      ((Master.wavHeaderBytes ((g.recordBufferIndex + 2 ^ 32 - WAV_HEADER_SIZE) % 2 ^ 32)
          stray).length = 44 ∧
        (Master.wavHeaderBytes ((g.recordBufferIndex + 2 ^ 32 - WAV_HEADER_SIZE) % 2 ^ 32)
          stray).drop 40
          = Master.leBytes 4 ((g.recordBufferIndex + 2 ^ 32 - WAV_HEADER_SIZE) % 2 ^ 32)) ∧
      (44 ≤ g.recordBufferIndex → g.recordBufferIndex < 2 ^ 32 →
        (g.recordBufferIndex + 2 ^ 32 - WAV_HEADER_SIZE) % 2 ^ 32 = g.recordBufferIndex - 44) ∧
      Master.loopUploadBody sessionId g1
        = Master.requestBody sessionId
            (decide ((currentTime + 2 ^ 32 - g.buttonPressTime) % 2 ^ 32 ≥ LONG_PRESS_MS)) ∧
      ∀ includeAudio : Bool,
        Master.requestBody sessionId includeAudio
          = "--" ++ MULTIPART_BOUNDARY ++ "\r\n"
            ++ "Content-Disposition: form-data; name=\"session_id\"\r\n\r\n"
            ++ sessionId ++ "\r\n"
            ++ "--" ++ MULTIPART_BOUNDARY ++ "\r\n"
            ++ "Content-Disposition: form-data; name=\"mode\"\r\n\r\n"
            ++ (if includeAudio = true then "conversation" else "snapshot")
            ++ "\r\n"
            ++ "--" ++ MULTIPART_BOUNDARY ++ "\r\n"
            ++ "Content-Disposition: form-data; name=\"image\"; filename=\"image.jpg\"\r\n"
            ++ "Content-Type: image/jpeg\r\n\r\n" := by
  refine ⟨_, buttonISR_release g currentTime reads stray hpressed hdeb hbuf, rfl, rfl, rfl,
    rfl, ?_, rfl, wavHeaderBytes_dataSize _ _, ?_, rfl, fun _ => rfl⟩
  · exact decide_eq_true_iff
  · intro h1 h2
    unfold WAV_HEADER_SIZE
    omega

set_option maxRecDepth 100000 in
/-- Instance of C20: a release 900 ms after the press, in state Recording with a full
buffer. -/
theorem press_duration_selects_mode_witness :
    ((true = true) ∧ (1000 + 2 ^ 32 - 100) % 2 ^ 32 > BUTTON_DEBOUNCE_MS
      ∧ (List.replicate AUDIO_RECORD_BUFFER_SIZE 0).length = AUDIO_RECORD_BUFFER_SIZE) ∧
    ∃ g1, Master.buttonISR false 1000 [] (0, 0)
          { currentState := Master.SystemState.STATE_RECORDING, buttonPressTime := 100,
            buttonPressed := true, longPressDetected := false,
            recordBuffer := List.replicate AUDIO_RECORD_BUFFER_SIZE 0,
            recordBufferIndex := 65536 } = some g1 ∧
      g1.currentState = Master.SystemState.STATE_CAPTURING ∧ g1.buttonPressed = false :=
  ⟨⟨rfl, by decide, List.length_replicate _ _⟩,
    (press_duration_selects_mode
      { currentState := Master.SystemState.STATE_RECORDING, buttonPressTime := 100,
        buttonPressed := true, longPressDetected := false,
        recordBuffer := List.replicate AUDIO_RECORD_BUFFER_SIZE 0,
        recordBufferIndex := 65536 }
      1000 [] (0, 0) "id" rfl (by decide) (List.length_replicate _ _)).imp
      fun _ h => ⟨h.1, h.2.1, h.2.2.1⟩⟩

set_option maxRecDepth 100000 in
/-- Counterexample to C20 as stated for every honoured release edge: the button is
released 900 ms after the press while the state is Idle (the press came during the Error
branch of `loop`, which then set the state to Idle). The flag becomes true and the state
Capturing, but `stopRecording` writes no WAV header: `recordBuffer` is as before. -/
theorem press_duration_counterexample :
    Master.buttonISR false 1000 [] (0, 0)
        { currentState := Master.SystemState.STATE_IDLE, buttonPressTime := 100,
          buttonPressed := true, longPressDetected := false,
          recordBuffer := List.replicate AUDIO_RECORD_BUFFER_SIZE 0,
          recordBufferIndex := 65536 }
      = some
          { currentState := Master.SystemState.STATE_CAPTURING, buttonPressTime := 100,
            buttonPressed := false, longPressDetected := true,
            recordBuffer := List.replicate AUDIO_RECORD_BUFFER_SIZE 0,
            recordBufferIndex := 65536 } :=
  buttonISR_release
    { currentState := Master.SystemState.STATE_IDLE, buttonPressTime := 100,
      buttonPressed := true, longPressDetected := false,
      recordBuffer := List.replicate AUDIO_RECORD_BUFFER_SIZE 0,
      recordBufferIndex := 65536 }
    1000 [] (0, 0) rfl (by decide) (List.length_replicate _ _)

/-! ## Theorems: playing the response (C24) -/

/-- One pass of the playback loop keeps the account of what has been written: nothing
before byte 44 of the body, everything from byte 44 on. -/
theorem playPass_spec (chunk pre : List Nat) (p : Master.Playback)
    (hab : p.audioBuffer.length = AUDIO_PLAY_BUFFER_SIZE)
    (hchunk : chunk.length ≤ AUDIO_PLAY_BUFFER_SIZE)
    (hinv : (p.headerSkipped = false ∧ p.bytesProcessed = pre.length ∧ pre.length < 44
          ∧ p.written = [])
        ∨ (p.headerSkipped = true ∧ 44 ≤ pre.length)) :
    ∃ p1, Master.playPass chunk p = some p1 ∧
      p1.audioBuffer.length = AUDIO_PLAY_BUFFER_SIZE ∧
      ((p1.headerSkipped = false ∧ p1.bytesProcessed = (pre ++ chunk).length
          ∧ (pre ++ chunk).length < 44 ∧ p1.written = [])
        ∨ (p1.headerSkipped = true ∧ 44 ≤ (pre ++ chunk).length)) ∧
      (∃ w, p1.written = p.written ++ w ∧ (∀ x ∈ w, x ≠ []) ∧
        (pre.drop 44 ++ w.flatten) = (pre ++ chunk).drop 44) := by
  have hsz : AUDIO_PLAY_BUFFER_SIZE = 8192 := rfl
  unfold Master.playPass
  by_cases hpos : chunk.length > 0
  · rw [if_pos hpos, bufMemcpy, if_pos ⟨by omega, Nat.le_refl _⟩]
    simp only [List.take_zero, List.nil_append, Nat.zero_add, List.take_length]
    have hlen : (chunk ++ p.audioBuffer.drop chunk.length).length = AUDIO_PLAY_BUFFER_SIZE := by
      rw [List.length_append, List.length_drop]; omega
    rcases hinv with ⟨hs, hbp, hlt, hw⟩ | ⟨hs, hge⟩
    · rw [hs, if_pos (by simp), hbp,
        Nat.mod_eq_of_lt (show pre.length + chunk.length < 2 ^ 32 by omega)]
      by_cases h44 : pre.length + chunk.length ≥ 44
      · rw [if_pos h44]
        have hhb : (44 + 2 ^ 32 - (pre.length + chunk.length + 2 ^ 32 - chunk.length) % 2 ^ 32)
            % 2 ^ 32 = 44 - pre.length := by
          omega
        rw [hhb]
        have hdrop : (pre ++ chunk).drop 44 = chunk.drop (44 - pre.length) := by
          rw [List.drop_append_eq_append_drop, List.drop_eq_nil_of_le (by omega),
            List.nil_append]
        by_cases hlt2 : 44 - pre.length < chunk.length
        · rw [if_pos hlt2]
          refine ⟨_, rfl, hlen, Or.inr ⟨rfl, by rw [List.length_append]; omega⟩,
            [(chunk ++ p.audioBuffer.drop chunk.length).drop (44 - pre.length) |>.take
              (chunk.length - (44 - pre.length))], rfl, ?_, ?_⟩
          · intro x hx
            rw [List.mem_singleton] at hx
            rw [hx]
            intro hnil
            have := congrArg List.length hnil
            simp only [List.length_take, List.length_drop, List.length_append,
              List.length_nil] at this
            omega
          · rw [hdrop, List.drop_eq_nil_of_le (by omega), List.nil_append]
            simp only [List.flatten_cons, List.flatten_nil, List.append_nil]
            rw [List.drop_append_of_le_length (by omega),
              List.take_append_of_le_length (by rw [List.length_drop]),
              List.take_of_length_le (by rw [List.length_drop])]
        · rw [if_neg hlt2]
          refine ⟨_, rfl, hlen, Or.inr ⟨rfl, by rw [List.length_append]; omega⟩,
            [], by simp, by simp, ?_⟩
          rw [hdrop, List.drop_eq_nil_of_le (by omega), List.drop_eq_nil_of_le (by omega)]
          rfl
      · rw [if_neg h44]
        refine ⟨_, rfl, hlen, Or.inl ⟨rfl, by rw [List.length_append],
          by rw [List.length_append]; omega, hw⟩, [], by simp [hw], by simp, ?_⟩
        rw [List.drop_eq_nil_of_le (by omega),
          List.drop_eq_nil_of_le (by rw [List.length_append]; omega)]
        rfl
    · rw [hs, if_neg (by simp)]
      refine ⟨_, rfl, hlen, Or.inr ⟨rfl, by rw [List.length_append]; omega⟩,
        [(chunk ++ p.audioBuffer.drop chunk.length).take chunk.length], rfl, ?_, ?_⟩
      · intro x hx
        rw [List.mem_singleton] at hx
        rw [hx, List.take_left' rfl]
        exact List.ne_nil_of_length_pos hpos
      · rw [List.take_left' rfl, List.drop_append_of_le_length hge]
        simp
  · rw [if_neg hpos]
    have hnil : chunk = [] := List.eq_nil_of_length_eq_zero (by omega)
    subst hnil
    refine ⟨p, rfl, hab, by simpa using hinv, [], by simp, by simp, by simp⟩
theorem playLoop_spec :
    ∀ (reads : List (List Nat)) (pre : List Nat) (p : Master.Playback),
      p.audioBuffer.length = AUDIO_PLAY_BUFFER_SIZE →
      (∀ chunk ∈ reads, chunk.length ≤ AUDIO_PLAY_BUFFER_SIZE) →
      ((p.headerSkipped = false ∧ p.bytesProcessed = pre.length ∧ pre.length < 44
          ∧ p.written = [])
        ∨ (p.headerSkipped = true ∧ 44 ≤ pre.length)) →
      p.written.flatten = pre.drop 44 → (∀ w ∈ p.written, w ≠ []) →
      ∃ p1, Master.playLoop reads p = some p1 ∧
        p1.written.flatten = (pre ++ reads.flatten).drop 44 ∧ ∀ w ∈ p1.written, w ≠ [] := by
  intro reads
  induction reads with
  | nil =>
    intro pre p _ _ _ hw hne
    exact ⟨p, rfl, by simpa using hw, hne⟩
  | cons chunk reads ih =>
    intro pre p hab hchunks hinv hw hne
    obtain ⟨p1, hp1, hab1, hinv1, w, hw1, hwne, hflat⟩ :=
      playPass_spec chunk pre p hab (hchunks chunk (List.mem_cons_self _ _)) hinv
    obtain ⟨p2, hp2, hflat2, hne2⟩ := ih (pre ++ chunk) p1 hab1
      (fun c hc => hchunks c (List.mem_cons_of_mem _ hc)) hinv1
      (by rw [hw1, List.flatten_append, hw, hflat])
      (by
        intro x hx
        rw [hw1] at hx
        rcases List.mem_append.mp hx with h | h
        · exact hne x h
        · exact hwne x h)
    refine ⟨p2, ?_, ?_, hne2⟩
    · rw [Master.playLoop, hp1]
      exact hp2
    · rw [hflat2, List.flatten_cons, List.append_assoc]

/-- C24. For every response body given as the successive reads of `playAudioResponse`
(each of at most `AUDIO_PLAY_BUFFER_SIZE` bytes; empty reads are passes in which nothing
is available), the function returns true in state Playing, the byte ranges it passes to
`i2s_write` are non-empty and their concatenation is the body without its first 44 bytes,
wherever the read boundaries fall; so nothing is written when the body has at most 44
bytes. -/
theorem wav_header_skipped (reads : List (List Nat)) (audioBuffer : List Nat)
    (g : Master.Globals) (hab : audioBuffer.length = AUDIO_PLAY_BUFFER_SIZE)
    (hreads : ∀ chunk ∈ reads, chunk.length ≤ AUDIO_PLAY_BUFFER_SIZE) :
    ∃ written : List (List Nat),
      Master.playAudioResponse reads audioBuffer g
        = some (true, Master.changeState Master.SystemState.STATE_PLAYING g, written) ∧
      written.flatten = reads.flatten.drop 44 ∧
      (∀ w ∈ written, w ≠ []) ∧
      (reads.flatten.length ≤ 44 → written = []) := by
  obtain ⟨p1, hp1, hflat, hne⟩ := playLoop_spec reads []
    { audioBuffer := audioBuffer, headerSkipped := false, bytesProcessed := 0, written := [] }
    hab hreads (Or.inl ⟨rfl, rfl, by decide, rfl⟩) rfl (fun _ h => by simp at h)
  rw [List.nil_append] at hflat
  refine ⟨p1.written, ?_, hflat, hne, ?_⟩
  · unfold Master.playAudioResponse
    rw [hp1]
    rfl
  · intro hle
    rw [List.drop_eq_nil_of_le hle] at hflat
    cases hw : p1.written with
    | nil => rfl
    | cons w ws =>
      rw [hw] at hflat hne
      have hwnil : w = [] := by
        have := congrArg List.length hflat
        simp only [List.flatten_cons, List.length_append, List.length_nil] at this
        exact List.eq_nil_of_length_eq_zero (by omega)
      exact absurd hwnil (hne w (List.mem_cons_self _ _))

set_option maxRecDepth 100000 in
/-- Instance of C24: a body of 47 bytes read as 3, 0, 41, 2 and 1 bytes; the header
ends exactly at the end of the third read and the last 3 bytes are played. -/
theorem wav_header_skipped_witness :
    ((List.replicate AUDIO_PLAY_BUFFER_SIZE 0).length = AUDIO_PLAY_BUFFER_SIZE
      ∧ ∀ chunk ∈ [[1, 2, 3], [], List.range 41, [7, 8], [9]],
          chunk.length ≤ AUDIO_PLAY_BUFFER_SIZE) ∧
    ∃ written : List (List Nat),
      (Master.playAudioResponse [[1, 2, 3], [], List.range 41, [7, 8], [9]]
          (List.replicate AUDIO_PLAY_BUFFER_SIZE 0)
          { currentState := Master.SystemState.STATE_UPLOADING, buttonPressTime := 0,
            buttonPressed := false, longPressDetected := false,
            recordBuffer := List.replicate AUDIO_RECORD_BUFFER_SIZE 0,
            recordBufferIndex := 0 }).map (fun r => r.2.2) = some written ∧
      written.flatten = [7, 8, 9] :=
  ⟨⟨List.length_replicate _ _, by decide⟩,
    (wav_header_skipped [[1, 2, 3], [], List.range 41, [7, 8], [9]]
      (List.replicate AUDIO_PLAY_BUFFER_SIZE 0)
      { currentState := Master.SystemState.STATE_UPLOADING, buttonPressTime := 0,
        buttonPressed := false, longPressDetected := false,
        recordBuffer := List.replicate AUDIO_RECORD_BUFFER_SIZE 0,
        recordBufferIndex := 0 }
      (List.length_replicate _ _) (by decide)).imp
      fun _ h => ⟨by rw [h.1]; rfl, h.2.1⟩⟩

/-! ## Theorems: button edges and the state machine (C21 to C23) -/

/-- The recording loop leaves the state, the press time and the two flags alone. -/
theorem recordLoop_fields :
    ∀ (reads : List Master.I2SRead) (g g1 : Master.Globals),
      Master.recordLoop reads g = some g1 →
      g1.currentState = g.currentState ∧ g1.buttonPressTime = g.buttonPressTime ∧
      g1.buttonPressed = g.buttonPressed ∧ g1.longPressDetected = g.longPressDetected := by
  intro reads
  induction reads with
  | nil =>
    intro g g1 h
    rw [Master.recordLoop] at h
    split at h
    · cases h
    · cases h; exact ⟨rfl, rfl, rfl, rfl⟩
  | cons r reads ih =>
    intro g g1 h
    cases r with
    | err =>
      rw [Master.recordLoop] at h
      split at h
      · exact ih g g1 h
      · cases h; exact ⟨rfl, rfl, rfl, rfl⟩
    | ok data =>
      rw [Master.recordLoop] at h
      split at h
      · split at h
        · split at h
          · cases h
          · have hrec := ih _ g1 h
            exact hrec
        · exact ih g g1 h
      · cases h; exact ⟨rfl, rfl, rfl, rfl⟩

/-- With enough full reads the recording loop ends: the buffer is full. -/
theorem recordLoop_returns (data : List Nat) (hdata : data.length = I2S_READ_LEN) :
    ∀ (n : Nat) (g : Master.Globals),
      g.recordBuffer.length = AUDIO_RECORD_BUFFER_SIZE →
      g.recordBufferIndex ≤ AUDIO_RECORD_BUFFER_SIZE →
      AUDIO_RECORD_BUFFER_SIZE ≤ g.recordBufferIndex + n * I2S_READ_LEN →
      ∃ g1, Master.recordLoop (List.replicate n (Master.I2SRead.ok data)) g = some g1 ∧
        g1.recordBuffer.length = AUDIO_RECORD_BUFFER_SIZE := by
  have hsz : AUDIO_RECORD_BUFFER_SIZE = 65536 := rfl
  have hrl : I2S_READ_LEN = 1024 := rfl
  rw [hrl] at hdata
  intro n
  induction n with
  | zero =>
    intro g hbuf hidx hn
    refine ⟨g, ?_, hbuf⟩
    rw [hsz, hrl] at hn
    rw [List.replicate_zero, Master.recordLoop, if_neg (by rw [hsz]; omega)]
  | succ n ih =>
    intro g hbuf hidx hn
    rw [hsz] at hbuf hidx
    rw [hsz, hrl] at hn
    rw [List.replicate_succ, Master.recordLoop]
    by_cases hc : g.buttonPressed = true ∧ g.recordBufferIndex < AUDIO_RECORD_BUFFER_SIZE
    · have hlt : g.recordBufferIndex < 65536 := hc.2
      rw [if_pos hc, if_pos (by omega), bufMemcpy, if_pos ⟨by rw [hsz]; omega, by omega⟩]
      exact ih _
        (by simp only [List.length_append, List.length_take, List.length_drop, hsz]; omega)
        (by simp only [hsz]; omega) (by simp only [hsz, hrl]; omega)
    · rw [if_neg hc]
      exact ⟨g, rfl, by rw [hsz]; exact hbuf⟩

/-- A press edge that `buttonISR` honours starts the recording, whatever the state. -/
theorem buttonISR_press (g : Master.Globals) (currentTime : Nat) (data : List Nat)
    (stray : Nat × Nat) (hdata : data.length = I2S_READ_LEN)
    (hpressed : g.buttonPressed = false)
    (hdeb : (currentTime + 2 ^ 32 - g.buttonPressTime) % 2 ^ 32 > BUTTON_DEBOUNCE_MS)
    (hbuf : g.recordBuffer.length = AUDIO_RECORD_BUFFER_SIZE) :
    ∃ g1, Master.buttonISR true currentTime (List.replicate 64 (Master.I2SRead.ok data)) stray g
        = some g1 ∧
      g1.currentState = Master.SystemState.STATE_RECORDING ∧
      g1.buttonPressTime = currentTime ∧ g1.buttonPressed = true ∧
      g1.longPressDetected = g.longPressDetected ∧
      g1.recordBuffer.length = AUDIO_RECORD_BUFFER_SIZE := by
  unfold Master.buttonISR
  rw [if_pos rfl, if_pos ⟨by simp [hpressed], hdeb⟩]
  unfold Master.recordAudio
  obtain ⟨g1, hg1⟩ := recordLoop_returns data hdata 64
    (Master.changeState Master.SystemState.STATE_RECORDING
      { ({ g with buttonPressed := true, buttonPressTime := currentTime } : Master.Globals) with
        recordBufferIndex := WAV_HEADER_SIZE })
    hbuf (show (44 : Nat) ≤ 65536 by decide) (show (65536 : Nat) ≤ 44 + 64 * 1024 by decide)
  obtain ⟨h1, h2, h3, h4⟩ := recordLoop_fields _ _ _ hg1.1
  exact ⟨g1, hg1.1, h1, h2, h3, h4, hg1.2⟩

/-- The fields of the globals after an honoured release, as single facts. -/
theorem buttonISR_release_fields (g : Master.Globals) (currentTime : Nat)
    (reads : List Master.I2SRead) (stray : Nat × Nat)
    (hpressed : g.buttonPressed = true)
    (hdeb : (currentTime + 2 ^ 32 - g.buttonPressTime) % 2 ^ 32 > BUTTON_DEBOUNCE_MS)
    (hbuf : g.recordBuffer.length = AUDIO_RECORD_BUFFER_SIZE) :
    ∃ g1, Master.buttonISR false currentTime reads stray g = some g1 ∧
      g1.currentState = Master.SystemState.STATE_CAPTURING ∧
      g1.buttonPressTime = g.buttonPressTime ∧ g1.buttonPressed = false ∧
      g1.recordBuffer.length = AUDIO_RECORD_BUFFER_SIZE := by
  refine ⟨_, buttonISR_release g currentTime reads stray hpressed hdeb hbuf, rfl, rfl, rfl, ?_⟩
  simp only []
  split
  · rw [List.length_append, (wavHeaderBytes_dataSize _ _).1, List.length_drop, hbuf]
    rfl
  · exact hbuf

/-- The debounce time is measured from the last honoured press: after a press honoured
at `t0` and a release honoured at `t1 > t0 + BUTTON_DEBOUNCE_MS`, a press edge at any
`t2 >= t1` is honoured; and a release exactly `BUTTON_DEBOUNCE_MS` after the honoured
press is not honoured. -/
theorem buttonEdges_bounce (g : Master.Globals) (t0 t1 t2 : Nat) (data : List Nat)
    (stray : Nat × Nat) (hdata : data.length = I2S_READ_LEN)
    (hbuf : g.recordBuffer.length = AUDIO_RECORD_BUFFER_SIZE)
    (hpressed : g.buttonPressed = false)
    (hdeb : (t0 + 2 ^ 32 - g.buttonPressTime) % 2 ^ 32 > BUTTON_DEBOUNCE_MS)
    (h01 : t0 + BUTTON_DEBOUNCE_MS < t1) (h12 : t1 ≤ t2) (h2 : t2 < 2 ^ 32) :
    (∀ (pinLow : Bool) (t : Nat) (reads : List Master.I2SRead) (x : Master.Globals),
      ¬ ((x.buttonPressed = !pinLow)
          ∧ (t + 2 ^ 32 - x.buttonPressTime) % 2 ^ 32 > BUTTON_DEBOUNCE_MS) →
      Master.buttonISR pinLow t reads stray x = some x) ∧
    (∃ g3, Master.buttonEdges stray
          [(true, t0, List.replicate 64 (Master.I2SRead.ok data)), (false, t1, []),
            (true, t2, List.replicate 64 (Master.I2SRead.ok data))] g = some g3 ∧
        g3.buttonPressed = true ∧ g3.buttonPressTime = t2 ∧
        g3.currentState = Master.SystemState.STATE_RECORDING) ∧
    (∃ g1, Master.buttonEdges stray
          [(true, t0, List.replicate 64 (Master.I2SRead.ok data))] g = some g1 ∧
        g1.buttonPressed = true ∧ g1.buttonPressTime = t0 ∧
        Master.buttonISR false (t0 + BUTTON_DEBOUNCE_MS) [] stray g1 = some g1) := by
  have hd : BUTTON_DEBOUNCE_MS = 50 := rfl
  rw [hd] at h01
  obtain ⟨g1, hg1, hs1, ht1, hp1, _, hb1⟩ :=
    buttonISR_press g t0 data stray hdata hpressed hdeb hbuf
  refine ⟨?_, ?_, ?_⟩
  · intro pinLow t reads x hno
    unfold Master.buttonISR
    cases pinLow with
    | true =>
      rw [if_pos rfl, if_neg]
      intro hc
      exact hno ⟨by simpa using hc.1, hc.2⟩
    | false =>
      rw [if_neg (by simp), if_neg]
      intro hc
      exact hno ⟨by simpa using hc.1, hc.2⟩
  · obtain ⟨g2, hg2, _, ht2, hp2, hb2⟩ := buttonISR_release_fields g1 t1 [] stray hp1
      (by rw [ht1, hd]; omega) hb1
    obtain ⟨g3, hg3, hs3, ht3, hp3, _, _⟩ := buttonISR_press g2 t2 data stray hdata hp2
      (by rw [ht2, ht1, hd]; omega) hb2
    refine ⟨g3, ?_, hp3, ht3, hs3⟩
    simp only [Master.buttonEdges, hg1, hg2, hg3, Option.some_bind, Option.bind_eq_bind]
  · refine ⟨g1, ?_, hp1, ht1, ?_⟩
    · simp only [Master.buttonEdges, hg1, Option.some_bind, Option.bind_eq_bind]
    · unfold Master.buttonISR
      rw [if_neg (by simp), if_neg]
      intro hc
      have := hc.2
      rw [ht1, hd] at this
      omega

/-- A pass of `loop` in state Uploading: the call of `uploadToBackend` with
`longPressDetected`, then Idle or Error, then the flag cleared. -/
theorem loop_uploading (env : Master.LoopEnv) (n : Master.Node)
    (hstate : n.globals.currentState = Master.SystemState.STATE_UPLOADING) :
    Master.loop env n
      = (Master.uploadToBackend env n.globals.longPressDetected n).map fun r =>
          { r.2.1 with
            globals :=
              { (if r.1 then Master.changeState Master.SystemState.STATE_IDLE r.2.1.globals
                  else Master.changeState Master.SystemState.STATE_ERROR r.2.1.globals) with
                longPressDetected := false } } := by
  unfold Master.loop
  simp only []
  rw [if_neg (by rw [hstate]; simp), hstate]


/-- C21 (time measured from the last honoured press, with `>`). `buttonISR` honours a
press edge when `buttonPressed` is clear, and a release edge when `buttonPressed` is set,
and in both cases more than `BUTTON_DEBOUNCE_MS` have passed since `buttonPressTime`, the
time of the last honoured press (32-bit `millis()` values). Every other edge is ignored
and leaves all globals as they are. An honoured press sets `buttonPressed` and
`buttonPressTime` and ends in Recording; an honoured release clears `buttonPressed`,
keeps `buttonPressTime` and ends in Capturing. -/
theorem debounce_rule (g : Master.Globals) (currentTime : Nat) (data : List Nat)
    (stray : Nat × Nat) (hdata : data.length = I2S_READ_LEN)
    (hbuf : g.recordBuffer.length = AUDIO_RECORD_BUFFER_SIZE)
    (hdeb : (currentTime + 2 ^ 32 - g.buttonPressTime) % 2 ^ 32 > BUTTON_DEBOUNCE_MS) :
    (∀ (pinLow : Bool) (t : Nat) (reads : List Master.I2SRead) (x : Master.Globals),
      ¬ ((x.buttonPressed = !pinLow)
          ∧ (t + 2 ^ 32 - x.buttonPressTime) % 2 ^ 32 > BUTTON_DEBOUNCE_MS) →
      Master.buttonISR pinLow t reads stray x = some x) ∧
    (g.buttonPressed = false →
      ∃ g1, Master.buttonISR true currentTime (List.replicate 64 (Master.I2SRead.ok data))
            stray g = some g1 ∧
        g1.buttonPressed = true ∧ g1.buttonPressTime = currentTime ∧
        g1.currentState = Master.SystemState.STATE_RECORDING ∧
        g1.longPressDetected = g.longPressDetected) ∧
    (g.buttonPressed = true →
      ∃ g1, Master.buttonISR false currentTime [] stray g = some g1 ∧
        g1.buttonPressed = false ∧ g1.buttonPressTime = g.buttonPressTime ∧
        g1.currentState = Master.SystemState.STATE_CAPTURING ∧
        (g1.longPressDetected = true
          ↔ (currentTime + 2 ^ 32 - g.buttonPressTime) % 2 ^ 32 ≥ LONG_PRESS_MS)) := by
  refine ⟨?_, fun hp => ?_, fun hp => ?_⟩
  · intro pinLow t reads x hno
    unfold Master.buttonISR
    cases pinLow with
    | true =>
      rw [if_pos rfl, if_neg]
      intro hc
      exact hno ⟨by simpa using hc.1, hc.2⟩
    | false =>
      rw [if_neg (by simp), if_neg]
      intro hc
      exact hno ⟨by simpa using hc.1, hc.2⟩
  · obtain ⟨g1, hg1, hs, ht, hpr, hl, _⟩ :=
      buttonISR_press g currentTime data stray hdata hp hdeb hbuf
    exact ⟨g1, hg1, hpr, ht, hs, hl⟩
  · exact ⟨_, buttonISR_release g currentTime [] stray hp hdeb hbuf, rfl, rfl, rfl,
      decide_eq_true_iff⟩

set_option maxRecDepth 100000 in
/-- Instance of C21: after `setup`, a press edge at 1000 ms is honoured. -/
theorem debounce_rule_witness :
    ((List.replicate 1024 0).length = I2S_READ_LEN
      ∧ Master.Globals.boot.recordBuffer.length = AUDIO_RECORD_BUFFER_SIZE
      ∧ (1000 + 2 ^ 32 - Master.Globals.boot.buttonPressTime) % 2 ^ 32
          > BUTTON_DEBOUNCE_MS) ∧
    ∃ g1, Master.buttonISR true 1000
          (List.replicate 64 (Master.I2SRead.ok (List.replicate 1024 0))) (0, 0)
          Master.Globals.boot = some g1 ∧
      g1.buttonPressed = true ∧ g1.buttonPressTime = 1000 ∧
      g1.currentState = Master.SystemState.STATE_RECORDING :=
  ⟨⟨List.length_replicate _ _, List.length_replicate _ _, by decide⟩,
    ((debounce_rule Master.Globals.boot 1000 (List.replicate 1024 0) (0, 0)
      (List.length_replicate _ _) (List.length_replicate _ _) (by decide)).2.1 rfl).imp
      fun _ h => ⟨h.1, h.2.1, h.2.2.1, h.2.2.2.1⟩⟩

set_option maxRecDepth 100000 in
/-- Counterexample to C21 as stated: after `setup`, a press at 1000 ms and a release at
2000 ms are honoured; a press edge at 2010 ms, 10 ms after the release, is honoured too
(`buttonPressTime` becomes 2010, the state Recording). And after the press at 1000 ms a
release edge at 1050 ms, 50 ms after it, is ignored. -/
theorem debounce_counterexample :
    (∃ g3, Master.buttonEdges (0, 0)
          [(true, 1000, List.replicate 64 (Master.I2SRead.ok (List.replicate 1024 0))),
            (false, 2000, []),
            (true, 2010, List.replicate 64 (Master.I2SRead.ok (List.replicate 1024 0)))]
          Master.Globals.boot = some g3 ∧
        g3.buttonPressed = true ∧ g3.buttonPressTime = 2010 ∧
        g3.currentState = Master.SystemState.STATE_RECORDING) ∧
    (∃ g1, Master.buttonEdges (0, 0)
          [(true, 1000, List.replicate 64 (Master.I2SRead.ok (List.replicate 1024 0)))]
          Master.Globals.boot = some g1 ∧
        g1.buttonPressed = true ∧ g1.buttonPressTime = 1000 ∧
        Master.buttonISR false (1000 + BUTTON_DEBOUNCE_MS) [] (0, 0) g1 = some g1) :=
  (buttonEdges_bounce Master.Globals.boot 1000 2000 2010 (List.replicate 1024 0) (0, 0)
    (List.length_replicate _ _) (List.length_replicate _ _) rfl (by decide) (by decide)
    (by decide) (by decide)).2

/-- C23. In state Uploading, `uploadToBackend` returns false whenever `wifiConnected` is
false, and whenever it returns false the pass of `loop` ends in state Error with
`longPressDetected` cleared and nothing else changed. In state Error a pass of `loop`
(without a button interrupt) ends in state Idle with nothing else changed, whatever the
environment: a pass that starts in Error never ends in Error. -/
theorem error_is_transient (env : Master.LoopEnv) (n : Master.Node) :
    (n.wifiConnected = false →
      Master.uploadToBackend env n.globals.longPressDetected n = some (false, n, none)) ∧
    (n.globals.currentState = Master.SystemState.STATE_UPLOADING →
      ∀ r, Master.uploadToBackend env n.globals.longPressDetected n = some r → r.1 = false →
        Master.loop env n
          = some { n with
              globals := { n.globals with
                currentState := Master.SystemState.STATE_ERROR,
                longPressDetected := false } }) ∧
    (n.globals.currentState = Master.SystemState.STATE_ERROR →
      Master.loop env n
        = some { n with
            globals := { n.globals with currentState := Master.SystemState.STATE_IDLE } }) ∧
    (n.globals.currentState = Master.SystemState.STATE_ERROR →
      ∀ n1, Master.loop env n = some n1 →
        n1.globals.currentState ≠ Master.SystemState.STATE_ERROR) := by
  have herr : n.globals.currentState = Master.SystemState.STATE_ERROR →
      Master.loop env n
        = some { n with
            globals := { n.globals with currentState := Master.SystemState.STATE_IDLE } } := by
    intro hstate
    unfold Master.loop
    simp only []
    rw [if_neg (by rw [hstate]; simp), hstate]
    rfl
  refine ⟨fun hw => ?_, fun hstate r hr hfalse => ?_, herr, fun hstate n1 h1 => ?_⟩
  · unfold Master.uploadToBackend
    rw [if_pos (by simp [hw])]
  · rw [loop_uploading env n hstate, hr, Option.map_some', hfalse]
    have hn : r.2.1 = n := by
      unfold Master.uploadToBackend at hr
      split at hr
      · cases hr; rfl
      · split at hr
        · obtain ⟨p, _, hp⟩ := Option.map_eq_some'.mp hr
          rw [← hp] at hfalse
          unfold Master.playAudioResponse at *
          rename_i hplay
          obtain ⟨q, _, hq⟩ := Option.map_eq_some'.mp hplay
          rw [← hq] at hfalse
          cases hfalse
        · cases hr; rfl
    rw [hn]
    rfl
  · rw [herr hstate] at h1
    cases h1
    simp

set_option maxRecDepth 100000 in
/-- Instance of C23: in state Uploading in conversation mode without Wi-Fi, the pass of
`loop` ends in Error with the flag cleared, and the next pass ends in Idle. -/
theorem error_is_transient_witness :
    (Master.loop
        { wifiStatusConnected := false, setupWiFi := false, captureImageFromCAM := false,
          sessionId := "id", httpCode := 0, reads := [], audioBuffer := [] }
        { globals := { Master.Globals.boot with
                       currentState := Master.SystemState.STATE_UPLOADING,
                       longPressDetected := true },
          wifiConnected := false }
      = some
          { globals := { Master.Globals.boot with
                         currentState := Master.SystemState.STATE_ERROR,
                         longPressDetected := false },
            wifiConnected := false }) ∧
    (Master.loop
        { wifiStatusConnected := false, setupWiFi := false, captureImageFromCAM := false,
          sessionId := "id", httpCode := 0, reads := [], audioBuffer := [] }
        { globals := { Master.Globals.boot with
                       currentState := Master.SystemState.STATE_ERROR,
                       longPressDetected := false },
          wifiConnected := false }
      = some
          { globals := { Master.Globals.boot with
                         currentState := Master.SystemState.STATE_IDLE,
                         longPressDetected := false },
            wifiConnected := false }) :=
  ⟨(error_is_transient
      { wifiStatusConnected := false, setupWiFi := false, captureImageFromCAM := false,
        sessionId := "id", httpCode := 0, reads := [], audioBuffer := [] }
      { globals := { Master.Globals.boot with
                     currentState := Master.SystemState.STATE_UPLOADING,
                     longPressDetected := true },
        wifiConnected := false }).2.1 rfl _
      ((error_is_transient _ _).1 rfl) rfl,
    (error_is_transient
      { wifiStatusConnected := false, setupWiFi := false, captureImageFromCAM := false,
        sessionId := "id", httpCode := 0, reads := [], audioBuffer := [] }
      { globals := { Master.Globals.boot with
                     currentState := Master.SystemState.STATE_ERROR,
                     longPressDetected := false },
        wifiConnected := false }).2.2.1 rfl⟩

/-! ## Theorems: a capture request and the frame left unread (C25) -/

/-- Reading back the file that was just written gives what was written. -/
theorem sdOpenRead_sdWrite (path : String) (data : List Nat) :
    ∀ files : List (String × List Nat),
      Cam.sdOpenRead path (Cam.sdWrite path data files) = some data := by
  intro files
  induction files with
  | nil => simp [Cam.sdWrite, Cam.sdOpenRead]
  | cons f files ih =>
    unfold Cam.sdWrite
    by_cases hf : f.1 = path
    · rw [if_pos hf]; simp [Cam.sdOpenRead]
    · rw [if_neg hf]
      unfold Cam.sdOpenRead at ih ⊢
      rw [List.find?_cons_of_neg _ (by simpa using hf)]
      exact ih

/-- The file name of a capture is not empty. -/
theorem imageFileName_length (now : Nat) : (Cam.imageFileName now).length > 0 := by
  unfold Cam.imageFileName IMAGE_DIR IMAGE_PREFIX IMAGE_EXTENSION
  simp only [String.length_append]
  have : "/images".length = 7 := by decide
  omega

/-- A capture that returns a path: the path is the new file name, it becomes
`latestImagePath`, the file holds the frame, and the serial output only grew. -/
theorem captureAndSaveImage_ok (env : Cam.CaptureEnv) (dev : Cam.Device) (buf : List Nat)
    (hcap : (Cam.captureAndSaveImage env dev).1.length > 0) (hframe : env.frame = some buf) :
    (Cam.captureAndSaveImage env dev).1 = Cam.imageFileName env.now ∧
    (Cam.captureAndSaveImage env dev).2.latestImagePath = Cam.imageFileName env.now ∧
    Cam.sdOpenRead (Cam.imageFileName env.now) (Cam.captureAndSaveImage env dev).2.files
      = some buf ∧
    ∃ log, (Cam.captureAndSaveImage env dev).2.tx = dev.tx ++ log := by
  unfold Cam.captureAndSaveImage at hcap ⊢
  by_cases h0 : ¬ dev.sdCardInitialized = true ∧ ¬ env.sdInit = true
  · rw [if_pos h0] at hcap; exact absurd hcap (Nat.lt_irrefl 0)
  · rw [if_neg h0] at hcap ⊢
    simp only [hframe] at hcap ⊢
    by_cases hw : env.canWrite = true
    · rw [if_pos hw]
      refine ⟨rfl, rfl, sdOpenRead_sdWrite _ _ _, ?_⟩
      simp only []
      unfold Cam.cleanupOldImages
      split <;> split <;> (try split) <;>
        first
          | exact ⟨_, (List.append_assoc _ _ _).trans rfl⟩
          | exact ⟨_, rfl⟩
          | simp only [List.append_assoc]; exact ⟨_, rfl⟩
    · rw [if_neg hw] at hcap; exact absurd hcap (Nat.lt_irrefl 0)

/-- The camera reads a Capture frame and the capture returns a path: the device is the
one `captureAndSaveImage` leaves, with the Success frame written after its log lines. -/
theorem cam_capture_command (env : Cam.CaptureEnv) (acks : List (List (Option Nat)))
    (dev : Cam.Device) (rxb : List Nat) (hrxb : rxb.length = 256)
    (hcap : (Cam.captureAndSaveImage env dev).1.length > 0) :
    Cam.processUARTCommand (Cam.Handlers.firmware env acks)
        { dev := dev, rxBuffer := rxb, rxIndex := 0 } (emptyFrame CMD_CAPTURE)
      = some
          { dev := { (Cam.captureAndSaveImage env dev).2 with
                     tx := (Cam.captureAndSaveImage env dev).2.tx
                       ++ [Cam.SerialOut.write (emptyFrame STATUS_SUCCESS)] },
            rxBuffer := emptyFrame CMD_CAPTURE ++ rxb.drop 4, rxIndex := 0 } := by
  have h := cam_process_frame (Cam.Handlers.firmware env acks) dev rxb CMD_CAPTURE []
    (Cam.calculateCRC8 [START_BYTE, CMD_CAPTURE, 0] 3) [] hrxb (by decide)
  rw [if_pos (by rfl)] at h
  have hd : Cam.dispatch (Cam.Handlers.firmware env acks) CMD_CAPTURE dev
      = some { (Cam.captureAndSaveImage env dev).2 with
               tx := (Cam.captureAndSaveImage env dev).2.tx
                 ++ [Cam.SerialOut.write (emptyFrame STATUS_SUCCESS)] } := by
    unfold Cam.dispatch
    rw [if_pos rfl]
    simp only [Cam.Handlers.firmware]
    rw [if_pos hcap, respond_null]
    rfl
  rw [hd] at h
  exact h

/-- The camera reads a SendImage frame while it has an image whose transfer returns
true: the device is the one `sendImageViaUART` leaves, with the Success frame written
after everything the transfer wrote. -/
theorem cam_send_command (env : Cam.CaptureEnv) (acks : List (List (Option Nat)))
    (dev : Cam.Device) (rxb : List Nat) (hrxb : rxb.length = 256)
    (hpath : dev.latestImagePath.length > 0)
    (hsent : (Cam.sendImageViaUART acks dev.latestImagePath dev).1 = some true) :
    Cam.processUARTCommand (Cam.Handlers.firmware env acks)
        { dev := dev, rxBuffer := rxb, rxIndex := 0 } (emptyFrame CMD_SEND_IMAGE)
      = some
          { dev := { (Cam.sendImageViaUART acks dev.latestImagePath dev).2 with
                     tx := (Cam.sendImageViaUART acks dev.latestImagePath dev).2.tx
                       ++ [Cam.SerialOut.write (emptyFrame STATUS_SUCCESS)] },
            rxBuffer := emptyFrame CMD_SEND_IMAGE ++ rxb.drop 4, rxIndex := 0 } := by
  have h := cam_process_frame (Cam.Handlers.firmware env acks) dev rxb CMD_SEND_IMAGE []
    (Cam.calculateCRC8 [START_BYTE, CMD_SEND_IMAGE, 0] 3) [] hrxb (by decide)
  rw [if_pos (by rfl)] at h
  have hd : Cam.dispatch (Cam.Handlers.firmware env acks) CMD_SEND_IMAGE dev
      = some { (Cam.sendImageViaUART acks dev.latestImagePath dev).2 with
               tx := (Cam.sendImageViaUART acks dev.latestImagePath dev).2.tx
                 ++ [Cam.SerialOut.write (emptyFrame STATUS_SUCCESS)] } := by
    unfold Cam.dispatch
    rw [if_neg (by decide), if_pos rfl, if_pos hpath]
    simp only [Cam.Handlers.firmware]
    rw [hsent]
    simp only [Option.getD_some, if_true]
    rw [respond_null]
    rfl
  rw [hd] at h
  exact h

/-- The master reads an empty-payload frame that follows bytes other than `0xAA`: it
returns true with the status of the frame, and nothing of the given bytes stays unread. -/
theorem master_receive_after_text (rxBuffer : List Nat) (out : Master.RxOut)
    (text : List Nat) (status : Nat) (rest : List (Option Nat))
    (hrx : rxBuffer.length = 256) (htext : ∀ b ∈ text, b ≠ START_BYTE) :
    Master.receiveUARTResponse rxBuffer out ((text ++ emptyFrame status).map some ++ rest)
      = some { ret := true, out := { out with statusCode := status }, unread := rest } := by
  unfold Master.receiveUARTResponse
  rw [List.map_append, List.append_assoc, master_noise out rxBuffer _ (text.map some)
    (by
      intro hmem
      obtain ⟨b, hb, hbe⟩ := List.mem_map.mp hmem
      exact htext b hb (Option.some.inj hbe))]
  have h := master_receive_frame rxBuffer out status []
    (Cam.calculateCRC8 [START_BYTE, status, 0] 3)
    [some START_BYTE, some status, some 0] rest hrx (by decide) rfl
  unfold Master.receiveUARTResponse at h
  rw [if_pos (by rfl)] at h
  have hstore : Master.storeResponse out status
      ([START_BYTE, status, ([] : List Nat).length] ++ []
        ++ [Cam.calculateCRC8 [START_BYTE, status, 0] 3]) ([] : List Nat).length
      = some { out with statusCode := status } := by
    unfold Master.storeResponse
    cases out.data <;> cases out.dataLen <;> simp
  rw [hstore] at h
  exact h

/-- The wire bytes of a trace that is a concatenation. -/
theorem wire_append (a b : List Cam.SerialOut) : Cam.wire (a ++ b) = Cam.wire a ++ Cam.wire b := by
  simp [Cam.wire]

/-- The wire bytes of the packets `sendChunk` writes for the chunks `i, ..., i + m - 1`,
as polls of the master. -/
theorem wire_sendChunks (content : List Nat) (total : Nat) (l : List Nat) :
    (Cam.wire (l.flatMap fun j =>
        Cam.sendChunk (Cam.chunkOf content j) (Cam.chunkOf content j).length j total)).map
      Master.Poll.byte
      = l.flatMap fun j =>
          Master.packetPolls (Cam.chunkHeader (Cam.chunkOf content j).length j total)
            (Cam.chunkOf content j)
            (Cam.chunkChecksum (Cam.chunkHeader (Cam.chunkOf content j).length j total)
              (Cam.chunkOf content j) (Cam.chunkOf content j).length) := by
  induction l with
  | nil => rfl
  | cons j l ih =>
    rw [List.flatMap_cons, List.flatMap_cons, wire_append, List.map_append, ih]
    congr 1
    simp [Cam.wire, Cam.sendChunk, Cam.SerialOut.wire, Master.packetPolls]

/-- A transfer in which every `waitForACK` sees an ACK: `sendImageViaUART` returns true
after the line with the sizes, the packets of all chunks in order and the closing line. -/
theorem sendImageViaUART_all_acked (acks : List (List (Option Nat))) (path : String)
    (dev : Cam.Device) (content : List Nat)
    (hopen : Cam.sdOpenRead path dev.files = some content)
    (hS : content.length ≤ MAX_IMAGE_SIZE)
    (hacks : ∀ w ∈ acks, Cam.waitForACK w = true)
    (hn : Cam.totalChunksOf content.length ≤ acks.length) :
    Cam.sendImageViaUART acks path dev
      = (some true,
          { dev with
            tx := dev.tx
              ++ [Cam.SerialOut.print ("Sending image: " ++ Cam.fmtD content.length
                    ++ " bytes in " ++ Cam.fmtD (Cam.totalChunksOf content.length)
                    ++ " chunks\n")]
              ++ ((List.range' 0 (Cam.totalChunksOf content.length)).flatMap fun j =>
                    Cam.sendChunk (Cam.chunkOf content j) (Cam.chunkOf content j).length j
                      (Cam.totalChunksOf content.length))
              ++ [Cam.SerialOut.println "Image transfer complete"] }) := by
  have hmax : MAX_IMAGE_SIZE = 524288 := rfl
  have htot : Cam.totalChunksOf content.length = (content.length + 1023) / 1024 :=
    totalChunksOf_eq _ (by omega)
  have hloop := sendLoop_all_acked content (Cam.totalChunksOf content.length) (by omega)
    ((content.length + 1023) / 1024) 0 acks
    (dev.tx ++ [Cam.SerialOut.print ("Sending image: " ++ Cam.fmtD content.length
      ++ " bytes in " ++ Cam.fmtD (Cam.totalChunksOf content.length) ++ " chunks\n")])
    (by omega) (by omega) hacks
  rw [Nat.zero_mul, Nat.zero_min, Nat.zero_mod] at hloop
  rw [sendImageViaUART_open _ _ _ _ hopen, hloop]
  simp only []
  rw [← htot]

/-- The master's `receiveImageChunks` on the packets of all chunks of an image of
`1 ≤ S ≤ MAX_IMAGE_SIZE` bytes, after bytes other than `0xAA`: it acknowledges every
packet, returns true after the last one and leaves what follows unread. -/
theorem receiveImageChunks_transfer (content imageBuffer tx noise : List Nat)
    (rest : List Master.Poll)
    (h1 : 1 ≤ content.length) (hS : content.length ≤ MAX_IMAGE_SIZE)
    (hbuf : imageBuffer.length = MAX_IMAGE_SIZE)
    (hnoise : ∀ b ∈ noise, b ≠ START_BYTE) :
    Master.receiveImageChunks imageBuffer tx
        ((noise ++ Cam.wire ((List.range' 0 (Cam.totalChunksOf content.length)).flatMap
            fun j => Cam.sendChunk (Cam.chunkOf content j) (Cam.chunkOf content j).length j
              (Cam.totalChunksOf content.length))).map Master.Poll.byte ++ rest)
      = Master.Iter.returned true
          { imageBuffer := content ++ imageBuffer.drop content.length,
            imageBufferSize := content.length,
            expectedChunkIndex := Cam.totalChunksOf content.length,
            tx := tx ++ List.replicate (Cam.totalChunksOf content.length) 0x06 } rest := by
  have hmax : MAX_IMAGE_SIZE = 524288 := rfl
  have htot : Cam.totalChunksOf content.length = (content.length + 1023) / 1024 :=
    totalChunksOf_eq _ (by omega)
  have hN : 1 ≤ (content.length + 1023) / 1024 := by omega
  rw [List.map_append, wire_sendChunks]
  unfold Master.receiveImageChunks
  rw [htot]
  have hfuel : (content.length + 1023) / 1024 ≤ (noise.map Master.Poll.byte
      ++ ((List.range' 0 ((content.length + 1023) / 1024)).flatMap fun j =>
        Master.packetPolls
          (Cam.chunkHeader (Cam.chunkOf content j).length j ((content.length + 1023) / 1024))
          (Cam.chunkOf content j)
          (Cam.chunkChecksum
            (Cam.chunkHeader (Cam.chunkOf content j).length j
              ((content.length + 1023) / 1024))
            (Cam.chunkOf content j) (Cam.chunkOf content j).length))
      ++ rest).length + 1 := by
    rw [List.length_append, List.length_append]
    have := le_length_flatMap_range' (fun j =>
        Master.packetPolls
          (Cam.chunkHeader (Cam.chunkOf content j).length j ((content.length + 1023) / 1024))
          (Cam.chunkOf content j)
          (Cam.chunkChecksum
            (Cam.chunkHeader (Cam.chunkOf content j).length j
              ((content.length + 1023) / 1024))
            (Cam.chunkOf content j) (Cam.chunkOf content j).length))
        (fun j => by simp [Master.packetPolls]; omega) ((content.length + 1023) / 1024) 0
    omega
  obtain ⟨m, hm⟩ : ∃ m, m + 1 = (content.length + 1023) / 1024 :=
    ⟨(content.length + 1023) / 1024 - 1, by omega⟩
  have hrx := fun fuel hf => receiveChunkLoop_packets content hS m 0 fuel
    { imageBuffer := imageBuffer, imageBufferSize := 0, expectedChunkIndex := 0, tx := tx }
    noise rest (by omega) hf rfl rfl hbuf hnoise
  rw [hm] at hrx
  rw [hrx _ hfuel]
  simp

/-- The frame `sendUARTCommand(cmdId, NULL, 0)` writes. -/
theorem sendUARTCommand_empty (packet : List Nat) (id : Nat) (hp : packet.length = 256) :
    Master.sendUARTCommand packet id none 0 = some (emptyFrame id) := by
  rw [master_sendUARTCommand_eq]
  exact sendUARTResponse_frame packet id none [] (Or.inr ⟨rfl, rfl⟩) hp (by decide)

/-- The closing line of a transfer has no byte `0xAA`. -/
theorem complete_line_no_start :
    ∀ b ∈ (Cam.SerialOut.println "Image transfer complete").wire, b ≠ START_BYTE := by
  decide

/-- The camera serves a SendImage frame while `latestImagePath` names a file of at most
`MAX_IMAGE_SIZE` bytes and every `waitForACK` sees an ACK: the transfer returns true, and
the output is the line with the sizes, the packets, the closing line and the Success
frame. -/
theorem cam_send_output (env : Cam.CaptureEnv) (acks : List (List (Option Nat)))
    (d1 : Cam.Device) (buf rxb : List Nat) (hrxb : rxb.length = 256)
    (hpath : d1.latestImagePath.length > 0)
    (hopen : Cam.sdOpenRead d1.latestImagePath d1.files = some buf)
    (hS : buf.length ≤ MAX_IMAGE_SIZE)
    (hacks : ∀ w ∈ acks, Cam.waitForACK w = true)
    (hn : Cam.totalChunksOf buf.length ≤ acks.length) :
    (Cam.sendImageViaUART acks d1.latestImagePath d1).1 = some true ∧
    Cam.outputFor (Cam.Handlers.firmware env acks)
        { dev := d1, rxBuffer := rxb, rxIndex := 0 } (emptyFrame CMD_SEND_IMAGE)
      = some ([Cam.SerialOut.print ("Sending image: " ++ Cam.fmtD buf.length
            ++ " bytes in " ++ Cam.fmtD (Cam.totalChunksOf buf.length) ++ " chunks\n")]
          ++ ((List.range' 0 (Cam.totalChunksOf buf.length)).flatMap fun j =>
                Cam.sendChunk (Cam.chunkOf buf j) (Cam.chunkOf buf j).length j
                  (Cam.totalChunksOf buf.length))
          ++ [Cam.SerialOut.println "Image transfer complete",
              Cam.SerialOut.write (emptyFrame STATUS_SUCCESS)]) := by
  have hsend := sendImageViaUART_all_acked acks d1.latestImagePath d1 buf hopen hS hacks hn
  have hret : (Cam.sendImageViaUART acks d1.latestImagePath d1).1 = some true := by
    rw [hsend]
  refine ⟨hret, ?_⟩
  unfold Cam.outputFor
  rw [cam_send_command env acks d1 rxb hrxb hpath hret, hsend]
  simp only [Option.map_some']
  rw [List.append_assoc, List.append_assoc, List.append_assoc, List.drop_left]
  simp only [List.append_assoc, List.singleton_append, List.cons_append, List.nil_append]

/-- A whole capture request. The camera serves the Capture frame with a capture that
returns a path and whose log text has no byte `0xAA`, then the SendImage frame with a
transfer in which every `waitForACK` sees an ACK; the master's `captureImageFromCAM`
gets every byte the camera puts on the wire. The camera's output for SendImage is the
line with the sizes, the packets, the line `Image transfer complete` and the Success
frame; the master returns true with the image, having written the two commands and one
ACK per packet, and leaves that last line and the Success frame unread; a later
`receiveUARTResponse` skips the line and returns true with status Success. -/
theorem capture_session (env : Cam.CaptureEnv) (acks : List (List (Option Nat)))
    (dev : Cam.Device) (buf packet1 packet2 rxBuffer imageBuffer : List Nat)
    (statusCode imageBufferSize : Nat) (later : List Master.Poll)
    (hcap : (Cam.captureAndSaveImage env dev).1.length > 0)
    (hframe : env.frame = some buf)
    (h1 : 1 ≤ buf.length) (hS : buf.length ≤ MAX_IMAGE_SIZE)
    (hlog : ∀ b ∈ Cam.wire ((Cam.captureAndSaveImage env dev).2.tx.drop dev.tx.length),
      b ≠ START_BYTE)
    (hacks : ∀ w ∈ acks, Cam.waitForACK w = true)
    (hn : Cam.totalChunksOf buf.length ≤ acks.length)
    (hp1 : packet1.length = 256) (hp2 : packet2.length = 256)
    (hrx : rxBuffer.length = 256) (hbuf : imageBuffer.length = MAX_IMAGE_SIZE) :
    ∃ cam1,
      Cam.processUARTCommand (Cam.Handlers.firmware env acks) (Cam.CamState.boot dev)
          (emptyFrame CMD_CAPTURE) = some cam1 ∧
      Cam.outputFor (Cam.Handlers.firmware env acks) (Cam.CamState.boot dev)
          (emptyFrame CMD_CAPTURE)
        = some ((Cam.captureAndSaveImage env dev).2.tx.drop dev.tx.length
            ++ [Cam.SerialOut.write (emptyFrame STATUS_SUCCESS)]) ∧
      (Cam.sendImageViaUART acks cam1.dev.latestImagePath cam1.dev).1 = some true ∧
      Cam.outputFor (Cam.Handlers.firmware env acks) cam1 (emptyFrame CMD_SEND_IMAGE)
        = some ([Cam.SerialOut.print ("Sending image: " ++ Cam.fmtD buf.length
              ++ " bytes in " ++ Cam.fmtD (Cam.totalChunksOf buf.length) ++ " chunks\n")]
            ++ ((List.range' 0 (Cam.totalChunksOf buf.length)).flatMap fun j =>
                  Cam.sendChunk (Cam.chunkOf buf j) (Cam.chunkOf buf j).length j
                    (Cam.totalChunksOf buf.length))
            ++ [Cam.SerialOut.println "Image transfer complete",
                Cam.SerialOut.write (emptyFrame STATUS_SUCCESS)]) ∧
      Master.captureImageFromCAM packet1 packet2 rxBuffer statusCode imageBuffer
          imageBufferSize
          ((Cam.wire ((Cam.captureAndSaveImage env dev).2.tx.drop dev.tx.length
            ++ [Cam.SerialOut.write (emptyFrame STATUS_SUCCESS)])).map some)
          ((Cam.wire ([Cam.SerialOut.print ("Sending image: " ++ Cam.fmtD buf.length
              ++ " bytes in " ++ Cam.fmtD (Cam.totalChunksOf buf.length) ++ " chunks\n")]
            ++ ((List.range' 0 (Cam.totalChunksOf buf.length)).flatMap fun j =>
                  Cam.sendChunk (Cam.chunkOf buf j) (Cam.chunkOf buf j).length j
                    (Cam.totalChunksOf buf.length))
            ++ [Cam.SerialOut.println "Image transfer complete",
                Cam.SerialOut.write (emptyFrame STATUS_SUCCESS)])).map Master.Poll.byte
            ++ later)
        = some
            { ret := true, imageBuffer := buf ++ imageBuffer.drop buf.length,
              imageBufferSize := buf.length,
              tx := emptyFrame CMD_CAPTURE ++ emptyFrame CMD_SEND_IMAGE
                ++ List.replicate (Cam.totalChunksOf buf.length) 0x06,
              unread := ((Cam.SerialOut.println "Image transfer complete").wire
                ++ emptyFrame STATUS_SUCCESS).map Master.Poll.byte ++ later } ∧
      ∀ (rxb : List Nat) (out : Master.RxOut) (polls : List (Option Nat)),
        rxb.length = 256 →
        Master.receiveUARTResponse rxb out
            (((Cam.SerialOut.println "Image transfer complete").wire
              ++ emptyFrame STATUS_SUCCESS).map some ++ polls)
          = some { ret := true, out := { out with statusCode := STATUS_SUCCESS },
                   unread := polls } := by
  obtain ⟨hpath, hlatest, hopen, log, hlogeq⟩ := captureAndSaveImage_ok env dev buf hcap hframe
  have hc1 := cam_capture_command env acks dev (List.replicate UART_RX_BUFFER_SIZE 0)
    (List.length_replicate _ _) hcap
  have hc2 := cam_send_output env acks
    { (Cam.captureAndSaveImage env dev).2 with
      tx := (Cam.captureAndSaveImage env dev).2.tx
        ++ [Cam.SerialOut.write (emptyFrame STATUS_SUCCESS)] }
    buf (emptyFrame CMD_CAPTURE ++ (List.replicate UART_RX_BUFFER_SIZE 0).drop 4)
    (by rw [List.length_append, List.length_drop, List.length_replicate]; rfl)
    (by rw [show ({ (Cam.captureAndSaveImage env dev).2 with
          tx := (Cam.captureAndSaveImage env dev).2.tx
            ++ [Cam.SerialOut.write (emptyFrame STATUS_SUCCESS)] } : Cam.Device).latestImagePath
          = Cam.imageFileName env.now from hlatest]
        exact imageFileName_length _)
    (by rw [show ({ (Cam.captureAndSaveImage env dev).2 with
          tx := (Cam.captureAndSaveImage env dev).2.tx
            ++ [Cam.SerialOut.write (emptyFrame STATUS_SUCCESS)] } : Cam.Device).latestImagePath
          = Cam.imageFileName env.now from hlatest]
        exact hopen)
    hS hacks hn
  refine ⟨_, hc1, ?_, hc2.1, hc2.2, ?_, ?_⟩
  · unfold Cam.outputFor Cam.CamState.boot
    rw [hc1]
    simp only [Option.map_some']
    rw [hlogeq, List.append_assoc, List.drop_left, List.drop_left]
  · unfold Master.captureImageFromCAM
    rw [sendUARTCommand_empty _ _ hp1, sendUARTCommand_empty _ _ hp2, wire_append]
    have hw : Cam.wire [Cam.SerialOut.write (emptyFrame STATUS_SUCCESS)]
        = emptyFrame STATUS_SUCCESS := by
      simp [Cam.wire, Cam.SerialOut.wire]
    rw [hw]
    have hr := master_receive_after_text rxBuffer
      { statusCode := statusCode, data := none, dataLen := none }
      (Cam.wire ((Cam.captureAndSaveImage env dev).2.tx.drop dev.tx.length))
      STATUS_SUCCESS [] hrx hlog
    rw [List.append_nil] at hr
    rw [hr]
    simp only [not_true_eq_false, if_false, ne_eq, List.map_nil, List.nil_append]
    rw [wire_append, wire_append, List.map_append, List.map_append, List.append_assoc]
    have hnoise := sending_line_no_start buf.length (Cam.totalChunksOf buf.length)
    have htr := receiveImageChunks_transfer buf imageBuffer
      (emptyFrame CMD_CAPTURE ++ emptyFrame CMD_SEND_IMAGE)
      (Cam.wire [Cam.SerialOut.print ("Sending image: " ++ Cam.fmtD buf.length
        ++ " bytes in " ++ Cam.fmtD (Cam.totalChunksOf buf.length) ++ " chunks\n")])
      ((Cam.wire [Cam.SerialOut.println "Image transfer complete",
          Cam.SerialOut.write (emptyFrame STATUS_SUCCESS)]).map Master.Poll.byte ++ later)
      h1 hS hbuf (by simpa [Cam.wire] using hnoise)
    rw [List.map_append] at htr
    rw [htr]
    simp [Cam.wire, Cam.SerialOut.wire]
  · intro rxb out polls hrxb
    exact master_receive_after_text rxb out _ STATUS_SUCCESS polls hrxb complete_line_no_start

/-- C25 (the closing log line is unread too). Over a lossless link, the master runs
`captureImageFromCAM` against a camera whose capture returns a path for a frame of
`1 ≤ S ≤ MAX_IMAGE_SIZE` bytes (the log text of the capture without a byte `0xAA`) and
whose every `waitForACK` sees an ACK. The camera's output for the SendImage command is
the log line with the sizes, all the chunk packets, the log line
`Image transfer complete` and one 4-byte Success frame `[0xAA, 0x00, 0x00, crc]`, sent
after `sendImageViaUART` returned true. The master returns true right after
acknowledging the last chunk, with the image in `imageBuffer`: the 25 bytes of the
closing line and the 4 bytes of the frame remain unread, and a later call of
`receiveUARTResponse` skips the line, reads the frame and returns true with status
Success. -/
theorem unread_trailing_response (env : Cam.CaptureEnv) (acks : List (List (Option Nat)))
    (dev : Cam.Device) (buf packet1 packet2 rxBuffer imageBuffer : List Nat)
    (statusCode imageBufferSize : Nat) (later : List Master.Poll)
    (hcap : (Cam.captureAndSaveImage env dev).1.length > 0)
    (hframe : env.frame = some buf)
    (h1 : 1 ≤ buf.length) (hS : buf.length ≤ MAX_IMAGE_SIZE)
    (hlog : ∀ b ∈ Cam.wire ((Cam.captureAndSaveImage env dev).2.tx.drop dev.tx.length),
      b ≠ START_BYTE)
    (hacks : ∀ w ∈ acks, Cam.waitForACK w = true)
    (hn : Cam.totalChunksOf buf.length ≤ acks.length)
    (hp1 : packet1.length = 256) (hp2 : packet2.length = 256)
    (hrx : rxBuffer.length = 256) (hbuf : imageBuffer.length = MAX_IMAGE_SIZE) :
    ∃ cam1,
      Cam.processUARTCommand (Cam.Handlers.firmware env acks) (Cam.CamState.boot dev)
          (emptyFrame CMD_CAPTURE) = some cam1 ∧
      Cam.outputFor (Cam.Handlers.firmware env acks) (Cam.CamState.boot dev)
          (emptyFrame CMD_CAPTURE)
        = some ((Cam.captureAndSaveImage env dev).2.tx.drop dev.tx.length
            ++ [Cam.SerialOut.write (emptyFrame STATUS_SUCCESS)]) ∧
      (Cam.sendImageViaUART acks cam1.dev.latestImagePath cam1.dev).1 = some true ∧
      Cam.outputFor (Cam.Handlers.firmware env acks) cam1 (emptyFrame CMD_SEND_IMAGE)
        = some ([Cam.SerialOut.print ("Sending image: " ++ Cam.fmtD buf.length
              ++ " bytes in " ++ Cam.fmtD (Cam.totalChunksOf buf.length) ++ " chunks\n")]
            ++ ((List.range' 0 (Cam.totalChunksOf buf.length)).flatMap fun j =>
                  Cam.sendChunk (Cam.chunkOf buf j) (Cam.chunkOf buf j).length j
                    (Cam.totalChunksOf buf.length))
            ++ [Cam.SerialOut.println "Image transfer complete",
                Cam.SerialOut.write (emptyFrame STATUS_SUCCESS)]) ∧
      Master.captureImageFromCAM packet1 packet2 rxBuffer statusCode imageBuffer
          imageBufferSize
          ((Cam.wire ((Cam.captureAndSaveImage env dev).2.tx.drop dev.tx.length
            ++ [Cam.SerialOut.write (emptyFrame STATUS_SUCCESS)])).map some)
          ((Cam.wire ([Cam.SerialOut.print ("Sending image: " ++ Cam.fmtD buf.length
              ++ " bytes in " ++ Cam.fmtD (Cam.totalChunksOf buf.length) ++ " chunks\n")]
            ++ ((List.range' 0 (Cam.totalChunksOf buf.length)).flatMap fun j =>
                  Cam.sendChunk (Cam.chunkOf buf j) (Cam.chunkOf buf j).length j
                    (Cam.totalChunksOf buf.length))
            ++ [Cam.SerialOut.println "Image transfer complete",
                Cam.SerialOut.write (emptyFrame STATUS_SUCCESS)])).map Master.Poll.byte
            ++ later)
        = some
            { ret := true, imageBuffer := buf ++ imageBuffer.drop buf.length,
              imageBufferSize := buf.length,
              tx := emptyFrame CMD_CAPTURE ++ emptyFrame CMD_SEND_IMAGE
                ++ List.replicate (Cam.totalChunksOf buf.length) 0x06,
              unread := ((Cam.SerialOut.println "Image transfer complete").wire
                ++ emptyFrame STATUS_SUCCESS).map Master.Poll.byte ++ later } ∧
      ∀ (rxb : List Nat) (out : Master.RxOut) (polls : List (Option Nat)),
        rxb.length = 256 →
        Master.receiveUARTResponse rxb out
            (((Cam.SerialOut.println "Image transfer complete").wire
              ++ emptyFrame STATUS_SUCCESS).map some ++ polls)
          = some { ret := true, out := { out with statusCode := STATUS_SUCCESS },
                   unread := polls } :=
  capture_session env acks dev buf packet1 packet2 rxBuffer imageBuffer statusCode
    imageBufferSize later hcap hframe h1 hS hlog hacks hn hp1 hp2 hrx hbuf

set_option maxRecDepth 1000000 in
/-- Instance of C25: a camera with an empty card captures the 4-byte frame
`[255, 216, 255, 217]` at 1000 ms and sends it as one packet; the master returns true
with these 4 bytes and leaves the closing line and the Success frame unread. -/
theorem unread_trailing_response_witness :
    ((Cam.captureAndSaveImage (Cam.CaptureEnv.good 1000 [255, 216, 255, 217])
          Cam.Device.fresh).1.length > 0
      ∧ (Cam.CaptureEnv.good 1000 [255, 216, 255, 217]).frame = some [255, 216, 255, 217]
      ∧ 1 ≤ ([255, 216, 255, 217] : List Nat).length
      ∧ ([255, 216, 255, 217] : List Nat).length ≤ MAX_IMAGE_SIZE
      ∧ (∀ b ∈ Cam.wire ((Cam.captureAndSaveImage (Cam.CaptureEnv.good 1000
            [255, 216, 255, 217]) Cam.Device.fresh).2.tx.drop Cam.Device.fresh.tx.length),
          b ≠ START_BYTE)
      ∧ (∀ w ∈ [[some 6]], Cam.waitForACK w = true)
      ∧ Cam.totalChunksOf ([255, 216, 255, 217] : List Nat).length
          ≤ ([[some 6]] : List (List (Option Nat))).length
      ∧ (List.replicate 256 0).length = 256
      ∧ (List.replicate MAX_IMAGE_SIZE 0).length = MAX_IMAGE_SIZE) ∧
    Master.captureImageFromCAM (List.replicate 256 0) (List.replicate 256 0)
        (List.replicate 256 0) 0 (List.replicate MAX_IMAGE_SIZE 0) 0
        ((Cam.wire ((Cam.captureAndSaveImage (Cam.CaptureEnv.good 1000 [255, 216, 255, 217])
            Cam.Device.fresh).2.tx.drop Cam.Device.fresh.tx.length
          ++ [Cam.SerialOut.write (emptyFrame STATUS_SUCCESS)])).map some)
        ((Cam.wire ([Cam.SerialOut.print ("Sending image: "
              ++ Cam.fmtD ([255, 216, 255, 217] : List Nat).length ++ " bytes in "
              ++ Cam.fmtD (Cam.totalChunksOf ([255, 216, 255, 217] : List Nat).length)
              ++ " chunks\n")]
          ++ ((List.range' 0 (Cam.totalChunksOf ([255, 216, 255, 217] : List Nat).length)).flatMap
                fun j =>
                Cam.sendChunk (Cam.chunkOf [255, 216, 255, 217] j)
                  (Cam.chunkOf [255, 216, 255, 217] j).length j
                  (Cam.totalChunksOf ([255, 216, 255, 217] : List Nat).length))
          ++ [Cam.SerialOut.println "Image transfer complete",
              Cam.SerialOut.write (emptyFrame STATUS_SUCCESS)])).map Master.Poll.byte
          ++ [])
      = some
          { ret := true,
            imageBuffer := [255, 216, 255, 217] ++ (List.replicate MAX_IMAGE_SIZE 0).drop
              ([255, 216, 255, 217] : List Nat).length,
            imageBufferSize := ([255, 216, 255, 217] : List Nat).length,
            tx := emptyFrame CMD_CAPTURE ++ emptyFrame CMD_SEND_IMAGE
              ++ List.replicate (Cam.totalChunksOf ([255, 216, 255, 217] : List Nat).length)
                0x06,
            unread := ((Cam.SerialOut.println "Image transfer complete").wire
              ++ emptyFrame STATUS_SUCCESS).map Master.Poll.byte ++ [] } :=
  ⟨⟨by decide, rfl, by decide, by decide, by decide, by decide, by decide,
      List.length_replicate _ _, List.length_replicate _ _⟩,
    (unread_trailing_response (Cam.CaptureEnv.good 1000 [255, 216, 255, 217]) [[some 6]]
      Cam.Device.fresh [255, 216, 255, 217] (List.replicate 256 0) (List.replicate 256 0)
      (List.replicate 256 0) (List.replicate MAX_IMAGE_SIZE 0) 0 0 [] (by decide) rfl
      (by decide) (by decide) (by decide) (by decide) (by decide)
      (List.length_replicate _ _) (List.length_replicate _ _) (List.length_replicate _ _)
      (List.length_replicate _ _)).elim fun _ h => h.2.2.2.2.1⟩

set_option maxRecDepth 1000000 in
/-- Counterexample to C25 as stated: a camera with an empty card captures the 4-byte
frame `[255, 216, 255, 217]` at 1000 ms and serves the SendImage command with the ACK of
the master arriving. Its output on the wire is not the packet followed by the frame: it
is the 35 bytes of `Sending image: 4 bytes in 1 chunks`, the 12 bytes of the packet, the
25 bytes of `Image transfer complete` with CR LF, and the 4 bytes of the Success frame.
The master, which got `Image saved: /images/IMG_1000.jpg (4 bytes)` and the Success frame
for its Capture command and then these bytes, returns true and leaves 29 bytes unread,
the first of them `I` (73), not `0xAA`. -/
theorem unread_trailing_counterexample :
    ∃ cam1 r,
      Cam.processUARTCommand
          (Cam.Handlers.firmware (Cam.CaptureEnv.good 1000 [255, 216, 255, 217]) [[some 6]])
          (Cam.CamState.boot Cam.Device.fresh) (emptyFrame CMD_CAPTURE) = some cam1 ∧
      (Cam.outputFor
          (Cam.Handlers.firmware (Cam.CaptureEnv.good 1000 [255, 216, 255, 217]) [[some 6]])
          cam1 (emptyFrame CMD_SEND_IMAGE)).map Cam.wire
        = some ([83, 101, 110, 100, 105, 110, 103, 32, 105, 109, 97, 103, 101, 58, 32, 52, 32,
              98, 121, 116, 101, 115, 32, 105, 110, 32, 49, 32, 99, 104, 117, 110, 107, 115, 10]
            ++ [0xAA, 0, 0, 0, 1, 0, 4, 255, 216, 255, 217, 0x0E]
            ++ [73, 109, 97, 103, 101, 32, 116, 114, 97, 110, 115, 102, 101, 114, 32, 99, 111,
              109, 112, 108, 101, 116, 101, 13, 10]
            ++ [0xAA, 0, 0, 0xCF]) ∧
      Master.captureImageFromCAM (List.replicate 256 0) (List.replicate 256 0)
          (List.replicate 256 0) 0 (List.replicate MAX_IMAGE_SIZE 0) 0
          (([73, 109, 97, 103, 101, 32, 115, 97, 118, 101, 100, 58, 32, 47, 105, 109, 97, 103,
              101, 115, 47, 73, 77, 71, 95, 49, 48, 48, 48, 46, 106, 112, 103, 32, 40, 52, 32,
              98, 121, 116, 101, 115, 41, 10]
            ++ [0xAA, 0, 0, 0xCF]).map some)
          (([83, 101, 110, 100, 105, 110, 103, 32, 105, 109, 97, 103, 101, 58, 32, 52, 32,
              98, 121, 116, 101, 115, 32, 105, 110, 32, 49, 32, 99, 104, 117, 110, 107, 115, 10]
            ++ [0xAA, 0, 0, 0, 1, 0, 4, 255, 216, 255, 217, 0x0E]
            ++ [73, 109, 97, 103, 101, 32, 116, 114, 97, 110, 115, 102, 101, 114, 32, 99, 111,
              109, 112, 108, 101, 116, 101, 13, 10]
            ++ [0xAA, 0, 0, 0xCF]).map Master.Poll.byte) = some r ∧
      r.ret = true ∧ r.imageBufferSize = 4 ∧
      r.unread
        = ([73, 109, 97, 103, 101, 32, 116, 114, 97, 110, 115, 102, 101, 114, 32, 99, 111,
            109, 112, 108, 101, 116, 101, 13, 10, 0xAA, 0, 0, 0xCF]).map Master.Poll.byte ∧
      r.unread.length = 29 := by
  obtain ⟨cam1, hc1, _, _, hout, hm, _⟩ := capture_session
    (Cam.CaptureEnv.good 1000 [255, 216, 255, 217]) [[some 6]]
    Cam.Device.fresh [255, 216, 255, 217] (List.replicate 256 0) (List.replicate 256 0)
    (List.replicate 256 0) (List.replicate MAX_IMAGE_SIZE 0) 0 0 [] (by decide) rfl
    (by decide) (by decide) (by decide) (by decide) (by decide)
    (List.length_replicate _ _) (List.length_replicate _ _) (List.length_replicate _ _)
    (List.length_replicate _ _)
  have hw : Cam.wire ([Cam.SerialOut.print ("Sending image: "
              ++ Cam.fmtD ([255, 216, 255, 217] : List Nat).length ++ " bytes in "
              ++ Cam.fmtD (Cam.totalChunksOf ([255, 216, 255, 217] : List Nat).length)
              ++ " chunks\n")]
          ++ ((List.range' 0 (Cam.totalChunksOf ([255, 216, 255, 217] : List Nat).length)).flatMap
                fun j =>
                Cam.sendChunk (Cam.chunkOf [255, 216, 255, 217] j)
                  (Cam.chunkOf [255, 216, 255, 217] j).length j
                  (Cam.totalChunksOf ([255, 216, 255, 217] : List Nat).length))
          ++ [Cam.SerialOut.println "Image transfer complete",
              Cam.SerialOut.write (emptyFrame STATUS_SUCCESS)])
      = [83, 101, 110, 100, 105, 110, 103, 32, 105, 109, 97, 103, 101, 58, 32, 52, 32,
              98, 121, 116, 101, 115, 32, 105, 110, 32, 49, 32, 99, 104, 117, 110, 107, 115, 10]
            ++ [0xAA, 0, 0, 0, 1, 0, 4, 255, 216, 255, 217, 0x0E]
            ++ [73, 109, 97, 103, 101, 32, 116, 114, 97, 110, 115, 102, 101, 114, 32, 99, 111,
              109, 112, 108, 101, 116, 101, 13, 10]
            ++ [0xAA, 0, 0, 0xCF] := by
    decide
  have hw1 : Cam.wire ((Cam.captureAndSaveImage
        (Cam.CaptureEnv.good 1000 [255, 216, 255, 217])
        Cam.Device.fresh).2.tx.drop Cam.Device.fresh.tx.length
      ++ [Cam.SerialOut.write (emptyFrame STATUS_SUCCESS)])
      = [73, 109, 97, 103, 101, 32, 115, 97, 118, 101, 100, 58, 32, 47, 105, 109, 97, 103,
              101, 115, 47, 73, 77, 71, 95, 49, 48, 48, 48, 46, 106, 112, 103, 32, 40, 52, 32,
              98, 121, 116, 101, 115, 41, 10]
            ++ [0xAA, 0, 0, 0xCF] := by
    decide
  rw [hw, hw1, List.append_nil] at hm
  refine ⟨cam1, _, hc1, ?_, hm, rfl, rfl, by decide, by decide⟩
  rw [hout, Option.map_some', hw]

/-! ## Theorems: the capture counter in the status response (C10) -/

/-- The call `cleanupOldImages` leaves `imageCounter` as it is. -/
theorem cleanupOldImages_counter (dev : Cam.Device) :
    (Cam.cleanupOldImages dev).imageCounter = dev.imageCounter := by
  unfold Cam.cleanupOldImages
  split
  · split <;> rfl
  · rfl

/-- The two ways `captureAndSaveImage` ends: with the empty string and `imageCounter` as
it was, or with the new file name and `imageCounter` one higher. -/
theorem captureAndSaveImage_cases (env : Cam.CaptureEnv) (dev : Cam.Device) :
    ((Cam.captureAndSaveImage env dev).1 = ""
        ∧ (Cam.captureAndSaveImage env dev).2.imageCounter = dev.imageCounter) ∨
    ((Cam.captureAndSaveImage env dev).1 = Cam.imageFileName env.now
        ∧ (Cam.captureAndSaveImage env dev).2.imageCounter = dev.imageCounter + 1) := by
  unfold Cam.captureAndSaveImage
  by_cases h0 : ¬ dev.sdCardInitialized = true ∧ ¬ env.sdInit = true
  · rw [if_pos h0]
    exact Or.inl ⟨rfl, rfl⟩
  · rw [if_neg h0]
    have hdev1 : (if dev.sdCardInitialized = true then dev
        else ({ dev with sdCardInitialized := true, tx := dev.tx ++ env.sdInitLog } :
          Cam.Device)).imageCounter = dev.imageCounter := by
      split <;> rfl
    cases hf : env.frame with
    | none => exact Or.inl ⟨rfl, hdev1⟩
    | some buf =>
      simp only []
      by_cases hw : env.canWrite = true
      · rw [if_pos hw]
        refine Or.inr ⟨rfl, ?_⟩
        simp only []
        rw [cleanupOldImages_counter, hdev1]
      · rw [if_neg hw]
        refine Or.inl ⟨rfl, ?_⟩
        simp only []
        rw [cleanupOldImages_counter, hdev1]

/-- The call `captureAndSaveImage` adds one to `imageCounter` when it returns a path and
leaves it as it is when it returns the empty string. -/
theorem captureAndSaveImage_counter (env : Cam.CaptureEnv) (dev : Cam.Device) :
    (Cam.captureAndSaveImage env dev).2.imageCounter
      = dev.imageCounter + (if (Cam.captureAndSaveImage env dev).1.length > 0 then 1 else 0) := by
  rcases captureAndSaveImage_cases env dev with ⟨h1, h2⟩ | ⟨h1, h2⟩
  · rw [h2, h1]
    rfl
  · rw [h2, h1, if_pos (imageFileName_length _)]

/-- The call `sendImageViaUART` leaves `imageCounter` as it is. -/
theorem sendImageViaUART_counter (acks : List (List (Option Nat))) (path : String)
    (dev : Cam.Device) :
    (Cam.sendImageViaUART acks path dev).2.imageCounter = dev.imageCounter := by
  unfold Cam.sendImageViaUART
  split <;> rfl

/-- A response changes nothing but the serial output. -/
theorem respond_counter (dev dev1 : Cam.Device) (s : Nat) (data : Option (List Nat))
    (n : Nat) (h : Cam.respond dev s data n = some dev1) :
    dev1.imageCounter = dev.imageCounter := by
  unfold Cam.respond at h
  obtain ⟨frame, _, hd⟩ := Option.map_eq_some'.mp h
  rw [← hd]

/-- The effect of a command on `imageCounter`, with the firmware's handlers: a Capture
command whose capture returns a path adds one, every other command leaves it. -/
theorem dispatch_counter (env : Cam.CaptureEnv) (acks : List (List (Option Nat)))
    (cmdId : Nat) (dev dev1 : Cam.Device)
    (h : Cam.dispatch (Cam.Handlers.firmware env acks) cmdId dev = some dev1) :
    dev1.imageCounter = dev.imageCounter
      + (if cmdId = CMD_CAPTURE ∧ (Cam.captureAndSaveImage env dev).1.length > 0 then 1
          else 0) := by
  unfold Cam.dispatch at h
  by_cases hc : cmdId = CMD_CAPTURE
  · rw [if_pos hc] at h
    simp only [Cam.Handlers.firmware] at h
    have hcnt := captureAndSaveImage_counter env dev
    by_cases hlen : (Cam.captureAndSaveImage env dev).1.length > 0
    · rw [if_pos hlen] at h
      rw [respond_counter _ _ _ _ _ h, hcnt, if_pos hlen, if_pos ⟨hc, hlen⟩]
    · rw [if_neg hlen] at h
      rw [respond_counter _ _ _ _ _ h, hcnt, if_neg hlen, if_neg (fun hh => hlen hh.2)]
  · rw [if_neg hc] at h
    rw [if_neg (fun hh => hc hh.1), Nat.add_zero]
    split at h
    · split at h
      · simp only [Cam.Handlers.firmware] at h
        split at h <;>
          rw [respond_counter _ _ _ _ _ h, sendImageViaUART_counter]
      · exact respond_counter _ _ _ _ _ h
    · split at h
      · exact respond_counter _ _ _ _ _ h
      · split at h
        · split at h
          · have hr := respond_counter _ _ _ _ _ h
            exact hr
          · exact respond_counter _ _ _ _ _ h
        · cases h; rfl

/-- The camera serves one request with an empty receiver: the call returns with the
receiver empty again, and `imageCounter` is one higher exactly when the request is a
Capture whose `captureAndSaveImage` returns a path. -/
theorem serve_step (r : Cam.Request) (dev : Cam.Device) (buf : List Nat)
    (hbuf : buf.length = 256) (hp : r.payload.length ≤ 252) :
    ∃ cam1, Cam.processUARTCommand (Cam.Handlers.firmware r.env r.acks)
          { dev := dev, rxBuffer := buf, rxIndex := 0 } r.frame = some cam1 ∧
      cam1.rxIndex = 0 ∧ cam1.rxBuffer.length = 256 ∧
      cam1.dev.imageCounter = dev.imageCounter
        + (if r.cmdId = CMD_CAPTURE ∧ (Cam.captureAndSaveImage r.env dev).1.length > 0 then 1
            else 0) := by
  have hrun := cam_process_frame (Cam.Handlers.firmware r.env r.acks) dev buf r.cmdId
    r.payload
    (Cam.calculateCRC8 ([START_BYTE, r.cmdId, r.payload.length] ++ r.payload)
      (3 + r.payload.length)) [] hbuf hp
  rw [List.append_nil, bind_processUARTCommand_nil, if_pos rfl] at hrun
  obtain ⟨dev1, hd⟩ := dispatch_isSome (Cam.Handlers.firmware r.env r.acks) dev r.cmdId
  rw [hd, Option.map_some'] at hrun
  refine ⟨_, hrun, rfl, ?_, dispatch_counter r.env r.acks r.cmdId dev dev1 hd⟩
  simp only [List.length_append, List.length_cons, List.length_nil, List.length_drop, hbuf]
  omega

/-- After boot or after any served request the camera serves a list of requests: the
run returns, and `imageCounter` has grown by the number of successful captures. -/
theorem serve_counter :
    ∀ (rs : List Cam.Request) (cam : Cam.CamState),
      cam.rxIndex = 0 → cam.rxBuffer.length = 256 → (∀ r ∈ rs, r.payload.length ≤ 252) →
      ∃ cam1, Cam.serve rs cam = some cam1 ∧ cam1.rxIndex = 0 ∧ cam1.rxBuffer.length = 256 ∧
        cam1.dev.imageCounter = cam.dev.imageCounter + Cam.successfulCaptures rs cam := by
  intro rs
  induction rs with
  | nil =>
    intro cam hi hb _
    exact ⟨cam, rfl, hi, hb, rfl⟩
  | cons r rs ih =>
    intro cam hi hb hp
    obtain ⟨dev, buf, idx⟩ := cam
    simp only [] at hi hb
    subst hi
    obtain ⟨cam1, h1, hi1, hb1, hc1⟩ :=
      serve_step r dev buf hb (hp r (List.mem_cons_self _ _))
    obtain ⟨cam2, h2, hi2, hb2, hc2⟩ :=
      ih cam1 hi1 hb1 (fun x hx => hp x (List.mem_cons_of_mem _ hx))
    refine ⟨cam2, ?_, hi2, hb2, ?_⟩
    · rw [Cam.serve, h1]
      exact h2
    · rw [Cam.successfulCaptures, h1, hc2, hc1]
      simp only []
      omega

/-- C10. For every camera state, a valid GetStatus frame (command id 0x03, any payload
of at most 252 bytes, for instance `[0xAA, 0x03, 0x00, crc]`) makes the camera write
exactly one response frame, `[0xAA, 0x00, 0x02, f, n mod 256, crc]` with `f = 1` if the
SD card is initialised and `0` otherwise and `n` the value of `imageCounter`; the device
is otherwise unchanged and the receiver is empty again. And `imageCounter` is the number
of successful captures since boot: a camera that boots (`imageCounter = 0`, empty
receiver) and serves any list of valid command frames with the firmware's handlers has
`imageCounter` equal to the number of Capture commands whose `captureAndSaveImage`
returned a path, and its output for a GetStatus frame that follows is the one frame
`[0xAA, 0x00, 0x02, f, n mod 256, crc]` with that number as `n`. -/
theorem get_status_response (h : Cam.Handlers) (dev : Cam.Device) (buf p : List Nat)
    (hbuf : buf.length = 256) (hp : p.length ≤ 252) :
    Cam.processUARTCommand h { dev := dev, rxBuffer := buf, rxIndex := 0 }
        ([0xAA, 0x03, p.length] ++ p
          ++ [Cam.calculateCRC8 ([0xAA, 0x03, p.length] ++ p) (3 + p.length)])
      = some
          { dev := { dev with tx := dev.tx ++ [Cam.SerialOut.write
              [0xAA, 0x00, 0x02, (if dev.sdCardInitialized then 1 else 0),
                dev.imageCounter % 256,
                Cam.calculateCRC8 [0xAA, 0x00, 0x02,
                  (if dev.sdCardInitialized then 1 else 0), dev.imageCounter % 256] 5]] },
            rxBuffer := [0xAA, 0x03, p.length] ++ p
              ++ [Cam.calculateCRC8 ([0xAA, 0x03, p.length] ++ p) (3 + p.length)]
              ++ buf.drop (4 + p.length),
            rxIndex := 0 } ∧
    ∀ (rs : List Cam.Request) (dev0 : Cam.Device),
      dev0.imageCounter = 0 → (∀ r ∈ rs, r.payload.length ≤ 252) →
      ∃ cam1, Cam.serve rs (Cam.CamState.boot dev0) = some cam1 ∧
        cam1.dev.imageCounter = Cam.successfulCaptures rs (Cam.CamState.boot dev0) ∧
        Cam.outputFor h cam1
            ([0xAA, 0x03, p.length] ++ p
              ++ [Cam.calculateCRC8 ([0xAA, 0x03, p.length] ++ p) (3 + p.length)])
          = some [Cam.SerialOut.write
              [0xAA, 0x00, 0x02, (if cam1.dev.sdCardInitialized then 1 else 0),
                Cam.successfulCaptures rs (Cam.CamState.boot dev0) % 256,
                Cam.calculateCRC8 [0xAA, 0x00, 0x02,
                  (if cam1.dev.sdCardInitialized then 1 else 0),
                  Cam.successfulCaptures rs (Cam.CamState.boot dev0) % 256] 5]] := by
  refine ⟨get_status_frame h dev buf p hbuf hp, fun rs dev0 h0 hrs => ?_⟩
  obtain ⟨cam1, hs, hi, hb, hc⟩ := serve_counter rs (Cam.CamState.boot dev0) rfl
    (List.length_replicate _ _) hrs
  have hcnt : cam1.dev.imageCounter = Cam.successfulCaptures rs (Cam.CamState.boot dev0) := by
    rw [hc]
    show dev0.imageCounter + _ = _
    rw [h0, Nat.zero_add]
  refine ⟨cam1, hs, hcnt, ?_⟩
  obtain ⟨dev1, buf1, idx1⟩ := cam1
  simp only [] at hi hb hcnt
  subst hi
  unfold Cam.outputFor
  rw [get_status_frame h dev1 buf1 p hb hp, Option.map_some']
  simp only []
  rw [List.drop_left, hcnt]

set_option maxRecDepth 1000000 in
/-- Instance of C10: the frame `[0xAA, 0x03, 0x00, 0xF0]` on a camera with an initialised
SD card and 261 captures answers `[0xAA, 0x00, 0x02, 1, 5, 0xF6]`; and after the sample
run from boot, in which two of three captures succeed, `imageCounter` is 2 and the
answer to GetStatus is `[0xAA, 0x00, 0x02, 1, 2, crc]`. -/
theorem get_status_response_witness :
    ((List.replicate 256 0).length = 256 ∧ ([] : List Nat).length ≤ 252) ∧
    Cam.processUARTCommand Cam.Handlers.failing
        { dev := Cam.Device.sample, rxBuffer := List.replicate 256 0, rxIndex := 0 }
        [0xAA, 0x03, 0x00, 0xF0]
      = some
          { dev := { Cam.Device.sample with
                     tx := [Cam.SerialOut.write [0xAA, 0x00, 0x02, 1, 5, 0xF6]] },
            rxBuffer := [0xAA, 0x03, 0x00, 0xF0] ++ List.replicate 252 0,
            rxIndex := 0 } ∧
    ∃ cam1, Cam.serve Cam.Request.sampleRun (Cam.CamState.boot Cam.Device.fresh) = some cam1 ∧
      cam1.dev.imageCounter = 2 ∧ cam1.dev.sdCardInitialized = true ∧
      Cam.outputFor Cam.Handlers.failing cam1 [0xAA, 0x03, 0x00, 0xF0]
        = some [Cam.SerialOut.write [0xAA, 0x00, 0x02, 1, 2, 0xE3]] := by
  have h := get_status_response Cam.Handlers.failing Cam.Device.sample (List.replicate 256 0) []
    (List.length_replicate _ _) (by decide)
  refine ⟨⟨List.length_replicate _ _, by decide⟩, h.1, ?_⟩
  obtain ⟨cam1, hs, hc, hout⟩ := h.2 Cam.Request.sampleRun Cam.Device.fresh rfl (by decide)
  have hk : Cam.successfulCaptures Cam.Request.sampleRun (Cam.CamState.boot Cam.Device.fresh)
      = 2 := by
    decide
  have hsd : (Cam.serve Cam.Request.sampleRun (Cam.CamState.boot Cam.Device.fresh)).map
      (fun c => c.dev.sdCardInitialized) = some true := by
    decide
  rw [hs] at hsd
  have hsd1 : cam1.dev.sdCardInitialized = true := Option.some.inj hsd
  rw [hk] at hc hout
  rw [hsd1] at hout
  exact ⟨cam1, hs, hc, hsd1, hout⟩

end Blind
